import Mathlib

/-!
Channel Access client TCP virtual circuit (`src/ca/tcpiiu.cpp`).

A shallow embedding of the connection state machine, the socket write loop and the
inbound protocol parser of `tcpiiu`, followed by the properties proved about them.

Conventions of the embedding

* Member functions of `tcpiiu` become functions on a record of the fields they read
  and write.  Calls that leave the process (socket system calls, event signals,
  watchdog calls, diagnostics) are appended to an event trace, in program order.
* A blocking system call is scripted: each attempt carries what the call returned and
  the mutex-guarded operations other threads applied to the circuit while the caller
  was inside the kernel.
-/

/-! ## Connection state machine -/

/-- Connection states of a circuit (`tcpiiu::iiu_conn_state`). -/
inductive iiu_conn_state where
  | iiucs_connecting
  | iiucs_connected
  | iiucs_clean_shutdown
  | iiucs_disconnected
  | iiucs_abort_shutdown
  deriving DecidableEq, Repr

open iiu_conn_state

/-- Answers of `epicsSocketSystemCallInterruptMechanismQuery ()`. -/
inductive epicsSocketSystemCallInterruptMechanismQueryInfo where
  | esscimqi_socketCloseRequired
  | esscimqi_socketBothShutdownRequired
  | esscimqi_socketSigAlarmRequired
  | esscimqi_shuechanismImplemenedHerein
  deriving DecidableEq, Repr

open epicsSocketSystemCallInterruptMechanismQueryInfo

/-- Socket error codes the circuit distinguishes (`SOCKERRNO` after a failed call). -/
inductive SockErrno where
  | SOCK_EINTR
  | SOCK_EPIPE
  | SOCK_ECONNRESET
  | SOCK_ETIMEDOUT
  | SOCK_ECONNABORTED
  | SOCK_SHUTDOWN
  | other (code : Nat)
  deriving DecidableEq, Repr

open SockErrno

/-- Calls that leave the circuit object, recorded in program order.  A `send` event
carries the connection state the loop condition had just read when the call was
issued. -/
inductive SockEvent where
  | setLinger
  | epicsSocketDestroy
  | shutdownRDWR
  | interruptSocketRecv
  | interruptSocketSend
  | sendThreadFlushEventSignal
  | connectCall
  | recvDogConnectNotify
  | sendDogStart
  | sendDogCancel
  | send (issuedIn : iiu_conn_state)
  | errlogPrintf
  | printf
  deriving DecidableEq, Repr

/-- Fields of `tcpiiu` used by the connection state machine.  `channelList` holds the
identities of the channels linked on the intrusive list, `trace` the calls made so
far. -/
structure tcpiiu where
  state : iiu_conn_state
  discardingPendingData : Bool
  socketHasBeenClosed : Bool
  channelList : List Nat
  trace : List SockEvent
  deriving DecidableEq, Repr

/-- Field values set by the constructor `tcpiiu::tcpiiu`. -/
def tcpiiu.init : tcpiiu :=
  { state := iiucs_connecting
    discardingPendingData := false
    socketHasBeenClosed := false
    channelList := []
    trace := [] }

/-- Append one event to the trace. -/
def tcpiiu.emit (s : tcpiiu) (e : SockEvent) : tcpiiu :=
  { s with trace := s.trace ++ [e] }

/-- Embedding of `tcpiiu::initiateCleanShutdown`. -/
def tcpiiu.initiateCleanShutdown (s : tcpiiu) : tcpiiu :=
  if s.state = iiucs_connected then
    ({ s with state := iiucs_clean_shutdown }).emit SockEvent.sendThreadFlushEventSignal
  else s

/-- Embedding of `tcpiiu::disconnectNotify`. -/
def tcpiiu.disconnectNotify (s : tcpiiu) : tcpiiu :=
  ({ s with state := iiucs_disconnected }).emit SockEvent.sendThreadFlushEventSignal

/-- Embedding of `tcpiiu::initiateAbortShutdown`.  `info` is the answer of the
interrupt mechanism query, `lingerStatus` and `shutdownStatus` are the values the
`setsockopt` and `shutdown` calls return if they are made. -/
def tcpiiu.initiateAbortShutdown (s : tcpiiu)
    (info : epicsSocketSystemCallInterruptMechanismQueryInfo)
    (lingerStatus shutdownStatus : Int) : tcpiiu :=
  let s1 :=
    if ¬ s.discardingPendingData then
      let a := s.emit SockEvent.setLinger
      let b := if lingerStatus ≠ 0 then a.emit SockEvent.errlogPrintf else a
      { b with discardingPendingData := true }
    else s
  let oldState := s1.state
  if oldState ≠ iiucs_abort_shutdown ∧ oldState ≠ iiucs_disconnected then
    let s2 := { s1 with state := iiucs_abort_shutdown }
    let s3 :=
      match info with
      | esscimqi_socketCloseRequired =>
          if ¬ s2.socketHasBeenClosed then
            { s2.emit SockEvent.epicsSocketDestroy with socketHasBeenClosed := true }
          else s2
      | esscimqi_socketBothShutdownRequired =>
          let a := s2.emit SockEvent.shutdownRDWR
          if shutdownStatus ≠ 0 then a.emit SockEvent.errlogPrintf else a
      | esscimqi_socketSigAlarmRequired =>
          (s2.emit SockEvent.interruptSocketRecv).emit SockEvent.interruptSocketSend
      | esscimqi_shuechanismImplemenedHerein => s2
    s3.emit SockEvent.sendThreadFlushEventSignal
  else s1

/-- Embedding of `tcpiiu::uninstallChan`: unlink the channel, and start a clean
shutdown when the list has become empty. -/
def tcpiiu.uninstallChan (s : tcpiiu) (chan : Nat) : tcpiiu :=
  let s1 := { s with channelList := s.channelList.erase chan }
  if s1.channelList.length = 0 then s1.initiateCleanShutdown else s1

/-- Embedding of the socket part of the destructor `tcpiiu::~tcpiiu`. -/
def tcpiiu.destructor (s : tcpiiu) : tcpiiu :=
  if ¬ s.socketHasBeenClosed then s.emit SockEvent.epicsSocketDestroy else s

/-- Mutex-guarded operations another thread can apply to the circuit while the
calling thread is blocked in a system call. -/
inductive AsyncOp where
  | initiateCleanShutdown
  | disconnectNotify
  | initiateAbortShutdown (info : epicsSocketSystemCallInterruptMechanismQueryInfo)
      (lingerStatus shutdownStatus : Int)
  | uninstallChan (chan : Nat)
  deriving DecidableEq, Repr

/-- Apply one operation of another thread. -/
def tcpiiu.applyAsync (s : tcpiiu) : AsyncOp → tcpiiu
  | AsyncOp.initiateCleanShutdown => s.initiateCleanShutdown
  | AsyncOp.disconnectNotify => s.disconnectNotify
  | AsyncOp.initiateAbortShutdown info l sh => s.initiateAbortShutdown info l sh
  | AsyncOp.uninstallChan chan => s.uninstallChan chan

/-- Apply the operations of other threads in order. -/
def tcpiiu.applyAsyncs (s : tcpiiu) (ops : List AsyncOp) : tcpiiu :=
  ops.foldl tcpiiu.applyAsync s

/-- One scripted system call: the operations other threads perform while the call is
in the kernel, the value it returns and the error code read afterwards. -/
structure SyscallAttempt where
  during : List AsyncOp
  status : Int
  localError : SockErrno
  deriving DecidableEq, Repr

/-- Modelled from the spec: `cac::disconnectNotify ( tcpiiu & )` is not part of the
sources; the upper layer takes the circuit mutex and the circuit enters
`disconnected` (section 4.5, column "peer close / io error"), which is what
`tcpiiu::disconnectNotify` does. -/
def cac.disconnectNotify (s : tcpiiu) : tcpiiu :=
  s.disconnectNotify

/-- Loop of `tcpiiu::connect`, one scripted `::connect` call per iteration.  The
second component is `false` when the script ends while the loop is still running. -/
def tcpiiu.connectLoop (s : tcpiiu) : List SyscallAttempt → tcpiiu × Bool
  | [] => if s.state = iiucs_connecting then (s, false) else (s, true)
  | a :: rest =>
      if s.state = iiucs_connecting then
        let s1 := (s.emit SockEvent.connectCall).applyAsyncs a.during
        if a.status = 0 then
          if s1.state = iiucs_connecting then
            (({ s1 with state := iiucs_connected }).emit SockEvent.recvDogConnectNotify, true)
          else (s1, true)
        else if a.localError = SOCK_EINTR then
          tcpiiu.connectLoop s1 rest
        else if a.localError = SOCK_SHUTDOWN then
          (s1, true)
        else
          (cac.disconnectNotify (s1.emit SockEvent.printf), true)
      else (s, true)

/-- Embedding of `tcpiiu::connect`. -/
def tcpiiu.connect (s : tcpiiu) (script : List SyscallAttempt) : tcpiiu × Bool :=
  let r := tcpiiu.connectLoop (s.emit SockEvent.sendDogStart) script
  if r.2 then (r.1.emit SockEvent.sendDogCancel, true) else r

/-- Loop of `tcpiiu::sendBytes`, one scripted `::send` call per iteration.  The second
component is the value left in `nBytes` when the loop is left, and `none` when the
script ends while the loop is still running. -/
def tcpiiu.sendLoop (s : tcpiiu) : List SyscallAttempt → tcpiiu × Option Nat
  | [] =>
      if s.state = iiucs_connected ∨ s.state = iiucs_clean_shutdown then (s, none)
      else (s, some 0)
  | a :: rest =>
      if s.state = iiucs_connected ∨ s.state = iiucs_clean_shutdown then
        let s1 := (s.emit (SockEvent.send s.state)).applyAsyncs a.during
        if a.status > 0 then
          (s1, some a.status.toNat)
        else if a.status = 0 then
          (cac.disconnectNotify s1, some 0)
        else if a.localError = SOCK_EINTR then
          tcpiiu.sendLoop s1 rest
        else
          let s2 :=
            if a.localError ≠ SOCK_EPIPE ∧ a.localError ≠ SOCK_ECONNRESET ∧
                a.localError ≠ SOCK_ETIMEDOUT ∧ a.localError ≠ SOCK_ECONNABORTED ∧
                a.localError ≠ SOCK_SHUTDOWN then
              s1.emit SockEvent.printf
            else s1
          (cac.disconnectNotify s2, some 0)
      else (s, some 0)

/-- Embedding of `tcpiiu::sendBytes`. -/
def tcpiiu.sendBytes (s : tcpiiu) (script : List SyscallAttempt) : tcpiiu × Option Nat :=
  let r := tcpiiu.sendLoop (s.emit SockEvent.sendDogStart) script
  match r.2 with
  | some n => (r.1.emit SockEvent.sendDogCancel, some n)
  | none => r

/-- Operations on a circuit, as issued by any of its threads. -/
inductive CircuitOp where
  | connect (script : List SyscallAttempt)
  | initiateCleanShutdown
  | disconnectNotify
  | initiateAbortShutdown (info : epicsSocketSystemCallInterruptMechanismQueryInfo)
      (lingerStatus shutdownStatus : Int)
  | uninstallChan (chan : Nat)
  | sendBytes (script : List SyscallAttempt)
  deriving DecidableEq, Repr

/-- Apply one operation. -/
def tcpiiu.applyOp (s : tcpiiu) : CircuitOp → tcpiiu
  | CircuitOp.connect script => (s.connect script).1
  | CircuitOp.initiateCleanShutdown => s.initiateCleanShutdown
  | CircuitOp.disconnectNotify => s.disconnectNotify
  | CircuitOp.initiateAbortShutdown info l sh => s.initiateAbortShutdown info l sh
  | CircuitOp.uninstallChan chan => s.uninstallChan chan
  | CircuitOp.sendBytes script => (s.sendBytes script).1

/-- Apply a sequence of operations in order. -/
def tcpiiu.run (s : tcpiiu) (ops : List CircuitOp) : tcpiiu :=
  ops.foldl tcpiiu.applyOp s

/-- Number of times the socket handle has been destroyed so far. -/
def tcpiiu.destroyCount (s : tcpiiu) : Nat :=
  s.trace.count SockEvent.epicsSocketDestroy

/-- A connection state in which the write loop may call `::send`. -/
def iiu_conn_state.sendAllowed (st : iiu_conn_state) : Prop :=
  st = iiucs_connected ∨ st = iiucs_clean_shutdown

/-- Predicates on a circuit that every primitive step of the model keeps: emitting an
event other than a socket destroy or a send, a send issued from a state in which it is
allowed, the four mutex-guarded operations, and the transition made by a successful
connect. -/
structure Stable (Q : tcpiiu → Prop) : Prop where
  emit : ∀ (s : tcpiiu) (e : SockEvent), e ≠ SockEvent.epicsSocketDestroy →
    (∀ st, e ≠ SockEvent.send st) → Q s → Q (s.emit e)
  sendCall : ∀ s : tcpiiu, s.state.sendAllowed → Q s → Q (s.emit (SockEvent.send s.state))
  cleanShutdown : ∀ s : tcpiiu, Q s → Q s.initiateCleanShutdown
  disconnect : ∀ s : tcpiiu, Q s → Q s.disconnectNotify
  abortShutdown : ∀ (s : tcpiiu) (info : epicsSocketSystemCallInterruptMechanismQueryInfo)
    (l sh : Int), Q s → Q (s.initiateAbortShutdown info l sh)
  uninstall : ∀ (s : tcpiiu) (c : Nat), Q s → Q (s.uninstallChan c)
  connected : ∀ s : tcpiiu, s.state = iiucs_connecting → Q s →
    Q { s with state := iiucs_connected }

/-! ## Inbound protocol parser -/

/-- Protocol header as kept in `tcpiiu::curMsg` (`caHdrLargeArray`): command, payload
size, data type, element count, and the two 32 bit parameters. -/
structure caHdrLargeArray where
  m_cmmd : Nat
  m_postsize : Nat
  m_dataType : Nat
  m_count : Nat
  m_cid : Nat
  m_available : Nat
  deriving DecidableEq, Repr

/-- Value of a sequence of bytes read in network byte order. -/
def beUInt (bs : List Nat) : Nat :=
  bs.foldl (fun acc b => acc * 256 + b) 0

/-- Modelled from the spec: `comQueRecv::occupiedBytes` is not part of the sources; the
receive queue is the ordered sequence of the bytes received and not yet consumed
(section 4.1), and this is their number. -/
def comQueRecv.occupiedBytes (q : List Nat) : Nat :=
  q.length

/-- Modelled from the spec: `comQueRecv::popOldMsgHeader` is not part of the sources;
it pops the fixed 16 byte header (command u16, payload size u16, data type u16,
element count u16, parameter1 u32, parameter2 u32, network byte order, section 3)
when 16 bytes are queued, and otherwise reports that none is available and consumes
nothing (section 4.4.1 step 1). -/
def comQueRecv.popOldMsgHeader (q : List Nat) : Option (caHdrLargeArray × List Nat) :=
  if q.length < 16 then none
  else
    some ({ m_cmmd := beUInt (q.take 2)
            m_postsize := beUInt ((q.drop 2).take 2)
            m_dataType := beUInt ((q.drop 4).take 2)
            m_count := beUInt ((q.drop 6).take 2)
            m_cid := beUInt ((q.drop 8).take 4)
            m_available := beUInt ((q.drop 12).take 4) }, q.drop 16)

/-- Modelled from the spec: `comQueRecv::popUInt32` is not part of the sources; it pops
the next four bytes as a u32 in network byte order (section 4.1).  The parser calls it
only when at least eight bytes are queued. -/
def comQueRecv.popUInt32 (q : List Nat) : Nat × List Nat :=
  (beUInt (q.take 4), q.drop 4)

/-- Modelled from the spec: `comQueRecv::copyOutBytes` is not part of the sources; it
moves up to `nBytes` bytes from the front of the queue to the destination and returns
them (their number is the function result in the source) (section 4.4.1 step 4). -/
def comQueRecv.copyOutBytes (q : List Nat) (nBytes : Nat) : List Nat × List Nat :=
  (q.take nBytes, q.drop nBytes)

/-- Modelled from the spec: `comQueRecv::removeBytes` is not part of the sources; it
discards up to `nBytes` bytes from the front of the queue and returns how many it
discarded (section 4.4.1 step 3). -/
def comQueRecv.removeBytes (q : List Nat) (nBytes : Nat) : Nat × List Nat :=
  (min nBytes q.length, q.drop nBytes)

/-- What the parser obtains from the client context `cac`, none of it defined in the
sources at hand: the size `MAX_TCP` of the small message body cache, the size of the
large one (`largeBufferSizeTCP ()`), whether the pool can supply a large buffer
(`allocateLargeBufferTCP ()` returning non-null), and the verdict of the response
dispatcher `executeResponse` on a header and body. -/
structure cacEnv where
  MAX_TCP : Nat
  largeBufferSizeTCP : Nat
  allocateLargeBufferTCP : Bool
  executeResponse : caHdrLargeArray → List Nat → Bool

/-- Fields of `tcpiiu` used by `processIncoming`.  `recvQue` holds the queued bytes in
arrival order; `pCurData` stands for the first `curDataBytes` bytes of the message body
cache, the part written for the message at hand; `dispatched` records the calls of
`executeResponse` in order, each with the header and the body it was given. -/
structure recvState where
  recvQue : List Nat
  curMsg : caHdrLargeArray
  curDataMax : Nat
  curDataBytes : Nat
  pCurData : List Nat
  oldMsgHeaderAvailable : Bool
  msgHeaderAvailable : Bool
  dispatched : List (caHdrLargeArray × List Nat)
  deriving DecidableEq, Repr

/-- Parser fields as the constructor leaves them: no header in hand, an empty small
body cache, the header zeroed. -/
def recvState.init (env : cacEnv) : recvState :=
  { recvQue := []
    curMsg := ⟨0, 0, 0, 0, 0, 0⟩
    curDataMax := env.MAX_TCP
    curDataBytes := 0
    pCurData := []
    oldMsgHeaderAvailable := false
    msgHeaderAvailable := false
    dispatched := [] }

/-- Parser between two messages: no header in hand and no body byte collected, as
after construction and after each completed message (lines 873-875). -/
def recvState.idle (s : recvState) : Prop :=
  s.msgHeaderAvailable = false ∧ s.oldMsgHeaderAvailable = false ∧
  s.curDataBytes = 0 ∧ s.pCurData = []

instance (s : recvState) : Decidable s.idle := by
  unfold recvState.idle
  infer_instance

/-- Range of the body byte count: nothing collected while no complete header is in
hand, and never more than the payload size of the header in hand. -/
def recvState.bodyInRange (s : recvState) : Prop :=
  if s.msgHeaderAvailable then s.curDataBytes ≤ s.curMsg.m_postsize
  else s.curDataBytes = 0

/-- Arrival of bytes: `recvQue.pushLastComBufReceived` appends them to the queue. -/
def recvState.pushLastComBufReceived (s : recvState) (bytes : List Nat) : recvState :=
  { s with recvQue := s.recvQue ++ bytes }

/-- Lines 790-797 of `tcpiiu::processIncoming`: unless the fixed 16 byte header is in
hand already, try to pop it.  The second component is `false` when none could be
popped, in which case the function returns `true` to its caller. -/
def recvState.fetchOldMsgHeader (s : recvState) : recvState × Bool :=
  if ¬ s.oldMsgHeaderAvailable then
    match comQueRecv.popOldMsgHeader s.recvQue with
    | some (msg, q) =>
        ({ s with curMsg := msg, recvQue := q, oldMsgHeaderAvailable := true }, true)
    | none => ({ s with oldMsgHeaderAvailable := false }, false)
  else (s, true)

/-- Lines 798-809 of `tcpiiu::processIncoming`: when the payload size of the header in
hand is the sentinel `0xffff`, pop the eight extension bytes, the true payload size
first and the element count second, once eight bytes are queued.  The second component
is `false` when they are not, in which case the function returns `true` to its
caller. -/
def recvState.fetchAnnex (s : recvState) : recvState × Bool :=
  if s.curMsg.m_postsize = 0xffff then
    if comQueRecv.occupiedBytes s.recvQue < 8 then (s, false)
    else
      let p := comQueRecv.popUInt32 s.recvQue
      let c := comQueRecv.popUInt32 p.2
      ({ s with
          curMsg := { s.curMsg with m_postsize := p.1, m_count := c.1 }
          recvQue := c.2
          msgHeaderAvailable := true }, true)
  else ({ s with msgHeaderAvailable := true }, true)

/-- First block of the loop body of `tcpiiu::processIncoming` (lines 789-821): fetch a
complete message header.  The second component is `false` when the function returns
`true` to its caller for lack of bytes. -/
def recvState.fetchMsgHeader (s : recvState) : recvState × Bool :=
  if ¬ s.msgHeaderAvailable then
    let r := s.fetchOldMsgHeader
    if ¬ r.2 then (r.1, false) else r.1.fetchAnnex
  else (s, true)

/-- Second block of the loop body (lines 826-839): make sure the message body cache is
large enough, replacing the small cache by a large one when that suffices and the pool
supplies it.  The content of a new cache is not defined by the source; zeros stand for
it. -/
def recvState.ensureBodyCache (env : cacEnv) (s : recvState) : recvState :=
  if s.curMsg.m_postsize > s.curDataMax then
    if s.curDataMax = env.MAX_TCP ∧ env.largeBufferSizeTCP ≥ s.curMsg.m_postsize then
      if env.allocateLargeBufferTCP then
        { s with pCurData := List.replicate s.curDataBytes 0
                 curDataMax := env.largeBufferSizeTCP }
      else s
    else s
  else s

/-- End of the loop body (lines 873-875): forget the header and the body. -/
def recvState.reset (s : recvState) : recvState :=
  { s with oldMsgHeaderAvailable := false, msgHeaderAvailable := false,
           curDataBytes := 0, pCurData := [] }

/-- Third block of the loop body (lines 841-871): copy the body out of the queue and
dispatch the message, or discard the body of a message too large for the cache.  The
second component is `some b` when the function returns `b`, and `none` when the loop
goes round again.  In a circuit run from its constructed state `curDataBytes` does not
exceed `m_postsize` here (`recvState.bodyInRange`, kept by every iteration), so the
unsigned difference of the source is the difference of natural numbers. -/
def recvState.processBody (env : cacEnv) (s : recvState) : recvState × Option Bool :=
  if s.curMsg.m_postsize ≤ s.curDataMax then
    let s1 :=
      if s.curMsg.m_postsize > 0 then
        let r := comQueRecv.copyOutBytes s.recvQue (s.curMsg.m_postsize - s.curDataBytes)
        { s with curDataBytes := s.curDataBytes + r.1.length
                 pCurData := s.pCurData ++ r.1
                 recvQue := r.2 }
      else s
    if s.curMsg.m_postsize > 0 ∧ s1.curDataBytes < s1.curMsg.m_postsize then
      (s1, some true)
    else
      let s2 := { s1 with dispatched := s1.dispatched ++ [(s1.curMsg, s1.pCurData)] }
      if ¬ env.executeResponse s1.curMsg s1.pCurData then (s2, some false)
      else (s2.reset, none)
  else
    let r := comQueRecv.removeBytes s.recvQue (s.curMsg.m_postsize - s.curDataBytes)
    let s1 := { s with curDataBytes := s.curDataBytes + r.1, recvQue := r.2 }
    if s1.curDataBytes < s1.curMsg.m_postsize then (s1, some true)
    else (s1.reset, none)

/-- Loop body of `tcpiiu::processIncoming`, one iteration.  Diagnostic output and the
calls of `flushIfRecvProcessRequested` before each `return true` are left out: they act
on the log and on the send side and touch no field the parser reads. -/
def recvState.processIncomingBody (env : cacEnv) (s : recvState) : recvState × Option Bool :=
  let h := s.fetchMsgHeader
  if ¬ h.2 then (h.1, some true)
  else (h.1.ensureBodyCache env).processBody env

/-- Iterations of the `while ( true )` loop of `tcpiiu::processIncoming`, at most
`fuel` of them; `none` when they do not suffice. -/
def recvState.processIncomingLoop (env : cacEnv) : Nat → recvState → Option (recvState × Bool)
  | 0, _ => none
  | fuel + 1, s =>
      match s.processIncomingBody env with
      | (s1, some b) => some (s1, b)
      | (s1, none) => recvState.processIncomingLoop env fuel s1

/-- Size of what is left to parse: two for each queued byte, one for a header in
hand.  Each iteration that goes round again lowers it. -/
def recvState.pending (s : recvState) : Nat :=
  2 * s.recvQue.length + (if s.msgHeaderAvailable ∨ s.oldMsgHeaderAvailable then 1 else 0)

/-- Embedding of `tcpiiu::processIncoming`: the loop, run with as many iterations as
the queued bytes can need.  The result is the final circuit and the value returned. -/
def recvState.processIncoming (env : cacEnv) (s : recvState) : Option (recvState × Bool) :=
  recvState.processIncomingLoop env (s.pending + 1) s

/-- Receive engine seen from the parser: each arrival is pushed on the queue and
followed by one `processIncoming` call; processing stops at the first call that
returns `false` (`tcpRecvThread::run`, lines 367-375). -/
def recvState.receiveAll (env : cacEnv) (s : recvState) :
    List (List Nat) → Option (recvState × Bool)
  | [] => some (s, true)
  | chunk :: chunks =>
      match (s.pushLastComBufReceived chunk).processIncoming env with
      | some (s1, true) => recvState.receiveAll env s1 chunks
      | r => r

/-! ### Wire format of a frame, as the specification states it -/

/-- Two bytes of a 16 bit value in network byte order. -/
def beBytes16 (n : Nat) : List Nat :=
  [n / 256 % 256, n % 256]

/-- Four bytes of a 32 bit value in network byte order. -/
def beBytes32 (n : Nat) : List Nat :=
  [n / 16777216 % 256, n / 65536 % 256, n / 256 % 256, n % 256]

/-- A frame on the wire: header field values, the payload bytes, and whether the
extended (large payload) header form is used. -/
structure wireFrame where
  cmmd : Nat
  dataType : Nat
  count : Nat
  cid : Nat
  available : Nat
  payload : List Nat
  extended : Bool
  deriving DecidableEq, Repr

/-- Field ranges of a well-formed frame: 16 bit command and data type, 32 bit
parameters; in the compact form a payload size below the sentinel `0xffff` and a
16 bit element count, in the extended form 32 bit payload size and element count. -/
def wireFrame.wellFormed (f : wireFrame) : Prop :=
  f.cmmd < 65536 ∧ f.dataType < 65536 ∧ f.cid < 4294967296 ∧ f.available < 4294967296 ∧
  (if f.extended then f.payload.length < 4294967296 ∧ f.count < 4294967296
   else f.payload.length < 65535 ∧ f.count < 65536)

instance (f : wireFrame) : Decidable f.wellFormed := by
  unfold wireFrame.wellFormed
  infer_instance

/-- Header bytes written from the specification (sections 3 and 6): the 16 byte header
(command, payload size, data type, element count, parameter1, parameter2), in the
extended form with the size slot holding `0xffff`, the count slot zero, and the true
size and count following as two u32. -/
def wireFrame.encodeHeader (f : wireFrame) : List Nat :=
  if f.extended then
    beBytes16 f.cmmd ++ beBytes16 0xffff ++ beBytes16 f.dataType ++ beBytes16 0 ++
      beBytes32 f.cid ++ beBytes32 f.available ++
      beBytes32 f.payload.length ++ beBytes32 f.count
  else
    beBytes16 f.cmmd ++ beBytes16 f.payload.length ++ beBytes16 f.dataType ++
      beBytes16 f.count ++ beBytes32 f.cid ++ beBytes32 f.available

/-- Wire format of a frame: its header bytes followed by its payload bytes. -/
def wireFrame.encode (f : wireFrame) : List Nat :=
  f.encodeHeader ++ f.payload

/-- Header values the dispatcher is to be given for a frame. -/
def wireFrame.header (f : wireFrame) : caHdrLargeArray :=
  { m_cmmd := f.cmmd
    m_postsize := f.payload.length
    m_dataType := f.dataType
    m_count := f.count
    m_cid := f.cid
    m_available := f.available }

/-- Byte stream made of frames one after the other. -/
def wireFrame.encodeAll (fs : List wireFrame) : List Nat :=
  (fs.map wireFrame.encode).flatten

/-! ### Concrete inputs used to exercise the parser -/

/-- A client context with a 32 byte small cache and a 64 byte large one, whose
dispatcher accepts every message. -/
def exampleEnv : cacEnv :=
  { MAX_TCP := 32
    largeBufferSizeTCP := 64
    allocateLargeBufferTCP := true
    executeResponse := fun _ _ => true }

/-- A compact frame with eight payload bytes. -/
def exampleFrame : wireFrame :=
  { cmmd := 15, dataType := 3, count := 2, cid := 77, available := 99,
    payload := [1, 2, 3, 4, 5, 6, 7, 8], extended := false }

/-- An extended frame with three payload bytes and an element count above 16 bits. -/
def exampleFrameExtended : wireFrame :=
  { cmmd := 1, dataType := 0, count := 70000, cid := 5, available := 6,
    payload := [9, 9, 9], extended := true }

/-- A compact frame whose 70 payload bytes exceed the large buffer of `exampleEnv`. -/
def exampleFrameOversize : wireFrame :=
  { cmmd := 15, dataType := 0, count := 1, cid := 5, available := 6,
    payload := List.replicate 70 4, extended := false }

/-! ## Request staging, send engine housekeeping and receive engine accounting -/

/-- Protocol commands the circuit stages (`CA_PROTO_...` of `caProto.h`). -/
inductive caCommand where
  | CA_PROTO_VERSION
  | CA_PROTO_EVENT_ADD
  | CA_PROTO_EVENT_CANCEL
  | CA_PROTO_WRITE
  | CA_PROTO_EVENTS_OFF
  | CA_PROTO_EVENTS_ON
  | CA_PROTO_CLEAR_CHANNEL
  | CA_PROTO_READ_NOTIFY
  | CA_PROTO_CREATE_CHAN
  | CA_PROTO_WRITE_NOTIFY
  | CA_PROTO_CLIENT_NAME
  | CA_PROTO_HOST_NAME
  | CA_PROTO_ECHO
  deriving DecidableEq, Repr

open caCommand

/-- A message in the send queue: the values given to `insertRequestHeader` (command,
payload size, data type, element count, parameter1, parameter2, and whether the large
header form may be used) and the payload bytes pushed after the header. -/
structure caRequest where
  request : caCommand
  payloadSize : Nat
  dataType : Nat
  nElem : Nat
  cid : Nat
  requestDependent : Nat
  v49Ok : Bool
  payload : List Nat
  deriving DecidableEq, Repr

/-- Send queue `comQueSend` as the staging functions see it: the committed messages in
order, and the message under construction inside a `comQueSendMsgMinder` scope. -/
structure comQueSend where
  requests : List caRequest
  staged : Option caRequest
  deriving DecidableEq, Repr

/-- Modelled from the spec: `comQueSend::insertRequestHeader` is not part of the
sources; it starts a message with the given header values (section 4.1,
`insert_request_header`). -/
def comQueSend.insertRequestHeader (q : comQueSend) (request : caCommand)
    (payloadSize dataType nElem cid requestDependent : Nat) (v49Ok : Bool) : comQueSend :=
  let r : caRequest :=
    { request := request, payloadSize := payloadSize, dataType := dataType,
      nElem := nElem, cid := cid, requestDependent := requestDependent,
      v49Ok := v49Ok, payload := [] }
  { q with staged := some r }

/-- Bytes appended to the payload of the message under construction. -/
def comQueSend.pushBytes (q : comQueSend) (bytes : List Nat) : comQueSend :=
  match q.staged with
  | some r => { q with staged := some { r with payload := r.payload ++ bytes } }
  | none => q

/-- Modelled from the spec: `comQueSend::pushString` is not part of the sources; it
stages the first `nChar` bytes found at the given address (section 4.1, `push_<T>`). -/
def comQueSend.pushString (q : comQueSend) (pVal : List Nat) (nChar : Nat) : comQueSend :=
  q.pushBytes (pVal.take nChar)

/-- Modelled from the spec: `comQueSend::pushUInt16` is not part of the sources; it
stages a 16 bit value in network byte order (section 4.1). -/
def comQueSend.pushUInt16 (q : comQueSend) (val : Nat) : comQueSend :=
  q.pushBytes (beBytes16 val)

/-- Modelled from the spec: `comQueSend::pushFloat32` is not part of the sources; it
stages the four bytes of a single precision number in network byte order (section
4.1).  The argument is the IEEE 754 bit pattern; the only value the circuit stages is
`0.0`, whose pattern is zero. -/
def comQueSend.pushFloat32 (q : comQueSend) (bits : Nat) : comQueSend :=
  q.pushBytes (beBytes32 bits)

/-- Modelled from the spec: `comQueSendMsgMinder::commit` is not part of the sources;
it makes the message under construction part of the queue (section 4.1, message
minder). -/
def comQueSend.commit (q : comQueSend) : comQueSend :=
  match q.staged with
  | some r => { requests := q.requests ++ [r], staged := none }
  | none => q

/-- Modelled from the spec: `comQueSend::insertRequestWithPayLoad` is not part of the
sources; it stages a header and the value bytes, the payload size aligned up to 8 bytes
with zero bytes (sections 4.2 and 4.7).  `pValue` stands for the bytes of the value in
wire order. -/
def comQueSend.insertRequestWithPayLoad (q : comQueSend) (request : caCommand)
    (dataType nElem cid requestDependent : Nat) (pValue : List Nat) (v49Ok : Bool) :
    comQueSend :=
  let size := (pValue.length + 7) / 8 * 8
  ((q.insertRequestHeader request size dataType nElem cid requestDependent v49Ok).pushBytes
    pValue).pushBytes (List.replicate (size - pValue.length) 0)

/-- Failures of a staging call: the exceptions of `cacChannel` thrown by the staging
functions, and a failed `assert`. -/
inductive stagingFailure where
  | notConnected
  | unsupportedByService
  | badType
  | outOfBounds
  | msgBodyCacheTooSmall
  | assertionFailed
  deriving DecidableEq, Repr

open stagingFailure

/-- What a staging function reads of a channel `nciu`: whether it is connected, its
server and client identifiers, its native element count, and the `nameLen ()` bytes at
`pName ()`. -/
structure nciu where
  connected : Bool
  sid : Nat
  cid : Nat
  nativeElementCount : Nat
  name : List Nat
  deriving DecidableEq, Repr

/-- What a staging function reads of a subscription `netSubscription`. -/
structure netSubscription where
  mask : Nat
  count : Nat
  type : Nat
  id : Nat
  deriving DecidableEq, Repr

/-- What the staging functions obtain from outside `tcpiiu.cpp`: the client context
(`MAX_TCP`, `largeBufferSizeTCP ()`), the client's protocol revision
`CA_MINOR_PROTOCOL_REVISION`, the tables `dbr_size` and `dbr_value_size` and the test
`dbr_type_is_valid` of `db_access.h`, and the two queries of the send queue, its
`occupiedBytes ()` and its `flushEarlyThreshold ( n )`. -/
structure stagingEnv extends cacEnv where
  CA_MINOR_PROTOCOL_REVISION : Nat
  dbr_type_is_valid : Nat → Bool
  dbr_size : Nat → Nat
  dbr_value_size : Nat → Nat
  occupiedBytes : comQueSend → Nat
  flushEarlyThreshold : comQueSend → Nat → Bool

/-- Modelled from the spec: the macro `CA_V41` is not part of the sources; protocol
v4.1 and newer (section 4.2). -/
def CA_V41 (minor : Nat) : Bool := decide (minor ≥ 1)

/-- Modelled from the spec: the macro `CA_V43` is not part of the sources; protocol
v4.3 and newer (section 4.2). -/
def CA_V43 (minor : Nat) : Bool := decide (minor ≥ 3)

/-- Modelled from the spec: the macro `CA_V44` is not part of the sources; protocol
v4.4 and newer (section 4.7). -/
def CA_V44 (minor : Nat) : Bool := decide (minor ≥ 4)

/-- Modelled from the spec: the macro `CA_V49` is not part of the sources; protocol
v4.9 and newer (section 4.2). -/
def CA_V49 (minor : Nat) : Bool := decide (minor ≥ 9)

/-- Modelled from the spec: the macro `CA_MESSAGE_ALIGN` is not part of the sources;
a size aligned up to 8 bytes (section 4.2).  The wrap-around of 32 bit arithmetic,
reached only from a size within 7 of 4 GiB, is not modelled. -/
def CA_MESSAGE_ALIGN (size : Nat) : Nat := (size + 7) / 8 * 8

/-- Modelled from the spec: `cacNillBytes` is not part of the sources; the zero bytes
used to pad a payload to alignment (section 4.2). -/
def cacNillBytes : List Nat := List.replicate 8 0

/-- Difference of two unsigned 32 bit values. -/
def subUInt32 (a b : Nat) : Nat := (a + 4294967296 - b % 4294967296) % 4294967296

/-- Modelled from the spec: `contiguousMsgCountWhichTriggersFlowControl` is not part of
the sources; the flow-control-trigger threshold is 16 frames (sections 4.4 and 6). -/
def contiguousMsgCountWhichTriggersFlowControl : Nat := 16

/-- A virtual circuit `tcpiiu` as a whole: the connection state machine, the inbound
parser, and the fields used by the staging functions and by the two engines. -/
structure circuit where
  conn : tcpiiu
  parser : recvState
  minorProtocolVersion : Nat
  priority : Nat
  sendQue : comQueSend
  contigRecvMsgCount : Nat
  blockingForFlush : Nat
  socketLibrarySendBufferSize : Nat
  unacknowledgedSendBytes : Nat
  busyStateDetected : Bool
  flowControlActive : Bool
  echoRequestPending : Bool
  earlyFlush : Bool
  recvProcessPostponedFlush : Bool
  deriving DecidableEq, Repr

/-- Field values set by the constructor `tcpiiu::tcpiiu`, before it stages the version,
user name and host name messages. -/
def circuit.init (env : cacEnv) (minorVersion priorityIn : Nat) : circuit :=
  { conn := tcpiiu.init
    parser := recvState.init env
    minorProtocolVersion := minorVersion
    priority := priorityIn
    sendQue := { requests := [], staged := none }
    contigRecvMsgCount := 0
    blockingForFlush := 0
    socketLibrarySendBufferSize := 0x1000
    unacknowledgedSendBytes := 0
    busyStateDetected := false
    flowControlActive := false
    echoRequestPending := false
    earlyFlush := false
    recvProcessPostponedFlush := false }

/-- Embedding of `tcpiiu::flushRequest`. -/
def circuit.flushRequest (env : stagingEnv) (c : circuit) : circuit :=
  if env.occupiedBytes c.sendQue > 0 then
    { c with conn := c.conn.emit SockEvent.sendThreadFlushEventSignal }
  else c

/-- Embedding of `tcpiiu::ca_v41_ok`, which like `ca_v42_ok` tests the minor protocol
version of the circuit. -/
def circuit.ca_v41_ok (c : circuit) : Bool := CA_V41 c.minorProtocolVersion

/-- Embedding of `tcpiiu::ca_v44_ok`, which like `ca_v42_ok` tests the minor protocol
version of the circuit. -/
def circuit.ca_v44_ok (c : circuit) : Bool := CA_V44 c.minorProtocolVersion

/-- Embedding of `tcpiiu::hostNameSetRequest`; `pName` holds the characters of the
host name, the terminating zero byte following them. -/
def circuit.hostNameSetRequest (env : stagingEnv) (c : circuit) (pName : List Nat) :
    circuit × Option stagingFailure :=
  if ¬ CA_V41 c.minorProtocolVersion then (c, none)
  else
    let size := pName.length + 1
    let postSize := CA_MESSAGE_ALIGN size
    if ¬ postSize < 0xffff then (c, some assertionFailed)
    else
      let c1 := if env.flushEarlyThreshold c.sendQue (postSize + 16) then c.flushRequest env
        else c
      let q := c1.sendQue.insertRequestHeader CA_PROTO_HOST_NAME postSize 0 0 0 0
        (CA_V49 c1.minorProtocolVersion)
      let q := q.pushString (pName ++ [0]) size
      let q := q.pushString cacNillBytes (postSize - size)
      ({ c1 with sendQue := q.commit }, none)

/-- Embedding of `tcpiiu::userNameSetRequest`; `pName` holds the characters of the
user name, the terminating zero byte following them. -/
def circuit.userNameSetRequest (env : stagingEnv) (c : circuit) (pName : List Nat) :
    circuit × Option stagingFailure :=
  if ¬ CA_V41 c.minorProtocolVersion then (c, none)
  else
    let size := pName.length + 1
    let postSize := CA_MESSAGE_ALIGN size
    if ¬ postSize < 0xffff then (c, some assertionFailed)
    else
      let c1 := if env.flushEarlyThreshold c.sendQue (postSize + 16) then c.flushRequest env
        else c
      let q := c1.sendQue.insertRequestHeader CA_PROTO_CLIENT_NAME postSize 0 0 0 0
        (CA_V49 c1.minorProtocolVersion)
      let q := q.pushString (pName ++ [0]) size
      let q := q.pushString cacNillBytes (postSize - size)
      ({ c1 with sendQue := q.commit }, none)

/-- Embedding of `tcpiiu::disableFlowControlRequest`. -/
def circuit.disableFlowControlRequest (env : stagingEnv) (c : circuit) : circuit :=
  let c1 := if env.flushEarlyThreshold c.sendQue 16 then c.flushRequest env else c
  let q := c1.sendQue.insertRequestHeader CA_PROTO_EVENTS_ON 0 0 0 0 0
    (CA_V49 c1.minorProtocolVersion)
  { c1 with sendQue := q.commit }

/-- Embedding of `tcpiiu::enableFlowControlRequest`. -/
def circuit.enableFlowControlRequest (env : stagingEnv) (c : circuit) : circuit :=
  let c1 := if env.flushEarlyThreshold c.sendQue 16 then c.flushRequest env else c
  let q := c1.sendQue.insertRequestHeader CA_PROTO_EVENTS_OFF 0 0 0 0 0
    (CA_V49 c1.minorProtocolVersion)
  { c1 with sendQue := q.commit }

/-- Embedding of `tcpiiu::versionMessage`. -/
def circuit.versionMessage (env : stagingEnv) (c : circuit) (priority : Nat) :
    circuit × Option stagingFailure :=
  if ¬ priority ≤ 0xffff then (c, some assertionFailed)
  else
    let c1 := if env.flushEarlyThreshold c.sendQue 16 then c.flushRequest env else c
    let q := c1.sendQue.insertRequestHeader CA_PROTO_VERSION 0 priority
      env.CA_MINOR_PROTOCOL_REVISION 0 0 (CA_V49 c1.minorProtocolVersion)
    ({ c1 with sendQue := q.commit }, none)

/-- Embedding of `tcpiiu::echoRequest`. -/
def circuit.echoRequest (env : stagingEnv) (c : circuit) : circuit :=
  let c1 := if env.flushEarlyThreshold c.sendQue 16 then c.flushRequest env else c
  let q := c1.sendQue.insertRequestHeader CA_PROTO_ECHO 0 0 0 0 0
    (CA_V49 c1.minorProtocolVersion)
  { c1 with sendQue := q.commit }

/-- Embedding of `tcpiiu::writeRequest`. -/
def circuit.writeRequest (c : circuit) (chan : nciu) (type nElem : Nat)
    (pValue : List Nat) : circuit × Option stagingFailure :=
  if ¬ chan.connected then (c, some notConnected)
  else
    let q := c.sendQue.insertRequestWithPayLoad CA_PROTO_WRITE type nElem chan.sid chan.cid
      pValue (CA_V49 c.minorProtocolVersion)
    ({ c with sendQue := q.commit }, none)

/-- Embedding of `tcpiiu::writeNotifyRequest`; `ioId` is `io.getId ()`. -/
def circuit.writeNotifyRequest (c : circuit) (chan : nciu) (ioId type nElem : Nat)
    (pValue : List Nat) : circuit × Option stagingFailure :=
  if ¬ chan.connected then (c, some notConnected)
  else if ¬ c.ca_v41_ok then (c, some unsupportedByService)
  else
    let q := c.sendQue.insertRequestWithPayLoad CA_PROTO_WRITE_NOTIFY type nElem chan.sid
      ioId pValue (CA_V49 c.minorProtocolVersion)
    ({ c with sendQue := q.commit }, none)

/-- Embedding of `tcpiiu::readNotifyRequest`; `ioId` is `io.getId ()`. -/
def circuit.readNotifyRequest (env : stagingEnv) (c : circuit) (chan : nciu)
    (ioId dataType nElem : Nat) : circuit × Option stagingFailure :=
  if ¬ chan.connected then (c, some notConnected)
  else if ¬ env.dbr_type_is_valid dataType then (c, some badType)
  else if nElem > chan.nativeElementCount then (c, some outOfBounds)
  else
    let maxBytes :=
      if CA_V49 c.minorProtocolVersion then env.largeBufferSizeTCP else env.MAX_TCP
    let maxElem := subUInt32 maxBytes (env.dbr_size dataType) / env.dbr_value_size dataType
    if nElem > maxElem then (c, some msgBodyCacheTooSmall)
    else
      let q := c.sendQue.insertRequestHeader CA_PROTO_READ_NOTIFY 0 (dataType % 65536) nElem
        chan.sid ioId (CA_V49 c.minorProtocolVersion)
      ({ c with sendQue := q.commit }, none)

/-- Embedding of `tcpiiu::createChannelRequest`. -/
def circuit.createChannelRequest (env : stagingEnv) (c : circuit) (chan : nciu) :
    circuit × Option stagingFailure :=
  let r : List Nat × Nat × Nat :=
    if c.ca_v44_ok then (chan.name, chan.name.length, chan.cid)
    else ([], 0, chan.sid)
  let pName := r.1
  let nameLength := r.2.1
  let identity := r.2.2
  let postCnt := CA_MESSAGE_ALIGN nameLength
  if postCnt ≥ 0xffff then (c, some unsupportedByService)
  else
    let q := c.sendQue.insertRequestHeader CA_PROTO_CREATE_CHAN postCnt 0 0 identity
      env.CA_MINOR_PROTOCOL_REVISION (CA_V49 c.minorProtocolVersion)
    let q := if nameLength ≠ 0 then q.pushString pName nameLength else q
    let q := if postCnt > nameLength then q.pushString cacNillBytes (postCnt - nameLength)
      else q
    ({ c with sendQue := q.commit }, none)

/-- Embedding of `tcpiiu::clearChannelRequest`. -/
def circuit.clearChannelRequest (c : circuit) (sid cid : Nat) : circuit :=
  let q := c.sendQue.insertRequestHeader CA_PROTO_CLEAR_CHANNEL 0 0 0 sid cid
    (CA_V49 c.minorProtocolVersion)
  { c with sendQue := q.commit }

/-- Embedding of `tcpiiu::subscriptionRequest`. -/
def circuit.subscriptionRequest (env : stagingEnv) (c : circuit) (chan : nciu)
    (subscr : netSubscription) : circuit × Option stagingFailure :=
  if ¬ chan.connected then (c, none)
  else
    let m : Nat × circuit :=
      if subscr.mask > 0xffff then
        (subscr.mask % 65536, { c with conn := c.conn.emit SockEvent.printf })
      else (subscr.mask, c)
    let mask := m.1
    let c1 := m.2
    let nElem := subscr.count
    let maxBytes :=
      if CA_V49 c1.minorProtocolVersion then env.largeBufferSizeTCP else env.MAX_TCP
    let dataType := subscr.type
    let maxElem := subUInt32 maxBytes (env.dbr_size dataType) / env.dbr_value_size dataType
    if nElem > maxElem then (c1, some msgBodyCacheTooSmall)
    else
      let q := c1.sendQue.insertRequestHeader CA_PROTO_EVENT_ADD 16 (dataType % 65536) nElem
        chan.sid subscr.id (CA_V49 c1.minorProtocolVersion)
      let q := q.pushFloat32 0
      let q := q.pushFloat32 0
      let q := q.pushFloat32 0
      let q := q.pushUInt16 (mask % 65536)
      let q := q.pushUInt16 0
      ({ c1 with sendQue := q.commit }, none)

/-- Embedding of `tcpiiu::subscriptionCancelRequest`. -/
def circuit.subscriptionCancelRequest (c : circuit) (chan : nciu)
    (subscr : netSubscription) : circuit :=
  let q := c.sendQue.insertRequestHeader CA_PROTO_EVENT_CANCEL 0 (subscr.type % 65536)
    (subscr.count % 65536) chan.sid subscr.id (CA_V49 c.minorProtocolVersion)
  { c with sendQue := q.commit }

/-- One pass of the loop of `tcpSendThread::run` up to the flush (lines 76-108): leave
the loop when the state is not `connected`, otherwise reconcile the flow control
request with the busy state and send the pending echo.  The second component is
`false` when the loop is left. -/
def tcpSendThread.housekeeping (env : stagingEnv) (c : circuit) :
    circuit × Bool × Option stagingFailure :=
  if c.conn.state ≠ iiucs_connected then (c, false, none)
  else
    let flowControlLaborNeeded := c.busyStateDetected != c.flowControlActive
    let echoLaborNeeded := c.echoRequestPending
    let c1 := { c with echoRequestPending := false }
    let c2 :=
      if flowControlLaborNeeded then
        if c1.flowControlActive then
          { c1.disableFlowControlRequest env with flowControlActive := false }
        else
          { c1.enableFlowControlRequest env with flowControlActive := true }
      else c1
    if echoLaborNeeded then
      if CA_V43 c2.minorProtocolVersion then (c2.echoRequest env, true, none)
      else
        let r := c2.versionMessage env c2.priority
        (r.1, true, r.2)
    else (c2, true, none)

/-- Lines 352-365 of `tcpRecvThread::run`: count the buffers filled to capacity one
after the other, detect the busy state, and forget the unacknowledged send bytes. -/
def tcpRecvThread.accountFrame (c : circuit) (nBytesIn capacityBytes : Nat) : circuit :=
  let c1 :=
    if nBytesIn = capacityBytes then
      if c.contigRecvMsgCount ≥ contiguousMsgCountWhichTriggersFlowControl then
        { c with busyStateDetected := true }
      else
        { c with contigRecvMsgCount := c.contigRecvMsgCount + 1 }
    else
      { c with contigRecvMsgCount := 0, busyStateDetected := false }
  { c1 with unacknowledgedSendBytes := 0 }

/-- Modelled from the spec: `cac::initiateAbortShutdown ( tcpiiu & )` is not part of
the sources; through it the circuit requests its own demolition (section 6), that is,
abortive shutdown starts (section 4.4). -/
def cac.initiateAbortShutdown (s : tcpiiu)
    (info : epicsSocketSystemCallInterruptMechanismQueryInfo)
    (lingerStatus shutdownStatus : Int) : tcpiiu :=
  s.initiateAbortShutdown info lingerStatus shutdownStatus

/-- Lines 352-375 of `tcpRecvThread::run`: what the receive engine does with one
buffer of `bytes` read from the socket.  The result is `none` only if the parser ran
out of iterations; otherwise the second component is `false` when the loop is left
after a protocol failure. -/
def tcpRecvThread.processFrame (env : cacEnv)
    (info : epicsSocketSystemCallInterruptMechanismQueryInfo)
    (lingerStatus shutdownStatus : Int) (capacityBytes : Nat) (c : circuit)
    (bytes : List Nat) : Option (circuit × Bool) :=
  let c1 := tcpRecvThread.accountFrame c bytes.length capacityBytes
  match (c1.parser.pushLastComBufReceived bytes).processIncoming env with
  | none => none
  | some (p, protocolOK) =>
      let c2 := { c1 with parser := p }
      if ¬ protocolOK then
        some ({ c2 with conn := cac.initiateAbortShutdown c2.conn info lingerStatus
                                  shutdownStatus }, false)
      else some (c2, true)

/-- One buffer read by the receive engine: the bytes `fillFromWire` obtained, and the
answer of `bytesArePendingInOS ()` after the buffer was processed. -/
structure recvArrival where
  bytes : List Nat
  bytesArePendingInOS : Bool
  deriving DecidableEq, Repr

/-- Inner loop of `tcpRecvThread::run` (lines 350-383), run under one acquisition of
the callback mutex.  The head of the list is the buffer in hand, the tail what the
following `fillFromWire` calls obtain; a call that obtains nothing, or the end of the
list, ends the loop.  `contiguousFrameCount` is the local counter of the source. -/
def tcpRecvThread.frames (env : cacEnv)
    (info : epicsSocketSystemCallInterruptMechanismQueryInfo)
    (lingerStatus shutdownStatus : Int) (capacityBytes : Nat) :
    circuit → Nat → List recvArrival → Option circuit
  | c, _, [] => some c
  | c, contiguousFrameCount, a :: rest =>
      if a.bytes.length = 0 then some c
      else
        match tcpRecvThread.processFrame env info lingerStatus shutdownStatus capacityBytes
            c a.bytes with
        | none => none
        | some (c1, false) => some c1
        | some (c1, true) =>
            if ¬ a.bytesArePendingInOS ∨ contiguousFrameCount + 1 > 5 then some c1
            else
              tcpRecvThread.frames env info lingerStatus shutdownStatus capacityBytes c1
                (contiguousFrameCount + 1) rest

/-! ### Concrete inputs used to exercise the staging functions -/

/-- Staging context: a 16384 byte small cache and a large one of a million bytes, a
dispatcher that accepts every message, protocol revision 11, two data types of size 16
with 8 byte values, a send queue that counts 16 bytes for every message and asks for an
early flush above 64 bytes. -/
def exampleStagingEnv : stagingEnv :=
  { MAX_TCP := 16384
    largeBufferSizeTCP := 1000000
    allocateLargeBufferTCP := true
    executeResponse := fun _ _ => true
    CA_MINOR_PROTOCOL_REVISION := 11
    dbr_type_is_valid := fun t => decide (t < 2)
    dbr_size := fun _ => 16
    dbr_value_size := fun _ => 8
    occupiedBytes := fun q => 16 * q.requests.length
    flushEarlyThreshold := fun q n => decide (16 * q.requests.length + n > 64) }

/-- A client context like `exampleEnv` whose dispatcher rejects command 1. -/
def exampleStrictEnv : cacEnv :=
  { MAX_TCP := 32
    largeBufferSizeTCP := 64
    allocateLargeBufferTCP := true
    executeResponse := fun h _ => decide (h.m_cmmd ≠ 1) }

/-- A connected channel named `"ai"` followed by its terminating zero byte. -/
def exampleChannel : nciu :=
  { connected := true, sid := 7, cid := 3, nativeElementCount := 4, name := [97, 105, 0] }

/-- A subscription of 70000 elements, more than fit the 16 bit count slot. -/
def exampleSubscription : netSubscription :=
  { mask := 1, count := 70000, type := 0, id := 21 }

/-- A circuit to a v4.9 peer, as constructed. -/
def exampleCircuit : circuit :=
  circuit.init exampleEnv 9 0

/-! ## Socket reads, draining of the send queue and the end of the send engine -/

/-- Loop of `tcpiiu::recvBytes`, one scripted `::recv` call per iteration; the `::recv`
calls themselves are not recorded in the trace.  `info`, `lingerStatus` and
`shutdownStatus` are what an abort shutdown started here meets.  The second component
is the value returned, and `none` when the script ends while the loop is still
running. -/
def tcpiiu.recvLoop (info : epicsSocketSystemCallInterruptMechanismQueryInfo)
    (lingerStatus shutdownStatus : Int) (s : tcpiiu) :
    List SyscallAttempt → tcpiiu × Option Nat
  | [] =>
      if s.state = iiucs_connected ∨ s.state = iiucs_clean_shutdown then (s, none)
      else (s, some 0)
  | a :: rest =>
      if s.state = iiucs_connected ∨ s.state = iiucs_clean_shutdown then
        let s1 := s.applyAsyncs a.during
        if a.status > 0 then
          (s1, some a.status.toNat)
        else if a.status = 0 then
          (cac.disconnectNotify s1, some 0)
        else if s1.state ≠ iiucs_connected ∧ s1.state ≠ iiucs_clean_shutdown then
          (s1, some 0)
        else if a.localError = SOCK_SHUTDOWN then
          (cac.disconnectNotify s1, some 0)
        else if a.localError = SOCK_EINTR then
          tcpiiu.recvLoop info lingerStatus shutdownStatus s1 rest
        else if a.localError = SOCK_ECONNABORTED then
          (cac.disconnectNotify s1, some 0)
        else if a.localError = SOCK_ECONNRESET then
          (cac.disconnectNotify s1, some 0)
        else
          (cac.initiateAbortShutdown (s1.emit SockEvent.printf) info lingerStatus
            shutdownStatus, some 0)
      else (s, some 0)

/-- Embedding of `tcpiiu::recvBytes`. -/
def tcpiiu.recvBytes (info : epicsSocketSystemCallInterruptMechanismQueryInfo)
    (lingerStatus shutdownStatus : Int) (s : tcpiiu) (script : List SyscallAttempt) :
    tcpiiu × Option Nat :=
  tcpiiu.recvLoop info lingerStatus shutdownStatus s script

/-- A frame buffer of the send queue: the bytes between its read and its write
cursor. -/
structure comBuf where
  bytes : List Nat
  deriving DecidableEq, Repr

/-- Modelled from the spec: `comBuf::occupiedBytes` is not part of the sources; the
occupied count of a frame buffer (section 4.1). -/
def comBuf.occupiedBytes (b : comBuf) : Nat := b.bytes.length

/-- Loop of `comBuf::flushToWire`: `nBytes` bytes are left to write, and each element of
the script is one call of `sendBytes`.  The second component is `none` when the script
ends while bytes are left. -/
def comBuf.flushToWireLoop : List (List SyscallAttempt) → tcpiiu → Nat → tcpiiu × Option Bool
  | [], s, nBytes => if nBytes = 0 then (s, some true) else (s, none)
  | call :: calls, s, nBytes =>
      if nBytes = 0 then (s, some true)
      else
        match s.sendBytes call with
        | (s1, none) => (s1, none)
        | (s1, some sent) =>
            if sent = 0 then (s1, some false)
            else comBuf.flushToWireLoop calls s1 (nBytes - sent)

/-- Modelled from the spec: `comBuf::flushToWire` is not part of the sources; outside
the mutex all bytes of the buffer are written to the socket (section 4.3.1) through the
single-frame send loop `sendBytes` (section 4.3.2), and the write has failed when that
loop reports that nothing was sent. -/
def comBuf.flushToWire (b : comBuf) (wire : tcpiiu) (calls : List (List SyscallAttempt)) :
    tcpiiu × Option Bool :=
  comBuf.flushToWireLoop calls wire b.occupiedBytes

/-- What the send engine needs from outside `tcpiiu.cpp` besides the staging context:
the frame buffers `popNextComBufToSend ()` hands out, in order, until the send queue is
empty. -/
structure sendEnv extends stagingEnv where
  comBufs : comQueSend → List comBuf

/-- Calls made by `tcpiiu::flush` and by the end of `tcpSendThread::run`, in program
order: `flushToWire` on a buffer with the value it returned, the progress notification
of the receive watchdog, the signal that wakes blocked writers, the write-half
`shutdown` of the socket, and the report of its failure. -/
inductive SendEngineEvent where
  | flushToWire (bytes : List Nat) (success : Bool)
  | sendBacklogProgressNotify
  | flushBlockEventSignal
  | shutdownWR
  | errlogPrintf
  deriving DecidableEq, Repr

/-- Loop of `tcpiiu::flush` (lines 1179-1220) over the buffers still in the queue.
`bytesToBeSent` and `success` are the locals of the source, `log` the calls made so
far, and the head of `scripts` the `sendBytes` calls of the next buffer.  When the loop
is left the queue is empty: the last pop found nothing, or the buffers behind a failed
one were discarded.  The last component is `none` when a script ends too early. -/
def circuit.flushLoop : List comBuf → circuit → Nat → Bool → List SendEngineEvent →
    List (List (List SyscallAttempt)) → circuit × List SendEngineEvent × Option Bool
  | [], c, bytesToBeSent, success, log, _ =>
      let c1 :=
        if bytesToBeSent ≠ 0 then
          { c with unacknowledgedSendBytes :=
              (c.unacknowledgedSendBytes + bytesToBeSent) % 4294967296 }
        else c
      ({ c1 with sendQue := { c1.sendQue with requests := [] } }, log, some success)
  | pBuf :: rest, c, bytesToBeSent, _, log, scripts =>
      let c1 :=
        if bytesToBeSent ≠ 0 then
          { c with unacknowledgedSendBytes :=
              (c.unacknowledgedSendBytes + bytesToBeSent) % 4294967296 }
        else c
      let r := pBuf.flushToWire c1.conn (scripts.headD [])
      match r.2 with
      | none => ({ c1 with conn := r.1 }, log, none)
      | some false =>
          ({ c1 with conn := r.1, sendQue := { c1.sendQue with requests := [] } },
            log ++ [SendEngineEvent.flushToWire pBuf.bytes false], some false)
      | some true =>
          let c2 := { c1 with conn := r.1 }
          let log1 := log ++ [SendEngineEvent.flushToWire pBuf.bytes true]
          let log2 :=
            if c2.unacknowledgedSendBytes > c2.socketLibrarySendBufferSize then
              log1 ++ [SendEngineEvent.sendBacklogProgressNotify]
            else log1
          circuit.flushLoop rest c2 pBuf.occupiedBytes true log2 scripts.tail

/-- Embedding of `tcpiiu::flush`.  The result is the circuit, the calls made, and the
value returned (`none` when a script ends too early). -/
def circuit.flush (env : sendEnv) (c : circuit)
    (scripts : List (List (List SyscallAttempt))) :
    circuit × List SendEngineEvent × Option Bool :=
  if env.occupiedBytes c.sendQue = 0 then (c, [], some true)
  else
    let r := circuit.flushLoop (env.comBufs c.sendQue) c 0 true [] scripts
    match r.2.2 with
    | none => r
    | some success =>
        let log :=
          if r.1.blockingForFlush ≠ 0 then r.2.1 ++ [SendEngineEvent.flushBlockEventSignal]
          else r.2.1
        ({ r.1 with earlyFlush := false }, log, some success)

/-- Lines 114-126 of `tcpSendThread::run`, after the loop is left: in state
`clean_shutdown` flush one more time and shut down the write half of the socket.
`shutdownStatus` is what `::shutdown` returns. -/
def tcpSendThread.finalFlush (env : sendEnv) (c : circuit)
    (scripts : List (List (List SyscallAttempt))) (shutdownStatus : Int) :
    Option (circuit × List SendEngineEvent) :=
  if c.conn.state = iiucs_clean_shutdown then
    let r := c.flush env scripts
    match r.2.2 with
    | none => none
    | some _ =>
        let log := r.2.1 ++ [SendEngineEvent.shutdownWR]
        some (r.1, if shutdownStatus ≠ 0 then log ++ [SendEngineEvent.errlogPrintf] else log)
  else some (c, [])

/-- A script in which one `::send` call accepts all bytes of each buffer and no other
thread touches the circuit meanwhile. -/
def comBuf.fullWrites (bufs : List comBuf) : List (List (List SyscallAttempt)) :=
  bufs.map fun b => [[{ during := [], status := (b.occupiedBytes : Int), localError := SOCK_EINTR }]]

/-- The buffer and the result of a `flushToWire` call; `none` for the other calls. -/
def SendEngineEvent.written : SendEngineEvent → Option (List Nat × Bool)
  | SendEngineEvent.flushToWire bytes success => some (bytes, success)
  | _ => none

/-- Calls expected of a drain in which every write succeeds, in the words of the
specification of the progress notification as amended: each buffer is written in queue
order, and the write is followed by the progress notification exactly when the
unacknowledged bytes counted up to, but not including, that buffer exceed
`sendBufferSize`; `unacked` is the count before the first buffer. -/
def expectedFlushLog (sendBufferSize : Nat) : Nat → List comBuf → List SendEngineEvent
  | _, [] => []
  | unacked, b :: rest =>
      SendEngineEvent.flushToWire b.bytes true ::
        ((if unacked > sendBufferSize then [SendEngineEvent.sendBacklogProgressNotify]
          else []) ++
          expectedFlushLog sendBufferSize (unacked + b.occupiedBytes) rest)

/-- Number of bytes held by a list of buffers. -/
def comBuf.totalBytes (bufs : List comBuf) : Nat :=
  (bufs.map comBuf.occupiedBytes).sum

/-! ## Slow-handshake read of the VXI message driver -/

/-- What `drvEpvxiMsg.c` takes from `epvxiLib.h`, which is not part of the sources: the
status codes `VXI_SUCCESS` and `VXI_PROTOCOL_ERROR` and the `END` bit `MBC_END` of a
response word; and the value `fetch_protocol_error` returns when it is called. -/
structure vxiEnv where
  VXI_SUCCESS : Int
  VXI_PROTOCOL_ERROR : Int
  MBC_END : Nat
  fetch_protocol_error : Int

/-- One round of the handshake as the device answers it: the values the two
`vxiMsgSync` calls return, and the response word read from the data low register. -/
structure vxiHandshake where
  writeReady : Int
  readReady : Int
  resp : Nat
  deriving DecidableEq, Repr

/-- Where `epvxiReadSlowHandshake` stands when it reaches the label `exit` or leaves
the loop: the status, the offset of `pbuf` from the start of the buffer, the memory at
`pbuf`, and the value held by `*pread_count`. -/
structure vxiReadState where
  status : Int
  offset : Nat
  buf : List Nat
  pread_count : Nat
  deriving DecidableEq, Repr

/-- Loop of `epvxiReadSlowHandshake` (lines 549-590).  `bound` is the value of
`count-1`, `i` the loop counter, which is also the offset of `pbuf`; `buf` is the memory
the caller passed, of whatever length, and `pread_count` the value `*pread_count` holds.
The result is `none` when the script of device answers ends while the loop runs. -/
def epvxiReadSlowHandshake.loop (env : vxiEnv) (bound : Nat) :
    List vxiHandshake → Nat → List Nat → Nat → Option vxiReadState
  | [], i, buf, pread_count =>
      if i < bound then none
      else some { status := env.VXI_SUCCESS, offset := i, buf := buf,
                  pread_count := pread_count }
  | h :: rest, i, buf, pread_count =>
      if i < bound then
        if h.writeReady < 0 then
          some { status := h.writeReady, offset := i, buf := buf, pread_count := i }
        else if h.readReady < 0 then
          some { status := h.readReady, offset := i, buf := buf, pread_count := i }
        else
          let buf1 := buf.set i (h.resp % 256)
          if Nat.land h.resp env.MBC_END ≠ 0 then
            some { status := env.VXI_SUCCESS, offset := i + 1, buf := buf1,
                   pread_count := i + 1 }
          else epvxiReadSlowHandshake.loop env bound rest (i + 1) buf1 pread_count
      else some { status := env.VXI_SUCCESS, offset := i, buf := buf,
                  pread_count := pread_count }

/-- What a read returns to its caller: the status, the memory at `pbuf` and the value
of `*pread_count`. -/
structure vxiReadResult where
  status : Int
  buf : List Nat
  pread_count : Nat
  deriving DecidableEq, Repr

/-- Embedding of `epvxiReadSlowHandshake` for a device whose driver configuration
exists.  `count` is an `unsigned long` of 32 bits, so `count-1` wraps for `count = 0`. -/
def epvxiReadSlowHandshake (env : vxiEnv) (count : Nat) (pbuf : List Nat)
    (pread_count : Nat) (device : List vxiHandshake) : Option vxiReadResult :=
  match epvxiReadSlowHandshake.loop env ((count + 4294967296 - 1) % 4294967296) device 0
      pbuf pread_count with
  | none => none
  | some r =>
      if r.status = env.VXI_PROTOCOL_ERROR then
        some { status := env.fetch_protocol_error, buf := r.buf, pread_count := r.pread_count }
      else
        some { status := r.status, buf := r.buf.set r.offset 0, pread_count := r.pread_count }

/-- Embedding of `epvxiRead` as compiled without `FASTHANDSHAKE`: open the device when
it has no driver configuration yet (`vxiMsgOpen` returning `openStatus`), then read by
slow handshake.  The trace output does not touch the results. -/
def epvxiRead (env : vxiEnv) (configured : Bool) (openStatus : Int) (count : Nat)
    (pbuf : List Nat) (pread_count : Nat) (device : List vxiHandshake) :
    Option vxiReadResult :=
  if ¬ configured ∧ openStatus ≠ env.VXI_SUCCESS then
    some { status := openStatus, buf := pbuf, pread_count := pread_count }
  else epvxiReadSlowHandshake env count pbuf pread_count device

/-! ## Completion of asynchronous IO in the server -/

/-- Status codes of the server library that `casAsyncIOI.cc` uses. -/
inductive caStatus where
  | S_cas_success
  | S_cas_redundantPost
  | S_cas_sendBlocked
  | S_cas_badParameter
  | other (code : Nat)
  deriving DecidableEq, Repr

open caStatus

/-- Fields of `casCoreClient` that `casAsyncIOI.cc` touches: the flag set while an
asynchronous IO object exists for the request at hand, the event queue (the identities
of the queued objects, in order), and the messages given to `errMessage`. -/
structure casCoreClient where
  asyncIOFlag : Bool
  eventQueue : List Nat
  errMessages : List caStatus
  deriving DecidableEq, Repr

/-- Fields of `casAsyncIOI`, with `self` for the identity of the object and `deleted`
set once `delete this` has run. -/
structure casAsyncIOI where
  self : Nat
  inTheEventQueue : Bool
  posted : Bool
  ioComplete : Bool
  serverDelete : Bool
  duplicate : Bool
  deleted : Bool
  deriving DecidableEq, Repr

/-- Embedding of the constructor `casAsyncIOI::casAsyncIOI`. -/
def casAsyncIOI.new (self : Nat) (client : casCoreClient) : casAsyncIOI × casCoreClient :=
  if client.asyncIOFlag then
    ({ self := self, inTheEventQueue := false, posted := false, ioComplete := false,
       serverDelete := false, duplicate := true, deleted := false },
     { client with errMessages := client.errMessages ++ [S_cas_badParameter] })
  else
    ({ self := self, inTheEventQueue := false, posted := false, ioComplete := false,
       serverDelete := false, duplicate := false, deleted := false },
     { client with asyncIOFlag := true })

/-- Embedding of the destructor `casAsyncIOI::~casAsyncIOI`; the warning goes to
`stderr` and is not recorded. -/
def casAsyncIOI.destructor (io : casAsyncIOI) (client : casCoreClient) :
    casAsyncIOI × casCoreClient :=
  let client1 :=
    if io.inTheEventQueue then
      { client with eventQueue := client.eventQueue.erase io.self }
    else client
  ({ io with deleted := true }, client1)

/-- Embedding of `casAsyncIOI::serverDestroy`, with `destroy ()` as `casAsyncIOI.cc`
defines it, `delete this`. -/
def casAsyncIOI.serverDestroy (io : casAsyncIOI) (client : casCoreClient) :
    casAsyncIOI × casCoreClient :=
  casAsyncIOI.destructor { io with serverDelete := true } client

/-- Embedding of `casAsyncIOI::postIOCompletionI`. -/
def casAsyncIOI.postIOCompletionI (io : casAsyncIOI) (client : casCoreClient) :
    casAsyncIOI × casCoreClient × caStatus :=
  if io.serverDelete then (io, client, S_cas_redundantPost)
  else if io.duplicate then
    let client1 := { client with errMessages := client.errMessages ++ [S_cas_badParameter] }
    let r := io.serverDestroy client1
    (r.1, r.2, S_cas_redundantPost)
  else if io.posted then (io, client, S_cas_redundantPost)
  else
    ({ io with posted := true, inTheEventQueue := true },
     { client with eventQueue := client.eventQueue ++ [io.self] }, S_cas_success)

/-- Embedding of `casAsyncIOI::cbFunc`, called by the event system when the completion
event of the object has reached the top of the event queue and has been taken off it;
`status` is what `cbFuncAsyncIO ()` returns. -/
def casAsyncIOI.cbFunc (io : casAsyncIOI) (client : casCoreClient) (status : caStatus) :
    casAsyncIOI × casCoreClient × caStatus :=
  let io1 := { io with inTheEventQueue := false }
  if status = S_cas_sendBlocked then
    ({ io1 with inTheEventQueue := true }, client, status)
  else
    let client1 :=
      if status ≠ S_cas_success then
        { client with errMessages := client.errMessages ++ [status] }
      else client
    let r := ({ io1 with ioComplete := true } : casAsyncIOI).serverDestroy client1
    (r.1, r.2, S_cas_success)

/-- Calls made on one asynchronous IO object by the server tool and by the event
system. -/
inductive casAsyncIOCall where
  | postIOCompletionI
  | cbFunc (status : caStatus)
  | serverDestroy
  deriving DecidableEq, Repr

/-- Run a sequence of calls on one object; the last component collects what the calls
of `postIOCompletionI` returned, in order. -/
def casAsyncIOI.calls : List casAsyncIOCall → casAsyncIOI → casCoreClient → List caStatus →
    casAsyncIOI × casCoreClient × List caStatus
  | [], io, client, posts => (io, client, posts)
  | casAsyncIOCall.postIOCompletionI :: rest, io, client, posts =>
      let r := io.postIOCompletionI client
      casAsyncIOI.calls rest r.1 r.2.1 (posts ++ [r.2.2])
  | casAsyncIOCall.cbFunc status :: rest, io, client, posts =>
      let r := io.cbFunc client status
      casAsyncIOI.calls rest r.1 r.2.1 posts
  | casAsyncIOCall.serverDestroy :: rest, io, client, posts =>
      let r := io.serverDestroy client
      casAsyncIOI.calls rest r.1 r.2 posts

/-! ### Concrete inputs used to exercise the send and receive engines -/

/-- A sending context over `exampleStagingEnv` in which every queued message occupies a
frame buffer of 16 bytes, the first four of them its parameter1. -/
def exampleSendEnv : sendEnv :=
  { exampleStagingEnv with
    comBufs := fun q => q.requests.map fun r =>
      { bytes := beBytes32 r.cid ++ List.replicate 12 0 } }

/-- A circuit to a v4.9 peer with four echo requests in its send queue. -/
def exampleBusyCircuit : circuit :=
  { exampleCircuit with
    sendQue :=
      { requests := List.replicate 4 ⟨CA_PROTO_ECHO, 0, 0, 0, 0, 0, true, []⟩
        staged := none } }

/-- A circuit in `clean_shutdown` with three write requests queued, a send buffer of 20
bytes in the socket library, and a writer blocked. -/
def exampleDrainCircuit : circuit :=
  { exampleCircuit with
    conn := { tcpiiu.init with state := iiucs_clean_shutdown }
    sendQue :=
      { requests := [⟨CA_PROTO_WRITE, 0, 0, 1, 1, 0, true, []⟩,
                     ⟨CA_PROTO_WRITE, 0, 0, 1, 2, 0, true, []⟩,
                     ⟨CA_PROTO_WRITE, 0, 0, 1, 3, 0, true, []⟩]
        staged := none }
    socketLibrarySendBufferSize := 20
    blockingForFlush := 1
    earlyFlush := true }

/-- An instance of the codes of `epvxiLib.h`: success is zero, errors are negative,
`END` is bit 8 of the response word. -/
def exampleVxiEnv : vxiEnv :=
  { VXI_SUCCESS := 0, VXI_PROTOCOL_ERROR := -14, MBC_END := 0x100,
    fetch_protocol_error := -20 }

/-! ## Lemmas on the connection state machine -/

theorem tcpiiu.initiateCleanShutdown_state (s : tcpiiu) :
    s.initiateCleanShutdown.state =
      if s.state = iiucs_connected then iiucs_clean_shutdown else s.state := by
  unfold tcpiiu.initiateCleanShutdown tcpiiu.emit
  split <;> rfl

theorem tcpiiu.initiateCleanShutdown_closed (s : tcpiiu) :
    s.initiateCleanShutdown.socketHasBeenClosed = s.socketHasBeenClosed := by
  unfold tcpiiu.initiateCleanShutdown tcpiiu.emit
  split <;> rfl

theorem tcpiiu.initiateAbortShutdown_state (s : tcpiiu)
    (info : epicsSocketSystemCallInterruptMechanismQueryInfo) (l sh : Int) :
    (s.initiateAbortShutdown info l sh).state =
      if s.state = iiucs_abort_shutdown ∨ s.state = iiucs_disconnected then s.state
      else iiucs_abort_shutdown := by
  rcases s with ⟨st, d, c, ch, tr⟩
  cases st <;> cases d <;> cases c <;> cases info <;>
    simp [tcpiiu.initiateAbortShutdown, tcpiiu.emit] <;> split_ifs <;> simp_all

theorem tcpiiu.initiateAbortShutdown_discarding (s : tcpiiu)
    (info : epicsSocketSystemCallInterruptMechanismQueryInfo) (l sh : Int) :
    (s.initiateAbortShutdown info l sh).discardingPendingData = true := by
  rcases s with ⟨st, d, c, ch, tr⟩
  cases st <;> cases d <;> cases c <;> cases info <;>
    simp [tcpiiu.initiateAbortShutdown, tcpiiu.emit] <;> split_ifs <;> simp_all

theorem tcpiiu.initiateAbortShutdown_closed (s : tcpiiu)
    (info : epicsSocketSystemCallInterruptMechanismQueryInfo) (l sh : Int)
    (h : s.socketHasBeenClosed = true) :
    (s.initiateAbortShutdown info l sh).socketHasBeenClosed = true := by
  rcases s with ⟨st, d, c, ch, tr⟩
  simp only at h
  subst h
  cases st <;> cases d <;> cases info <;>
    simp [tcpiiu.initiateAbortShutdown, tcpiiu.emit] <;> split_ifs <;> simp_all

theorem tcpiiu.initiateAbortShutdown_idem (s : tcpiiu)
    (info1 info2 : epicsSocketSystemCallInterruptMechanismQueryInfo) (l1 sh1 l2 sh2 : Int) :
    (s.initiateAbortShutdown info1 l1 sh1).initiateAbortShutdown info2 l2 sh2 =
      s.initiateAbortShutdown info1 l1 sh1 := by
  have hd := s.initiateAbortShutdown_discarding info1 l1 sh1
  have hs := s.initiateAbortShutdown_state info1 l1 sh1
  generalize s.initiateAbortShutdown info1 l1 sh1 = t at hd hs
  have ht : t.state = iiucs_abort_shutdown ∨ t.state = iiucs_disconnected := by
    rw [hs]
    split_ifs with h
    · exact h
    · exact Or.inl rfl
  unfold tcpiiu.initiateAbortShutdown
  rcases ht with ht | ht <;> simp [hd, ht]

theorem tcpiiu.uninstallChan_eq (t : tcpiiu) (c : Nat) :
    t.uninstallChan c =
      if (t.channelList.erase c).length = 0
      then ({ t with channelList := t.channelList.erase c }).initiateCleanShutdown
      else { t with channelList := t.channelList.erase c } := rfl

theorem tcpiiu.uninstallChan_closed (s : tcpiiu) (c : Nat) :
    (s.uninstallChan c).socketHasBeenClosed = s.socketHasBeenClosed := by
  rw [tcpiiu.uninstallChan_eq]
  split_ifs
  · rw [tcpiiu.initiateCleanShutdown_closed]
  · rfl

theorem tcpiiu.uninstallChan_state_of_ne (s : tcpiiu) (c : Nat)
    (h : s.state ≠ iiucs_connected) : (s.uninstallChan c).state = s.state := by
  rw [tcpiiu.uninstallChan_eq]
  split_ifs
  · rw [tcpiiu.initiateCleanShutdown_state]
    simp [h]
  · rfl

/-! ### Predicates kept by every operation -/

theorem Stable.applyAsync {Q : tcpiiu → Prop} (hQ : Stable Q) (s : tcpiiu) (op : AsyncOp)
    (h : Q s) : Q (s.applyAsync op) := by
  cases op with
  | initiateCleanShutdown => exact hQ.cleanShutdown s h
  | disconnectNotify => exact hQ.disconnect s h
  | initiateAbortShutdown info l sh => exact hQ.abortShutdown s info l sh h
  | uninstallChan c => exact hQ.uninstall s c h

theorem Stable.applyAsyncs {Q : tcpiiu → Prop} (hQ : Stable Q) (ops : List AsyncOp) :
    ∀ s : tcpiiu, Q s → Q (s.applyAsyncs ops) := by
  induction ops with
  | nil => intro s h; exact h
  | cons op rest ih =>
      intro s h
      exact ih (s.applyAsync op) (hQ.applyAsync s op h)

theorem Stable.connectLoop {Q : tcpiiu → Prop} (hQ : Stable Q) (script : List SyscallAttempt) :
    ∀ s : tcpiiu, Q s → Q (s.connectLoop script).1 := by
  induction script with
  | nil =>
      intro s h
      unfold tcpiiu.connectLoop
      split_ifs <;> exact h
  | cons a rest ih =>
      intro s h
      have h1 : Q ((s.emit SockEvent.connectCall).applyAsyncs a.during) :=
        hQ.applyAsyncs _ _ (hQ.emit s _ (by simp) (by simp) h)
      unfold tcpiiu.connectLoop
      simp only
      split_ifs with c1 c2 c3 c4 c5
      · exact hQ.emit _ _ (by simp) (by simp) (hQ.connected _ c3 h1)
      · exact h1
      · exact ih _ h1
      · exact h1
      · exact hQ.disconnect _ (hQ.emit _ _ (by simp) (by simp) h1)
      · exact h

theorem Stable.connect {Q : tcpiiu → Prop} (hQ : Stable Q) (script : List SyscallAttempt)
    (s : tcpiiu) (h : Q s) : Q (s.connect script).1 := by
  have h1 := hQ.connectLoop script _ (hQ.emit s SockEvent.sendDogStart (by simp) (by simp) h)
  unfold tcpiiu.connect
  simp only
  split_ifs
  · exact hQ.emit _ _ (by simp) (by simp) h1
  · exact h1

theorem Stable.sendLoop {Q : tcpiiu → Prop} (hQ : Stable Q) (script : List SyscallAttempt) :
    ∀ s : tcpiiu, Q s → Q (s.sendLoop script).1 := by
  induction script with
  | nil =>
      intro s h
      unfold tcpiiu.sendLoop
      split_ifs <;> exact h
  | cons a rest ih =>
      intro s h
      unfold tcpiiu.sendLoop
      simp only
      split_ifs with c1 c2 c3 c4 c5
      · exact hQ.applyAsyncs _ _ (hQ.sendCall s c1 h)
      · exact hQ.disconnect _ (hQ.applyAsyncs _ _ (hQ.sendCall s c1 h))
      · exact ih _ (hQ.applyAsyncs _ _ (hQ.sendCall s c1 h))
      · exact hQ.disconnect _ (hQ.emit _ _ (by simp) (by simp)
          (hQ.applyAsyncs _ _ (hQ.sendCall s c1 h)))
      · exact hQ.disconnect _ (hQ.applyAsyncs _ _ (hQ.sendCall s c1 h))
      · exact h

theorem Stable.sendBytes {Q : tcpiiu → Prop} (hQ : Stable Q) (script : List SyscallAttempt)
    (s : tcpiiu) (h : Q s) : Q (s.sendBytes script).1 := by
  have h1 := hQ.sendLoop script _ (hQ.emit s SockEvent.sendDogStart (by simp) (by simp) h)
  unfold tcpiiu.sendBytes
  simp only
  split
  · exact hQ.emit _ _ (by simp) (by simp) h1
  · exact h1

theorem Stable.applyOp {Q : tcpiiu → Prop} (hQ : Stable Q) (s : tcpiiu) (op : CircuitOp)
    (h : Q s) : Q (s.applyOp op) := by
  cases op with
  | connect script => exact hQ.connect script s h
  | initiateCleanShutdown => exact hQ.cleanShutdown s h
  | disconnectNotify => exact hQ.disconnect s h
  | initiateAbortShutdown info l sh => exact hQ.abortShutdown s info l sh h
  | uninstallChan c => exact hQ.uninstall s c h
  | sendBytes script => exact hQ.sendBytes script s h

theorem Stable.run {Q : tcpiiu → Prop} (hQ : Stable Q) (ops : List CircuitOp) :
    ∀ s : tcpiiu, Q s → Q (s.run ops) := by
  induction ops with
  | nil => intro s h; exact h
  | cons op rest ih =>
      intro s h
      exact ih (s.applyOp op) (hQ.applyOp s op h)

theorem stable_disconnected : Stable (fun s => s.state = iiucs_disconnected) where
  emit := by intro s e _ _ h; exact h
  sendCall := by intro s _ h; exact h
  cleanShutdown := by
    intro s h
    rw [tcpiiu.initiateCleanShutdown_state]
    simp [h]
  disconnect := by intro s _; rfl
  abortShutdown := by
    intro s info l sh h
    rw [tcpiiu.initiateAbortShutdown_state]
    simp [h]
  uninstall := by
    intro s c h
    rw [tcpiiu.uninstallChan_state_of_ne s c (by simp [h])]
    exact h
  connected := by
    intro s hc h
    rw [hc] at h
    cases h

theorem stable_socketHasBeenClosed : Stable (fun s => s.socketHasBeenClosed = true) where
  emit := by intro s e _ _ h; exact h
  sendCall := by intro s _ h; exact h
  cleanShutdown := by
    intro s h
    rw [tcpiiu.initiateCleanShutdown_closed]
    exact h
  disconnect := by intro s h; exact h
  abortShutdown := by
    intro s info l sh h
    exact tcpiiu.initiateAbortShutdown_closed s info l sh h
  uninstall := by
    intro s c h
    rw [tcpiiu.uninstallChan_closed]
    exact h
  connected := by intro s _ h; exact h

theorem tcpiiu.initiateAbortShutdown_trace (s : tcpiiu)
    (info : epicsSocketSystemCallInterruptMechanismQueryInfo) (l sh : Int) :
    ∃ more, (s.initiateAbortShutdown info l sh).trace = s.trace ++ more ∧
      (∀ st, SockEvent.send st ∉ more) ∧
      (s.initiateAbortShutdown info l sh).socketHasBeenClosed =
        (s.socketHasBeenClosed || decide (more.count SockEvent.epicsSocketDestroy = 1)) ∧
      more.count SockEvent.epicsSocketDestroy ≤ 1 ∧
      (s.socketHasBeenClosed = true → more.count SockEvent.epicsSocketDestroy = 0) := by
  rcases s with ⟨st, d, c, ch, tr⟩
  by_cases hl : l = 0 <;> by_cases hsh : sh = 0 <;>
    by_cases hst : (st ≠ iiucs_abort_shutdown ∧ st ≠ iiucs_disconnected) <;>
    cases d <;> cases c <;> cases info <;>
    simp [tcpiiu.initiateAbortShutdown, tcpiiu.emit, hl, hsh, hst]

theorem tcpiiu.destroyCount_emit (s : tcpiiu) (e : SockEvent)
    (he : e ≠ SockEvent.epicsSocketDestroy) : (s.emit e).destroyCount = s.destroyCount := by
  unfold tcpiiu.destroyCount tcpiiu.emit
  simp [List.count_append, List.count_cons, he]

theorem tcpiiu.destroyCount_initiateCleanShutdown (s : tcpiiu) :
    s.initiateCleanShutdown.destroyCount = s.destroyCount := by
  unfold tcpiiu.initiateCleanShutdown
  split_ifs
  · rw [tcpiiu.destroyCount_emit _ _ (by simp)]
    rfl
  · rfl

theorem tcpiiu.destroyCount_uninstallChan (s : tcpiiu) (c : Nat) :
    (s.uninstallChan c).destroyCount = s.destroyCount := by
  rw [tcpiiu.uninstallChan_eq]
  split_ifs
  · rw [tcpiiu.destroyCount_initiateCleanShutdown]
    rfl
  · rfl

theorem stable_destroyCount :
    Stable (fun s => s.destroyCount = if s.socketHasBeenClosed then 1 else 0) where
  emit := by
    intro s e he _ h
    rw [tcpiiu.destroyCount_emit s e he]
    exact h
  sendCall := by
    intro s _ h
    rw [tcpiiu.destroyCount_emit s _ (by simp)]
    exact h
  cleanShutdown := by
    intro s h
    rw [tcpiiu.destroyCount_initiateCleanShutdown, tcpiiu.initiateCleanShutdown_closed]
    exact h
  disconnect := by
    intro s h
    unfold tcpiiu.disconnectNotify
    rw [tcpiiu.destroyCount_emit _ _ (by simp)]
    exact h
  abortShutdown := by
    intro s info l sh h
    obtain ⟨more, h1, _, h3, h4, h5⟩ := tcpiiu.initiateAbortShutdown_trace s info l sh
    simp only [tcpiiu.destroyCount] at h ⊢
    rw [h1, h3, List.count_append, h]
    cases hc : s.socketHasBeenClosed
    · have : List.count SockEvent.epicsSocketDestroy more = 0 ∨
          List.count SockEvent.epicsSocketDestroy more = 1 := by omega
      rcases this with h0 | h0 <;> simp [h0]
    · simp [h5 hc]
  uninstall := by
    intro s c h
    rw [tcpiiu.uninstallChan_closed, tcpiiu.destroyCount_uninstallChan]
    exact h
  connected := by intro s _ h; exact h

theorem stable_sendsAllowed (tr0 : List SockEvent) :
    Stable (fun s => ∃ evs, s.trace = tr0 ++ evs ∧
      ∀ st, SockEvent.send st ∈ evs → st.sendAllowed) where
  emit := by
    rintro s e _ hs ⟨evs, h1, h2⟩
    refine ⟨evs ++ [e], by simp [tcpiiu.emit, h1], ?_⟩
    intro st hst
    rcases List.mem_append.1 hst with h | h
    · exact h2 st h
    · exact absurd (List.mem_singleton.1 h).symm (hs st)
  sendCall := by
    rintro s hok ⟨evs, h1, h2⟩
    refine ⟨evs ++ [SockEvent.send s.state], by simp [tcpiiu.emit, h1], ?_⟩
    intro st hst
    rcases List.mem_append.1 hst with h | h
    · exact h2 st h
    · have := List.mem_singleton.1 h
      cases this
      exact hok
  cleanShutdown := by
    rintro s ⟨evs, h1, h2⟩
    unfold tcpiiu.initiateCleanShutdown
    split_ifs
    · refine ⟨evs ++ [SockEvent.sendThreadFlushEventSignal], by simp [tcpiiu.emit, h1], ?_⟩
      intro st hst
      rcases List.mem_append.1 hst with h | h
      · exact h2 st h
      · simp at h
    · exact ⟨evs, h1, h2⟩
  disconnect := by
    rintro s ⟨evs, h1, h2⟩
    refine ⟨evs ++ [SockEvent.sendThreadFlushEventSignal],
      by simp [tcpiiu.disconnectNotify, tcpiiu.emit, h1], ?_⟩
    intro st hst
    rcases List.mem_append.1 hst with h | h
    · exact h2 st h
    · simp at h
  abortShutdown := by
    rintro s info l sh ⟨evs, h1, h2⟩
    obtain ⟨more, hm1, hm2, _⟩ := tcpiiu.initiateAbortShutdown_trace s info l sh
    refine ⟨evs ++ more, by rw [hm1, h1, List.append_assoc], ?_⟩
    intro st hst
    rcases List.mem_append.1 hst with h | h
    · exact h2 st h
    · exact absurd h (hm2 st)
  uninstall := by
    rintro s c ⟨evs, h1, h2⟩
    rw [tcpiiu.uninstallChan_eq]
    split_ifs
    · unfold tcpiiu.initiateCleanShutdown
      split_ifs
      · refine ⟨evs ++ [SockEvent.sendThreadFlushEventSignal], by simp [tcpiiu.emit, h1], ?_⟩
        intro st hst
        rcases List.mem_append.1 hst with h | h
        · exact h2 st h
        · simp at h
      · exact ⟨evs, h1, h2⟩
    · exact ⟨evs, h1, h2⟩
  connected := by
    rintro s _ ⟨evs, h1, h2⟩
    exact ⟨evs, h1, h2⟩

/-! ## Claims on the connection state machine -/

/-- C1: `initiateAbortShutdown` moves the state from `connected` and from
`clean_shutdown` to `abort_shutdown`, leaves `abort_shutdown` and `disconnected`
unchanged, and from every starting state leaves `discardingPendingData` set. -/
theorem initiateAbortShutdown_transitions (s : tcpiiu)
    (info : epicsSocketSystemCallInterruptMechanismQueryInfo) (l sh : Int) :
    (({ s with state := iiucs_connected }).initiateAbortShutdown info l sh).state
        = iiucs_abort_shutdown ∧
    (({ s with state := iiucs_clean_shutdown }).initiateAbortShutdown info l sh).state
        = iiucs_abort_shutdown ∧
    (({ s with state := iiucs_abort_shutdown }).initiateAbortShutdown info l sh).state
        = iiucs_abort_shutdown ∧
    (({ s with state := iiucs_disconnected }).initiateAbortShutdown info l sh).state
        = iiucs_disconnected ∧
    (s.initiateAbortShutdown info l sh).discardingPendingData = true := by
  refine ⟨?_, ?_, ?_, ?_, tcpiiu.initiateAbortShutdown_discarding s info l sh⟩ <;>
    rw [tcpiiu.initiateAbortShutdown_state] <;> simp

theorem tcpiiu.uninstall_fold_connected (r : List Nat) :
    ∀ s : tcpiiu, s.state = iiucs_connected → s.channelList.Nodup → r.Nodup →
      (∀ c ∈ r, c ∈ s.channelList) → r.length < s.channelList.length →
      (r.foldl tcpiiu.uninstallChan s).state = iiucs_connected := by
  induction r with
  | nil => intro s h _ _ _ _; exact h
  | cons c r ih =>
      intro s hs hnd hr hmem hlen
      have hc : c ∈ s.channelList := hmem c (List.mem_cons_self c r)
      have hlen1 : (s.channelList.erase c).length = s.channelList.length - 1 :=
        List.length_erase_of_mem hc
      simp only [List.length_cons] at hlen
      have hne : ¬ (s.channelList.erase c).length = 0 := by omega
      have hstep : s.uninstallChan c = { s with channelList := s.channelList.erase c } := by
        rw [tcpiiu.uninstallChan_eq, if_neg hne]
      rw [List.foldl_cons, hstep]
      apply ih
      · exact hs
      · exact hnd.erase c
      · exact (List.nodup_cons.1 hr).2
      · intro d hd
        have hdc : d ≠ c := by
          rintro rfl
          exact (List.nodup_cons.1 hr).1 hd
        exact (List.mem_erase_of_ne hdc).2 (hmem d (List.mem_cons_of_mem c hd))
      · simp only
        omega

theorem tcpiiu.uninstall_fold_all (r : List Nat) :
    ∀ s : tcpiiu, s.state = iiucs_connected → s.channelList.Nodup → r.Nodup →
      (∀ c ∈ r, c ∈ s.channelList) → r.length = s.channelList.length → r ≠ [] →
      (r.foldl tcpiiu.uninstallChan s).state = iiucs_clean_shutdown := by
  induction r with
  | nil => intro s _ _ _ _ _ h; exact absurd rfl h
  | cons c r ih =>
      intro s hs hnd hr hmem hlen _
      have hc : c ∈ s.channelList := hmem c (List.mem_cons_self c r)
      have hlen1 : (s.channelList.erase c).length = s.channelList.length - 1 :=
        List.length_erase_of_mem hc
      simp only [List.length_cons] at hlen
      rw [List.foldl_cons]
      cases r with
      | nil =>
          have h0 : (s.channelList.erase c).length = 0 := by
            simp only [List.length_nil] at hlen
            omega
          rw [tcpiiu.uninstallChan_eq, if_pos h0, List.foldl_nil,
            tcpiiu.initiateCleanShutdown_state]
          simp [hs]
      | cons d r =>
          have hne : ¬ (s.channelList.erase c).length = 0 := by
            simp only [List.length_cons] at hlen
            omega
          have hstep : s.uninstallChan c = { s with channelList := s.channelList.erase c } := by
            rw [tcpiiu.uninstallChan_eq, if_neg hne]
          rw [hstep]
          apply ih
          · exact hs
          · exact hnd.erase c
          · exact (List.nodup_cons.1 hr).2
          · intro e he
            have hec : e ≠ c := by
              rintro rfl
              exact (List.nodup_cons.1 hr).1 he
            exact (List.mem_erase_of_ne hec).2 (hmem e (List.mem_cons_of_mem c he))
          · simp only
            omega
          · simp

/-- C2: `uninstallChan` calls `initiateCleanShutdown` exactly when the removal leaves
the channel list empty; `initiateCleanShutdown` moves `connected` to `clean_shutdown`
and changes no other state; so when the `n >= 1` channels of a connected circuit are
removed one by one, the state is still `connected` after fewer than `n` removals and
is `clean_shutdown` after the `n`-th. -/
theorem uninstallChan_clean_shutdown_after_last (s : tcpiiu) (removals : List Nat)
    (hconn : s.state = iiucs_connected)
    (hnd : s.channelList.Nodup)
    (hne : 1 ≤ s.channelList.length)
    (hperm : removals.Perm s.channelList) :
    (∀ (t : tcpiiu) (c : Nat), t.uninstallChan c =
        if (t.channelList.erase c).length = 0
        then ({ t with channelList := t.channelList.erase c }).initiateCleanShutdown
        else { t with channelList := t.channelList.erase c }) ∧
    (∀ t : tcpiiu, t.initiateCleanShutdown.state =
        if t.state = iiucs_connected then iiucs_clean_shutdown else t.state) ∧
    (∀ k, k < removals.length →
        ((removals.take k).foldl tcpiiu.uninstallChan s).state = iiucs_connected) ∧
    (removals.foldl tcpiiu.uninstallChan s).state = iiucs_clean_shutdown := by
  have hrnd : removals.Nodup := hperm.nodup_iff.2 hnd
  have hmem : ∀ c ∈ removals, c ∈ s.channelList := fun c hc => hperm.subset hc
  have hlen : removals.length = s.channelList.length := hperm.length_eq
  refine ⟨tcpiiu.uninstallChan_eq, tcpiiu.initiateCleanShutdown_state, ?_, ?_⟩
  · intro k hk
    apply tcpiiu.uninstall_fold_connected _ s hconn hnd
    · exact hrnd.sublist (List.take_sublist k removals)
    · intro c hc
      exact hmem c (List.mem_of_mem_take hc)
    · rw [List.length_take]
      omega
  · apply tcpiiu.uninstall_fold_all _ s hconn hnd hrnd hmem hlen
    intro h
    rw [h] at hlen
    simp only [List.length_nil] at hlen
    omega

/-- Witness for C2: a connected circuit holding channels 1 and 2, removed in the order
2, 1. -/
theorem uninstallChan_clean_shutdown_after_last_witness :
    (([2, 1].take 1).foldl tcpiiu.uninstallChan
        { tcpiiu.init with state := iiucs_connected, channelList := [1, 2] }).state
      = iiucs_connected ∧
    ([2, 1].foldl tcpiiu.uninstallChan
        { tcpiiu.init with state := iiucs_connected, channelList := [1, 2] }).state
      = iiucs_clean_shutdown :=
  have h := uninstallChan_clean_shutdown_after_last
    { tcpiiu.init with state := iiucs_connected, channelList := [1, 2] } [2, 1]
    rfl (by decide) (by decide) (List.Perm.swap 1 2 [])
  ⟨h.2.2.1 1 (by decide), h.2.2.2⟩

/-- C3: `disconnected` is terminal: from a circuit in state `disconnected`, any sequence
of operations (connect with any outcomes, `initiateCleanShutdown`, `disconnectNotify`,
`initiateAbortShutdown`, channel removal, `sendBytes`) ends in `disconnected`. -/
theorem disconnected_is_terminal (s : tcpiiu) (ops : List CircuitOp)
    (h : s.state = iiucs_disconnected) : (s.run ops).state = iiucs_disconnected :=
  stable_disconnected.run ops s h

/-- Witness for C3: a disconnected circuit on which a successful connect, a clean
shutdown request, a disconnect notification and an abort request are applied. -/
theorem disconnected_is_terminal_witness :
    (({ tcpiiu.init with state := iiucs_disconnected } : tcpiiu).run
        [CircuitOp.connect [⟨[], 0, SOCK_EINTR⟩], CircuitOp.initiateCleanShutdown,
         CircuitOp.disconnectNotify,
         CircuitOp.initiateAbortShutdown esscimqi_socketCloseRequired 0 0]).state
      = iiucs_disconnected :=
  disconnected_is_terminal _ _ rfl

/-- C4 as stated fails: on a freshly constructed circuit, which is in state
`connecting`, `initiateCleanShutdown` does not lead to `disconnected`. -/
theorem initiateCleanShutdown_connecting_not_disconnected :
    tcpiiu.init.state = iiucs_connecting ∧
    tcpiiu.init.initiateCleanShutdown.state ≠ iiucs_disconnected := by
  decide

/-- C4 amended: `initiateCleanShutdown` issued while the circuit is in state
`connecting` changes nothing: the state stays `connecting` and no event is signalled. -/
theorem initiateCleanShutdown_connecting_noop (s : tcpiiu)
    (h : s.state = iiucs_connecting) : s.initiateCleanShutdown = s := by
  unfold tcpiiu.initiateCleanShutdown
  rw [if_neg]
  rw [h]
  decide

/-- Witness for C4 amended: the freshly constructed circuit. -/
theorem initiateCleanShutdown_connecting_noop_witness :
    tcpiiu.init.initiateCleanShutdown = tcpiiu.init :=
  initiateCleanShutdown_connecting_noop tcpiiu.init rfl

/-- C5 as stated fails: `disconnectNotify` delivered in state `abort_shutdown` moves
the state to `disconnected`. -/
theorem disconnectNotify_leaves_abort_shutdown :
    (({ tcpiiu.init with state := iiucs_abort_shutdown } : tcpiiu).disconnectNotify).state
      ≠ iiucs_abort_shutdown := by
  decide

/-- C5 amended: once the state is `abort_shutdown`, `initiateCleanShutdown`,
`initiateAbortShutdown`, channel removal, `connect` and `sendBytes` leave it
`abort_shutdown`, whereas `disconnectNotify` moves it to `disconnected`. -/
theorem abort_shutdown_left_only_by_disconnectNotify (s : tcpiiu)
    (info : epicsSocketSystemCallInterruptMechanismQueryInfo) (l sh : Int) (c : Nat)
    (script : List SyscallAttempt) (h : s.state = iiucs_abort_shutdown) :
    s.initiateCleanShutdown.state = iiucs_abort_shutdown ∧
    (s.initiateAbortShutdown info l sh).state = iiucs_abort_shutdown ∧
    (s.uninstallChan c).state = iiucs_abort_shutdown ∧
    (s.connect script).1.state = iiucs_abort_shutdown ∧
    (s.sendBytes script).1.state = iiucs_abort_shutdown ∧
    s.disconnectNotify.state = iiucs_disconnected := by
  refine ⟨?_, ?_, ?_, ?_, ?_, rfl⟩
  · rw [tcpiiu.initiateCleanShutdown_state]
    simp [h]
  · rw [tcpiiu.initiateAbortShutdown_state]
    simp [h]
  · rw [tcpiiu.uninstallChan_state_of_ne s c (by simp [h])]
    exact h
  · cases script <;>
      simp [tcpiiu.connect, tcpiiu.connectLoop, tcpiiu.emit, h]
  · cases script <;>
      simp [tcpiiu.sendBytes, tcpiiu.sendLoop, tcpiiu.emit, h]

/-- Witness for C5 amended: a circuit in `abort_shutdown`. -/
theorem abort_shutdown_left_only_by_disconnectNotify_witness :
    (({ tcpiiu.init with state := iiucs_abort_shutdown } : tcpiiu).initiateCleanShutdown).state
      = iiucs_abort_shutdown ∧
    (({ tcpiiu.init with state := iiucs_abort_shutdown } : tcpiiu).disconnectNotify).state
      = iiucs_disconnected :=
  have h := abort_shutdown_left_only_by_disconnectNotify
    { tcpiiu.init with state := iiucs_abort_shutdown } esscimqi_socketCloseRequired 0 0 7
    [⟨[], 0, SOCK_EINTR⟩] rfl
  ⟨h.1, h.2.2.2.2.2⟩

theorem tcpiiu.sendLoop_not_allowed (s : tcpiiu) (script : List SyscallAttempt)
    (h : ¬ (s.state = iiucs_connected ∨ s.state = iiucs_clean_shutdown)) :
    s.sendLoop script = (s, some 0) := by
  cases script <;> simp only [tcpiiu.sendLoop, if_neg h]

/-- C6: every `::send` call made by `sendBytes` is issued after the loop condition has
read the state as `connected` or `clean_shutdown`; called in `abort_shutdown`,
`disconnected` or `connecting` it makes no send call (only the watchdog is started and
cancelled) and returns 0; and after a send interrupted by `EINTR` the state is read
again, so that when it has left `connected`/`clean_shutdown` meanwhile no retry is
made and 0 is returned. -/
theorem sendBytes_sends_only_when_allowed (s : tcpiiu) (script : List SyscallAttempt) :
    (∃ evs, (s.sendBytes script).1.trace = s.trace ++ evs ∧
        ∀ st, SockEvent.send st ∈ evs →
          st = iiucs_connected ∨ st = iiucs_clean_shutdown) ∧
    (s.state = iiucs_abort_shutdown ∨ s.state = iiucs_disconnected ∨
        s.state = iiucs_connecting →
      s.sendBytes script =
        ((s.emit SockEvent.sendDogStart).emit SockEvent.sendDogCancel, some 0)) ∧
    (∀ (a : SyscallAttempt) (rest : List SyscallAttempt),
      s.state = iiucs_connected ∨ s.state = iiucs_clean_shutdown →
      a.status < 0 → a.localError = SOCK_EINTR →
      ¬ ((((s.emit SockEvent.sendDogStart).emit (SockEvent.send s.state)).applyAsyncs
            a.during).state = iiucs_connected ∨
         (((s.emit SockEvent.sendDogStart).emit (SockEvent.send s.state)).applyAsyncs
            a.during).state = iiucs_clean_shutdown) →
      s.sendBytes (a :: rest) =
        ((((s.emit SockEvent.sendDogStart).emit (SockEvent.send s.state)).applyAsyncs
            a.during).emit SockEvent.sendDogCancel, some 0)) := by
  refine ⟨?_, ?_, ?_⟩
  · exact (stable_sendsAllowed s.trace).sendBytes script s ⟨[], by simp, by simp⟩
  · intro h
    have hn : ¬ ((s.emit SockEvent.sendDogStart).state = iiucs_connected ∨
        (s.emit SockEvent.sendDogStart).state = iiucs_clean_shutdown) := by
      show ¬ (s.state = iiucs_connected ∨ s.state = iiucs_clean_shutdown)
      rcases h with h | h | h <;> rw [h] <;> decide
    unfold tcpiiu.sendBytes
    rw [tcpiiu.sendLoop_not_allowed _ _ hn]
  · intro a rest hok hneg hintr hleft
    have hok1 : (s.emit SockEvent.sendDogStart).state = iiucs_connected ∨
        (s.emit SockEvent.sendDogStart).state = iiucs_clean_shutdown := hok
    have h1 : ¬ a.status > 0 := by omega
    have h2 : ¬ a.status = 0 := by omega
    unfold tcpiiu.sendBytes
    have hloop : (s.emit SockEvent.sendDogStart).sendLoop (a :: rest) =
        ((((s.emit SockEvent.sendDogStart).emit (SockEvent.send s.state)).applyAsyncs
            a.during), some 0) := by
      rw [tcpiiu.sendLoop]
      simp only [if_pos hok1, if_neg h1, if_neg h2, if_pos hintr]
      exact tcpiiu.sendLoop_not_allowed _ _ hleft
    rw [hloop]

/-- Witness for C6: a connected circuit whose first send is interrupted while another
thread starts an abort shutdown; the script would let a second send succeed, but none
is made. -/
theorem sendBytes_sends_only_when_allowed_witness :
    (({ tcpiiu.init with state := iiucs_connected } : tcpiiu).sendBytes
        [⟨[AsyncOp.initiateAbortShutdown esscimqi_socketSigAlarmRequired 0 0], -1, SOCK_EINTR⟩,
         ⟨[], 5, SOCK_EINTR⟩]).2 = some 0 := by
  have h := (sendBytes_sends_only_when_allowed
    { tcpiiu.init with state := iiucs_connected }
    [⟨[AsyncOp.initiateAbortShutdown esscimqi_socketSigAlarmRequired 0 0], -1, SOCK_EINTR⟩,
     ⟨[], 5, SOCK_EINTR⟩]).2.2
    ⟨[AsyncOp.initiateAbortShutdown esscimqi_socketSigAlarmRequired 0 0], -1, SOCK_EINTR⟩
    [⟨[], 5, SOCK_EINTR⟩] (Or.inl rfl) (by decide) rfl (by decide)
  rw [h]

/-- C7: a second `initiateAbortShutdown` changes no field and makes no call (the
circuit, trace included, is what the first call left); `socketHasBeenClosed`, once
true, stays true under every sequence of operations; and for every sequence of
operations applied to a newly constructed circuit and followed by the destructor the
socket handle is destroyed at most once. -/
theorem abort_shutdown_at_most_once (s : tcpiiu)
    (info1 info2 : epicsSocketSystemCallInterruptMechanismQueryInfo)
    (l1 sh1 l2 sh2 : Int) (ops : List CircuitOp) :
    (s.initiateAbortShutdown info1 l1 sh1).initiateAbortShutdown info2 l2 sh2 =
        s.initiateAbortShutdown info1 l1 sh1 ∧
    (s.socketHasBeenClosed = true → (s.run ops).socketHasBeenClosed = true) ∧
    (tcpiiu.init.run ops).destructor.destroyCount ≤ 1 := by
  refine ⟨tcpiiu.initiateAbortShutdown_idem s info1 info2 l1 sh1 l2 sh2,
    stable_socketHasBeenClosed.run ops s, ?_⟩
  have h := stable_destroyCount.run ops tcpiiu.init (by decide)
  simp only at h
  unfold tcpiiu.destructor
  cases hc : (tcpiiu.init.run ops).socketHasBeenClosed
  · rw [hc] at h
    simp only [Bool.false_eq_true, not_false_eq_true, if_true, if_false] at h ⊢
    rw [tcpiiu.destroyCount] at h ⊢
    simp [tcpiiu.emit, List.count_append, h]
  · rw [hc] at h
    simp only [if_true] at h
    simp [h]

/-- Witness for C7: an abort shutdown on a platform that closes the socket, requested
twice on a connected circuit, followed by destruction. -/
theorem abort_shutdown_at_most_once_witness :
    ((tcpiiu.init.run
        [CircuitOp.connect [⟨[], 0, SOCK_EINTR⟩],
         CircuitOp.initiateAbortShutdown esscimqi_socketCloseRequired 0 0,
         CircuitOp.initiateAbortShutdown esscimqi_socketCloseRequired 0 0]).destructor).destroyCount
      ≤ 1 :=
  (abort_shutdown_at_most_once tcpiiu.init esscimqi_socketCloseRequired
    esscimqi_socketCloseRequired 0 0 0 0 _).2.2

/-! ## Lemmas on the inbound parser -/

theorem recvState.push_push (s : recvState) (a b : List Nat) :
    (s.pushLastComBufReceived a).pushLastComBufReceived b =
      s.pushLastComBufReceived (a ++ b) := by
  simp [recvState.pushLastComBufReceived]

theorem recvState.push_nil (s : recvState) : s.pushLastComBufReceived [] = s := by
  simp [recvState.pushLastComBufReceived]

theorem take_drop_append_left {q : List Nat} (b : List Nat) {j k : Nat}
    (h : j + k ≤ q.length) : ((q ++ b).drop j).take k = (q.drop j).take k := by
  rw [List.drop_append_of_le_length (by omega),
    List.take_append_of_le_length (by rw [List.length_drop]; omega)]

theorem comQueRecv.popOldMsgHeader_eq_none {q : List Nat} :
    comQueRecv.popOldMsgHeader q = none ↔ q.length < 16 := by
  unfold comQueRecv.popOldMsgHeader
  split_ifs with h <;> simp [h]

theorem comQueRecv.popOldMsgHeader_some {q q1 : List Nat} {h : caHdrLargeArray}
    (e : comQueRecv.popOldMsgHeader q = some (h, q1)) : 16 ≤ q.length ∧ q1 = q.drop 16 := by
  unfold comQueRecv.popOldMsgHeader at e
  split_ifs at e with hl
  simp only [Option.some.injEq, Prod.mk.injEq] at e
  exact ⟨by omega, e.2.symm⟩

theorem comQueRecv.popOldMsgHeader_append {q q1 : List Nat} {h : caHdrLargeArray}
    (b : List Nat) (e : comQueRecv.popOldMsgHeader q = some (h, q1)) :
    comQueRecv.popOldMsgHeader (q ++ b) = some (h, q1 ++ b) := by
  have hl := (comQueRecv.popOldMsgHeader_some e).1
  unfold comQueRecv.popOldMsgHeader at e ⊢
  rw [if_neg (by omega)] at e
  rw [if_neg (by rw [List.length_append]; omega)]
  simp only [Option.some.injEq, Prod.mk.injEq] at e
  have t0 : (q ++ b).take 2 = q.take 2 := List.take_append_of_le_length (by omega)
  rw [t0, take_drop_append_left b (by omega : 2 + 2 ≤ q.length),
    take_drop_append_left b (by omega : 4 + 2 ≤ q.length),
    take_drop_append_left b (by omega : 6 + 2 ≤ q.length),
    take_drop_append_left b (by omega : 8 + 4 ≤ q.length),
    take_drop_append_left b (by omega : 12 + 4 ≤ q.length),
    List.drop_append_of_le_length (by omega : 16 ≤ q.length), e.1, e.2]

theorem comQueRecv.popUInt32_append {q : List Nat} (b : List Nat) (h : 4 ≤ q.length) :
    comQueRecv.popUInt32 (q ++ b) =
      ((comQueRecv.popUInt32 q).1, (comQueRecv.popUInt32 q).2 ++ b) := by
  unfold comQueRecv.popUInt32
  rw [List.take_append_of_le_length h, List.drop_append_of_le_length h]

theorem comQueRecv.popUInt32_length (q : List Nat) :
    (comQueRecv.popUInt32 q).2.length = q.length - 4 := by
  simp [comQueRecv.popUInt32]

/-! ### Header fetch and arrival of further bytes -/

theorem recvState.fetchOldMsgHeader_of_old {s : recvState}
    (h : s.oldMsgHeaderAvailable = true) : s.fetchOldMsgHeader = (s, true) := by
  simp [recvState.fetchOldMsgHeader, h]

theorem recvState.fetchOldMsgHeader_of_none {s : recvState}
    (h : s.oldMsgHeaderAvailable = false)
    (hp : comQueRecv.popOldMsgHeader s.recvQue = none) :
    s.fetchOldMsgHeader = (s, false) := by
  cases s
  simp only at h hp
  subst h
  simp [recvState.fetchOldMsgHeader, hp]

theorem recvState.fetchOldMsgHeader_of_some {s : recvState} {msg : caHdrLargeArray}
    {q : List Nat} (h : s.oldMsgHeaderAvailable = false)
    (hp : comQueRecv.popOldMsgHeader s.recvQue = some (msg, q)) :
    s.fetchOldMsgHeader =
      ({ s with curMsg := msg, recvQue := q, oldMsgHeaderAvailable := true }, true) := by
  simp [recvState.fetchOldMsgHeader, h, hp]

theorem recvState.fetchOldMsgHeader_stall {s u : recvState}
    (e : s.fetchOldMsgHeader = (u, false)) :
    u = s ∧ s.oldMsgHeaderAvailable = false ∧ s.recvQue.length < 16 := by
  cases ho : s.oldMsgHeaderAvailable
  · cases hp : comQueRecv.popOldMsgHeader s.recvQue with
    | none =>
        rw [recvState.fetchOldMsgHeader_of_none ho hp] at e
        simp only [Prod.mk.injEq, and_true] at e
        exact ⟨e.symm, rfl, comQueRecv.popOldMsgHeader_eq_none.1 hp⟩
    | some r =>
        obtain ⟨msg, q⟩ := r
        rw [recvState.fetchOldMsgHeader_of_some ho hp] at e
        simp at e
  · rw [recvState.fetchOldMsgHeader_of_old ho] at e
    simp at e

theorem recvState.fetchOldMsgHeader_ok {s u : recvState}
    (e : s.fetchOldMsgHeader = (u, true)) :
    u.oldMsgHeaderAvailable = true ∧ u.msgHeaderAvailable = s.msgHeaderAvailable ∧
    u.curDataMax = s.curDataMax ∧ u.curDataBytes = s.curDataBytes ∧
    u.pCurData = s.pCurData ∧ u.dispatched = s.dispatched ∧
    (s.oldMsgHeaderAvailable = true → u = s) ∧
    (s.oldMsgHeaderAvailable = false →
      16 ≤ s.recvQue.length ∧ u.recvQue = s.recvQue.drop 16) := by
  cases ho : s.oldMsgHeaderAvailable
  · cases hp : comQueRecv.popOldMsgHeader s.recvQue with
    | none =>
        rw [recvState.fetchOldMsgHeader_of_none ho hp] at e
        simp at e
    | some r =>
        obtain ⟨msg, q⟩ := r
        rw [recvState.fetchOldMsgHeader_of_some ho hp] at e
        simp only [Prod.mk.injEq, and_true] at e
        subst e
        have := comQueRecv.popOldMsgHeader_some hp
        simp [this.1, this.2]
  · rw [recvState.fetchOldMsgHeader_of_old ho] at e
    simp only [Prod.mk.injEq, and_true] at e
    subst e
    simp [ho]

theorem recvState.fetchOldMsgHeader_push {s u : recvState} (b : List Nat)
    (e : s.fetchOldMsgHeader = (u, true)) :
    (s.pushLastComBufReceived b).fetchOldMsgHeader = (u.pushLastComBufReceived b, true) := by
  cases ho : s.oldMsgHeaderAvailable
  · cases hp : comQueRecv.popOldMsgHeader s.recvQue with
    | none =>
        rw [recvState.fetchOldMsgHeader_of_none ho hp] at e
        simp at e
    | some r =>
        obtain ⟨msg, q⟩ := r
        rw [recvState.fetchOldMsgHeader_of_some ho hp] at e
        simp only [Prod.mk.injEq, and_true] at e
        subst e
        have hp2 : comQueRecv.popOldMsgHeader (s.pushLastComBufReceived b).recvQue =
            some (msg, q ++ b) := comQueRecv.popOldMsgHeader_append b hp
        rw [recvState.fetchOldMsgHeader_of_some (by exact ho) hp2]
        rfl
  · rw [recvState.fetchOldMsgHeader_of_old ho] at e
    simp only [Prod.mk.injEq, and_true] at e
    subst e
    exact recvState.fetchOldMsgHeader_of_old (by exact ho)

theorem recvState.fetchAnnex_stall {s u : recvState} (e : s.fetchAnnex = (u, false)) :
    u = s ∧ s.curMsg.m_postsize = 0xffff ∧ s.recvQue.length < 8 := by
  unfold recvState.fetchAnnex at e
  split_ifs at e with h1 h2
  · simp only [Prod.mk.injEq, and_true] at e
    exact ⟨e.symm, h1, h2⟩
  · simp at e
  · simp at e

theorem recvState.fetchAnnex_ok {s u : recvState} (e : s.fetchAnnex = (u, true)) :
    u.msgHeaderAvailable = true ∧ u.oldMsgHeaderAvailable = s.oldMsgHeaderAvailable ∧
    u.curDataMax = s.curDataMax ∧ u.curDataBytes = s.curDataBytes ∧
    u.pCurData = s.pCurData ∧ u.dispatched = s.dispatched ∧
    u.recvQue.length ≤ s.recvQue.length := by
  unfold recvState.fetchAnnex at e
  split_ifs at e with h1 h2
  · simp at e
  · simp only [Prod.mk.injEq, and_true] at e
    subst e
    simp [comQueRecv.popUInt32]
  · simp only [Prod.mk.injEq, and_true] at e
    subst e
    simp

theorem recvState.fetchAnnex_push {s u : recvState} (b : List Nat)
    (e : s.fetchAnnex = (u, true)) :
    (s.pushLastComBufReceived b).fetchAnnex = (u.pushLastComBufReceived b, true) := by
  unfold recvState.fetchAnnex at e ⊢
  by_cases h1 : s.curMsg.m_postsize = 0xffff
  · simp only [h1, if_true] at e
    by_cases h2 : comQueRecv.occupiedBytes s.recvQue < 8
    · simp [h2] at e
    · simp only [h2, if_false, Prod.mk.injEq, and_true] at e
      subst e
      have h3 : 8 ≤ s.recvQue.length := by
        simpa [comQueRecv.occupiedBytes] using h2
      have h4 : ¬ comQueRecv.occupiedBytes (s.recvQue ++ b) < 8 := by
        simp [comQueRecv.occupiedBytes]
        omega
      have h5 : 4 ≤ (comQueRecv.popUInt32 s.recvQue).2.length := by
        rw [comQueRecv.popUInt32_length]
        omega
      simp [recvState.pushLastComBufReceived, h1, h4,
        comQueRecv.popUInt32_append b (by omega : 4 ≤ s.recvQue.length),
        comQueRecv.popUInt32_append b h5]
  · simp only [h1, if_false, Prod.mk.injEq, and_true] at e
    subst e
    simp [recvState.pushLastComBufReceived, h1]

theorem recvState.fetchMsgHeader_push {s u : recvState} (b : List Nat)
    (e : s.fetchMsgHeader = (u, true)) :
    (s.pushLastComBufReceived b).fetchMsgHeader = (u.pushLastComBufReceived b, true) := by
  unfold recvState.fetchMsgHeader at e ⊢
  cases hm : s.msgHeaderAvailable
  · have hm2 : (s.pushLastComBufReceived b).msgHeaderAvailable = false := hm
    simp only [hm, hm2, Bool.false_eq_true, not_false_eq_true, if_true] at e ⊢
    cases ho : s.fetchOldMsgHeader with
    | mk s1 ok =>
      cases ok
      · simp [ho] at e
      · rw [ho] at e
        simp only [not_true_eq_false, if_false] at e
        rw [recvState.fetchOldMsgHeader_push b ho]
        simp only [not_true_eq_false, if_false]
        exact recvState.fetchAnnex_push b e
  · have hm2 : (s.pushLastComBufReceived b).msgHeaderAvailable = true := hm
    simp only [hm, hm2, not_true_eq_false, if_false, Prod.mk.injEq, and_true] at e ⊢
    rw [e]

theorem recvState.fetchMsgHeader_resume {s u : recvState} (b : List Nat)
    (e : s.fetchMsgHeader = (u, false)) :
    (u.pushLastComBufReceived b).fetchMsgHeader =
      (s.pushLastComBufReceived b).fetchMsgHeader := by
  unfold recvState.fetchMsgHeader at e
  cases hm : s.msgHeaderAvailable
  · simp only [hm, Bool.false_eq_true, not_false_eq_true, if_true] at e
    cases ho : s.fetchOldMsgHeader with
    | mk s1 ok =>
      cases ok
      · rw [ho] at e
        simp only [Bool.false_eq_true, not_false_eq_true, if_true, Prod.mk.injEq,
          and_true] at e
        rw [← e, (recvState.fetchOldMsgHeader_stall ho).1]
      · rw [ho] at e
        simp only [not_true_eq_false, if_false] at e
        have hu := (recvState.fetchAnnex_stall e).1
        subst hu
        have h1 := recvState.fetchOldMsgHeader_ok ho
        have hm1 : (u.pushLastComBufReceived b).msgHeaderAvailable = false := by
          show u.msgHeaderAvailable = false
          rw [h1.2.1, hm]
        have hm2 : (s.pushLastComBufReceived b).msgHeaderAvailable = false := hm
        unfold recvState.fetchMsgHeader
        simp only [hm1, hm2, Bool.false_eq_true, not_false_eq_true, if_true]
        rw [recvState.fetchOldMsgHeader_push b ho,
          recvState.fetchOldMsgHeader_of_old (show
            (u.pushLastComBufReceived b).oldMsgHeaderAvailable = true from h1.1)]
  · simp [hm] at e

theorem recvState.fetchMsgHeader_ok {s u : recvState} (e : s.fetchMsgHeader = (u, true)) :
    u.msgHeaderAvailable = true ∧ u.curDataMax = s.curDataMax ∧
    u.curDataBytes = s.curDataBytes ∧ u.pCurData = s.pCurData ∧
    u.dispatched = s.dispatched ∧ u.recvQue.length ≤ s.recvQue.length ∧
    (s.msgHeaderAvailable = false → s.oldMsgHeaderAvailable = false →
      u.recvQue.length + 16 ≤ s.recvQue.length) := by
  unfold recvState.fetchMsgHeader at e
  cases hm : s.msgHeaderAvailable
  · simp only [hm, Bool.false_eq_true, not_false_eq_true, if_true] at e
    cases ho : s.fetchOldMsgHeader with
    | mk s1 ok =>
      cases ok
      · simp [ho] at e
      · rw [ho] at e
        simp only [not_true_eq_false, if_false] at e
        have h1 := recvState.fetchOldMsgHeader_ok ho
        have h2 := recvState.fetchAnnex_ok e
        have hlen : s1.recvQue.length ≤ s.recvQue.length := by
          cases hold : s.oldMsgHeaderAvailable
          · rw [(h1.2.2.2.2.2.2.2 hold).2, List.length_drop]
            omega
          · rw [h1.2.2.2.2.2.2.1 hold]
        refine ⟨h2.1, by rw [h2.2.2.1, h1.2.2.1], by rw [h2.2.2.2.1, h1.2.2.2.1],
          by rw [h2.2.2.2.2.1, h1.2.2.2.2.1], by rw [h2.2.2.2.2.2.1, h1.2.2.2.2.2.1],
          by omega, ?_⟩
        intro _ hold
        have h3 := h1.2.2.2.2.2.2.2 hold
        have : s1.recvQue.length = s.recvQue.length - 16 := by
          rw [h3.2, List.length_drop]
        omega
  · simp only [hm, not_true_eq_false, if_false, Prod.mk.injEq, and_true] at e
    subst e
    simp [hm]

/-! ### Message body and arrival of further bytes -/

theorem recvState.ensureBodyCache_push (env : cacEnv) (s : recvState) (b : List Nat) :
    (s.pushLastComBufReceived b).ensureBodyCache env =
      (s.ensureBodyCache env).pushLastComBufReceived b := by
  unfold recvState.ensureBodyCache recvState.pushLastComBufReceived
  split_ifs <;> rfl

theorem recvState.ensureBodyCache_fields (env : cacEnv) (s : recvState) :
    (s.ensureBodyCache env).recvQue = s.recvQue ∧
    (s.ensureBodyCache env).curMsg = s.curMsg ∧
    (s.ensureBodyCache env).curDataBytes = s.curDataBytes ∧
    (s.ensureBodyCache env).msgHeaderAvailable = s.msgHeaderAvailable ∧
    (s.ensureBodyCache env).oldMsgHeaderAvailable = s.oldMsgHeaderAvailable ∧
    (s.ensureBodyCache env).dispatched = s.dispatched := by
  unfold recvState.ensureBodyCache
  split_ifs <;> simp

theorem recvState.ensureBodyCache_of_le (env : cacEnv) {s : recvState}
    (h : s.curMsg.m_postsize ≤ s.curDataMax) : s.ensureBodyCache env = s := by
  unfold recvState.ensureBodyCache
  rw [if_neg (by omega)]

/-- Condition under which the body cache is replaced. -/
theorem recvState.ensureBodyCache_of_not (env : cacEnv) {s : recvState}
    (h : ¬ (s.curMsg.m_postsize > s.curDataMax ∧ s.curDataMax = env.MAX_TCP ∧
      env.largeBufferSizeTCP ≥ s.curMsg.m_postsize ∧ env.allocateLargeBufferTCP = true)) :
    s.ensureBodyCache env = s := by
  unfold recvState.ensureBodyCache
  split_ifs with h1 h2 h3
  · exact absurd ⟨h1, h2.1, h2.2, h3⟩ h
  all_goals rfl

theorem recvState.ensureBodyCache_settled (env : cacEnv) (s : recvState) :
    ¬ ((s.ensureBodyCache env).curMsg.m_postsize > (s.ensureBodyCache env).curDataMax ∧
      (s.ensureBodyCache env).curDataMax = env.MAX_TCP ∧
      env.largeBufferSizeTCP ≥ (s.ensureBodyCache env).curMsg.m_postsize ∧
      env.allocateLargeBufferTCP = true) := by
  unfold recvState.ensureBodyCache
  split_ifs with h1 h2 h3
  · simp only
    omega
  · simp [h3]
  · intro h
    exact h2 ⟨h.2.1, h.2.2.1⟩
  · intro h
    exact h1 h.1

theorem recvState.processBody_copy_full {env : cacEnv} {v : recvState}
    (hfit : v.curMsg.m_postsize ≤ v.curDataMax)
    (hn : v.curMsg.m_postsize - v.curDataBytes ≤ v.recvQue.length) :
    v.processBody env =
      if env.executeResponse v.curMsg
          (v.pCurData ++ v.recvQue.take (v.curMsg.m_postsize - v.curDataBytes)) = true then
        ({ v with
            recvQue := v.recvQue.drop (v.curMsg.m_postsize - v.curDataBytes)
            curDataBytes := 0
            pCurData := []
            oldMsgHeaderAvailable := false
            msgHeaderAvailable := false
            dispatched := v.dispatched ++ [(v.curMsg,
              v.pCurData ++ v.recvQue.take (v.curMsg.m_postsize - v.curDataBytes))] },
          none)
      else
        ({ v with
            recvQue := v.recvQue.drop (v.curMsg.m_postsize - v.curDataBytes)
            curDataBytes := v.curDataBytes + (v.curMsg.m_postsize - v.curDataBytes)
            pCurData := v.pCurData ++ v.recvQue.take (v.curMsg.m_postsize - v.curDataBytes)
            dispatched := v.dispatched ++ [(v.curMsg,
              v.pCurData ++ v.recvQue.take (v.curMsg.m_postsize - v.curDataBytes))] },
          some false) := by
  unfold recvState.processBody
  simp only [comQueRecv.copyOutBytes, hfit, if_true]
  by_cases hpos : v.curMsg.m_postsize > 0
  · have hlen : (List.take (v.curMsg.m_postsize - v.curDataBytes) v.recvQue).length =
        v.curMsg.m_postsize - v.curDataBytes := by
      rw [List.length_take]
      omega
    have hst : ¬ (v.curDataBytes + (v.curMsg.m_postsize - v.curDataBytes)
        < v.curMsg.m_postsize) := by omega
    simp only [hpos, if_true, true_and, hlen, hst, if_false, recvState.reset]
    split_ifs <;> simp_all
  · have h0 : v.curMsg.m_postsize = 0 := by omega
    simp only [hpos, false_and, if_false, recvState.reset]
    simp only [h0, Nat.zero_sub, List.take_zero, List.append_nil, List.drop_zero,
      Nat.add_zero]
    split_ifs <;> simp_all

theorem recvState.processBody_copy_stall {env : cacEnv} {v : recvState}
    (hfit : v.curMsg.m_postsize ≤ v.curDataMax)
    (hn : v.recvQue.length < v.curMsg.m_postsize - v.curDataBytes) :
    v.processBody env =
      ({ v with
          recvQue := []
          curDataBytes := v.curDataBytes + v.recvQue.length
          pCurData := v.pCurData ++ v.recvQue }, some true) := by
  unfold recvState.processBody
  have hpos : v.curMsg.m_postsize > 0 := by omega
  have htake : List.take (v.curMsg.m_postsize - v.curDataBytes) v.recvQue = v.recvQue :=
    List.take_of_length_le (by omega)
  have hdrop : List.drop (v.curMsg.m_postsize - v.curDataBytes) v.recvQue = [] :=
    List.drop_of_length_le (by omega)
  have hst : v.curDataBytes + v.recvQue.length < v.curMsg.m_postsize := by omega
  simp only [comQueRecv.copyOutBytes, hfit, hpos, if_true, true_and, htake,
    hdrop, hst]

theorem recvState.processBody_discard_done {env : cacEnv} {v : recvState}
    (hfit : ¬ v.curMsg.m_postsize ≤ v.curDataMax)
    (hn : v.curMsg.m_postsize - v.curDataBytes ≤ v.recvQue.length) :
    v.processBody env =
      ({ v with
          recvQue := v.recvQue.drop (v.curMsg.m_postsize - v.curDataBytes)
          curDataBytes := 0
          pCurData := []
          oldMsgHeaderAvailable := false
          msgHeaderAvailable := false }, none) := by
  unfold recvState.processBody
  have hmin : min (v.curMsg.m_postsize - v.curDataBytes) v.recvQue.length =
      v.curMsg.m_postsize - v.curDataBytes := by omega
  have hst : ¬ (v.curDataBytes + (v.curMsg.m_postsize - v.curDataBytes)
      < v.curMsg.m_postsize) := by omega
  simp only [comQueRecv.removeBytes, hfit, if_false, hmin, hst, recvState.reset]

theorem recvState.processBody_discard_stall {env : cacEnv} {v : recvState}
    (hfit : ¬ v.curMsg.m_postsize ≤ v.curDataMax)
    (hn : v.recvQue.length < v.curMsg.m_postsize - v.curDataBytes) :
    v.processBody env =
      ({ v with
          recvQue := []
          curDataBytes := v.curDataBytes + v.recvQue.length }, some true) := by
  unfold recvState.processBody
  have hmin : min (v.curMsg.m_postsize - v.curDataBytes) v.recvQue.length =
      v.recvQue.length := by omega
  have hdrop : List.drop (v.curMsg.m_postsize - v.curDataBytes) v.recvQue = [] :=
    List.drop_of_length_le (by omega)
  have hst : v.curDataBytes + v.recvQue.length < v.curMsg.m_postsize := by omega
  simp only [comQueRecv.removeBytes, hfit, if_false, hmin, hdrop, hst, if_true]

theorem recvState.processBody_again_push {env : cacEnv} {v w : recvState} (b : List Nat)
    (e : v.processBody env = (w, none)) :
    (v.pushLastComBufReceived b).processBody env = (w.pushLastComBufReceived b, none) := by
  by_cases hn : v.curMsg.m_postsize - v.curDataBytes ≤ v.recvQue.length
  · have hn2 : (v.pushLastComBufReceived b).curMsg.m_postsize -
        (v.pushLastComBufReceived b).curDataBytes ≤
          (v.pushLastComBufReceived b).recvQue.length := by
      simp only [recvState.pushLastComBufReceived, List.length_append]
      omega
    by_cases hfit : v.curMsg.m_postsize ≤ v.curDataMax
    · rw [recvState.processBody_copy_full hfit hn] at e
      rw [recvState.processBody_copy_full (by exact hfit) hn2]
      simp only [recvState.pushLastComBufReceived, List.take_append_of_le_length hn,
        List.drop_append_of_le_length hn]
      split_ifs at e ⊢ with hex
      · simp only [Prod.mk.injEq, and_true] at e
        simp [← e]
      · simp at e
    · rw [recvState.processBody_discard_done hfit hn] at e
      rw [recvState.processBody_discard_done (by exact hfit) hn2]
      simp only [Prod.mk.injEq, and_true] at e
      simp [← e, recvState.pushLastComBufReceived, List.drop_append_of_le_length hn]
  · have hn1 : v.recvQue.length < v.curMsg.m_postsize - v.curDataBytes := by omega
    by_cases hfit : v.curMsg.m_postsize ≤ v.curDataMax
    · rw [recvState.processBody_copy_stall hfit hn1] at e
      simp at e
    · rw [recvState.processBody_discard_stall hfit hn1] at e
      simp at e

theorem recvState.processBody_again_fields {env : cacEnv} {v w : recvState}
    (e : v.processBody env = (w, none)) :
    w.msgHeaderAvailable = false ∧ w.oldMsgHeaderAvailable = false ∧
    w.recvQue.length ≤ v.recvQue.length := by
  by_cases hn : v.curMsg.m_postsize - v.curDataBytes ≤ v.recvQue.length
  · by_cases hfit : v.curMsg.m_postsize ≤ v.curDataMax
    · rw [recvState.processBody_copy_full hfit hn] at e
      split_ifs at e with hex
      · simp only [Prod.mk.injEq, and_true] at e
        simp [← e]
      · simp at e
    · rw [recvState.processBody_discard_done hfit hn] at e
      simp only [Prod.mk.injEq, and_true] at e
      simp [← e]
  · have hn1 : v.recvQue.length < v.curMsg.m_postsize - v.curDataBytes := by omega
    by_cases hfit : v.curMsg.m_postsize ≤ v.curDataMax
    · rw [recvState.processBody_copy_stall hfit hn1] at e
      simp at e
    · rw [recvState.processBody_discard_stall hfit hn1] at e
      simp at e

theorem recvState.processBody_stall_resume {env : cacEnv} {v w : recvState} (b : List Nat)
    (e : v.processBody env = (w, some true)) :
    (w.pushLastComBufReceived b).processBody env =
        (v.pushLastComBufReceived b).processBody env ∧
    w.msgHeaderAvailable = v.msgHeaderAvailable ∧ w.curMsg = v.curMsg ∧
    w.curDataMax = v.curDataMax := by
  by_cases hn : v.curMsg.m_postsize - v.curDataBytes ≤ v.recvQue.length
  · by_cases hfit : v.curMsg.m_postsize ≤ v.curDataMax
    · rw [recvState.processBody_copy_full hfit hn] at e
      split_ifs at e with hex <;> simp at e
    · rw [recvState.processBody_discard_done hfit hn] at e
      simp at e
  · have hn1 : v.recvQue.length < v.curMsg.m_postsize - v.curDataBytes := by omega
    have htake : List.take (v.curMsg.m_postsize - v.curDataBytes) (v.recvQue ++ b) =
        v.recvQue ++ List.take (v.curMsg.m_postsize - v.curDataBytes - v.recvQue.length) b := by
      rw [List.take_append_eq_append_take, List.take_of_length_le (by omega)]
    have hdrop : List.drop (v.curMsg.m_postsize - v.curDataBytes) (v.recvQue ++ b) =
        List.drop (v.curMsg.m_postsize - v.curDataBytes - v.recvQue.length) b := by
      rw [List.drop_append_eq_append_drop, List.drop_of_length_le (by omega), List.nil_append]
    have hsub : v.curMsg.m_postsize - (v.curDataBytes + v.recvQue.length) =
        v.curMsg.m_postsize - v.curDataBytes - v.recvQue.length := by omega
    by_cases hfit : v.curMsg.m_postsize ≤ v.curDataMax
    · rw [recvState.processBody_copy_stall hfit hn1] at e
      simp only [Prod.mk.injEq, and_true] at e
      subst e
      refine ⟨?_, rfl, rfl, rfl⟩
      by_cases hb : v.curMsg.m_postsize - v.curDataBytes - v.recvQue.length ≤ b.length
      · rw [recvState.processBody_copy_full (by exact hfit)
            (by simp only [recvState.pushLastComBufReceived, List.nil_append]; omega),
          recvState.processBody_copy_full (v := v.pushLastComBufReceived b) (by exact hfit)
            (by simp only [recvState.pushLastComBufReceived, List.length_append]; omega)]
        simp only [recvState.pushLastComBufReceived, List.nil_append, htake, hdrop, hsub,
          List.append_assoc]
        have hc : v.curDataBytes + v.recvQue.length +
            (v.curMsg.m_postsize - v.curDataBytes - v.recvQue.length) =
            v.curDataBytes + (v.curMsg.m_postsize - v.curDataBytes) := by omega
        rw [hc]
      · rw [recvState.processBody_copy_stall (by exact hfit)
            (by simp only [recvState.pushLastComBufReceived, List.nil_append]; omega),
          recvState.processBody_copy_stall (v := v.pushLastComBufReceived b) (by exact hfit)
            (by simp only [recvState.pushLastComBufReceived, List.length_append]; omega)]
        simp [recvState.pushLastComBufReceived, Nat.add_assoc]
    · rw [recvState.processBody_discard_stall hfit hn1] at e
      simp only [Prod.mk.injEq, and_true] at e
      subst e
      refine ⟨?_, rfl, rfl, rfl⟩
      by_cases hb : v.curMsg.m_postsize - v.curDataBytes - v.recvQue.length ≤ b.length
      · rw [recvState.processBody_discard_done (by exact hfit)
            (by simp only [recvState.pushLastComBufReceived, List.nil_append]; omega),
          recvState.processBody_discard_done (v := v.pushLastComBufReceived b) (by exact hfit)
            (by simp only [recvState.pushLastComBufReceived, List.length_append]; omega)]
        simp only [recvState.pushLastComBufReceived, List.nil_append, hdrop, hsub]
      · rw [recvState.processBody_discard_stall (by exact hfit)
            (by simp only [recvState.pushLastComBufReceived, List.nil_append]; omega),
          recvState.processBody_discard_stall (v := v.pushLastComBufReceived b) (by exact hfit)
            (by simp only [recvState.pushLastComBufReceived, List.length_append]; omega)]
        simp [recvState.pushLastComBufReceived, Nat.add_assoc]

/-! ### One iteration of the loop -/

theorem recvState.processIncomingBody_of_fetch_stall {env : cacEnv} {s u : recvState}
    (e : s.fetchMsgHeader = (u, false)) : s.processIncomingBody env = (u, some true) := by
  unfold recvState.processIncomingBody
  simp [e]

theorem recvState.processIncomingBody_of_fetch_ok {env : cacEnv} {s u : recvState}
    (e : s.fetchMsgHeader = (u, true)) :
    s.processIncomingBody env = (u.ensureBodyCache env).processBody env := by
  unfold recvState.processIncomingBody
  simp [e]

theorem recvState.processIncomingBody_again_push {env : cacEnv} {s s1 : recvState}
    (b : List Nat) (e : s.processIncomingBody env = (s1, none)) :
    (s.pushLastComBufReceived b).processIncomingBody env =
      (s1.pushLastComBufReceived b, none) := by
  cases hf : s.fetchMsgHeader with
  | mk u ok =>
    cases ok
    · rw [recvState.processIncomingBody_of_fetch_stall hf] at e
      simp at e
    · rw [recvState.processIncomingBody_of_fetch_ok hf] at e
      rw [recvState.processIncomingBody_of_fetch_ok (recvState.fetchMsgHeader_push b hf),
        recvState.ensureBodyCache_push]
      exact recvState.processBody_again_push b e

theorem recvState.processIncomingBody_stall_resume {env : cacEnv} {s s1 : recvState}
    (b : List Nat) (e : s.processIncomingBody env = (s1, some true)) :
    (s1.pushLastComBufReceived b).processIncomingBody env =
      (s.pushLastComBufReceived b).processIncomingBody env := by
  cases hf : s.fetchMsgHeader with
  | mk u ok =>
    cases ok
    · rw [recvState.processIncomingBody_of_fetch_stall hf] at e
      simp only [Prod.mk.injEq, and_true] at e
      subst e
      unfold recvState.processIncomingBody
      rw [recvState.fetchMsgHeader_resume b hf]
    · rw [recvState.processIncomingBody_of_fetch_ok hf] at e
      have h1 := recvState.processBody_stall_resume b e
      have hu := recvState.fetchMsgHeader_ok hf
      have hens := recvState.ensureBodyCache_fields env u
      have hm : (s1.pushLastComBufReceived b).msgHeaderAvailable = true := by
        show s1.msgHeaderAvailable = true
        rw [h1.2.1, hens.2.2.2.1, hu.1]
      have hf1 : (s1.pushLastComBufReceived b).fetchMsgHeader =
          (s1.pushLastComBufReceived b, true) := by
        unfold recvState.fetchMsgHeader
        simp [hm]
      have hset := recvState.ensureBodyCache_settled env u
      rw [← h1.2.2.1, ← h1.2.2.2] at hset
      rw [recvState.processIncomingBody_of_fetch_ok hf1,
        recvState.processIncomingBody_of_fetch_ok (recvState.fetchMsgHeader_push b hf),
        recvState.ensureBodyCache_push, recvState.ensureBodyCache_push,
        recvState.ensureBodyCache_of_not env hset]
      exact h1.1

theorem recvState.processIncomingBody_again_pending {env : cacEnv} {s s1 : recvState}
    (e : s.processIncomingBody env = (s1, none)) : s1.pending < s.pending := by
  cases hf : s.fetchMsgHeader with
  | mk u ok =>
    cases ok
    · rw [recvState.processIncomingBody_of_fetch_stall hf] at e
      simp at e
    · rw [recvState.processIncomingBody_of_fetch_ok hf] at e
      have hu := recvState.fetchMsgHeader_ok hf
      have hens := recvState.ensureBodyCache_fields env u
      have hw := recvState.processBody_again_fields e
      rw [hens.1] at hw
      unfold recvState.pending
      rw [hw.1, hw.2.1]
      cases hm : s.msgHeaderAvailable <;> cases ho : s.oldMsgHeaderAvailable
      · have := hu.2.2.2.2.2.2 hm ho
        simp
        omega
      all_goals
        have := hu.2.2.2.2.2.1
        simp
        omega

/-! ### The loop -/

theorem recvState.processIncomingLoop_succ {env : cacEnv} (fuel : Nat) :
    ∀ (s : recvState) (r : recvState × Bool),
      recvState.processIncomingLoop env fuel s = some r →
      recvState.processIncomingLoop env (fuel + 1) s = some r := by
  induction fuel with
  | zero => intro s r h; simp [recvState.processIncomingLoop] at h
  | succ n ih =>
      intro s r h
      rw [recvState.processIncomingLoop] at h ⊢
      cases hb : s.processIncomingBody env with
      | mk s1 o =>
        cases o with
        | some b => simpa [hb] using h
        | none =>
            simp only [hb] at h ⊢
            exact ih s1 r h

theorem recvState.processIncomingLoop_mono {env : cacEnv} {fuel fuel1 : Nat} {s : recvState}
    {r : recvState × Bool} (hle : fuel ≤ fuel1)
    (h : recvState.processIncomingLoop env fuel s = some r) :
    recvState.processIncomingLoop env fuel1 s = some r := by
  induction hle with
  | refl => exact h
  | step _ ih => exact recvState.processIncomingLoop_succ _ _ _ ih

theorem recvState.processIncomingLoop_total (env : cacEnv) :
    ∀ (n : Nat) (s : recvState), s.pending < n →
      ∃ r, recvState.processIncomingLoop env n s = some r := by
  intro n
  induction n with
  | zero => intro s h; omega
  | succ n ih =>
      intro s h
      rw [recvState.processIncomingLoop]
      cases hb : s.processIncomingBody env with
      | mk s1 o =>
        cases o with
        | some b => exact ⟨(s1, b), rfl⟩
        | none =>
            have := recvState.processIncomingBody_again_pending hb
            exact ih s1 (by omega)

/-- `processIncoming` always returns: the iterations allotted suffice. -/
theorem recvState.processIncoming_total (env : cacEnv) (s : recvState) :
    ∃ r, s.processIncoming env = some r :=
  recvState.processIncomingLoop_total env _ s (Nat.lt_succ_self _)

/-- Unfolding of the loop of `processIncoming` by one iteration. -/
theorem recvState.processIncoming_eq (env : cacEnv) (s : recvState) :
    s.processIncoming env =
      match s.processIncomingBody env with
      | (s1, some b) => some (s1, b)
      | (s1, none) => s1.processIncoming env := by
  unfold recvState.processIncoming
  rw [recvState.processIncomingLoop]
  cases hb : s.processIncomingBody env with
  | mk s1 o =>
    cases o with
    | some b => rfl
    | none =>
        simp only
        have hlt := recvState.processIncomingBody_again_pending hb
        obtain ⟨r, hr⟩ := recvState.processIncomingLoop_total env (s1.pending + 1) s1
          (Nat.lt_succ_self _)
        rw [hr]
        exact recvState.processIncomingLoop_mono (by omega) hr

theorem recvState.processIncoming_of_again {env : cacEnv} {s s1 : recvState}
    (e : s.processIncomingBody env = (s1, none)) :
    s.processIncoming env = s1.processIncoming env := by
  rw [recvState.processIncoming_eq, e]

theorem recvState.processIncoming_of_return {env : cacEnv} {s s1 : recvState} {b : Bool}
    (e : s.processIncomingBody env = (s1, some b)) :
    s.processIncoming env = some (s1, b) := by
  rw [recvState.processIncoming_eq, e]

/-- Processing early does not matter: when `processIncoming` has returned `true`,
pushing further bytes and calling it again gives what one call on all the bytes
gives. -/
theorem recvState.processIncoming_resume (env : cacEnv) (b : List Nat) :
    ∀ (n : Nat) (t s1 : recvState), t.pending < n →
      t.processIncoming env = some (s1, true) →
      (s1.pushLastComBufReceived b).processIncoming env =
        (t.pushLastComBufReceived b).processIncoming env := by
  intro n
  induction n with
  | zero => intro t s1 h; omega
  | succ n ih =>
      intro t s1 hlt h
      cases hb : t.processIncomingBody env with
      | mk t1 o =>
        cases o with
        | some r =>
            rw [recvState.processIncoming_of_return hb] at h
            simp only [Option.some.injEq, Prod.mk.injEq] at h
            obtain ⟨h1, h2⟩ := h
            subst h1 h2
            rw [recvState.processIncoming_eq env (t1.pushLastComBufReceived b),
              recvState.processIncoming_eq env (t.pushLastComBufReceived b),
              recvState.processIncomingBody_stall_resume b hb]
        | none =>
            rw [recvState.processIncoming_of_again hb] at h
            have hlt1 := recvState.processIncomingBody_again_pending hb
            rw [recvState.processIncoming_of_again
              (recvState.processIncomingBody_again_push b hb)]
            exact ih t1 s1 (by omega) h

/-! ### Decoding of encoded headers -/

theorem beUInt_beBytes16 {n : Nat} (h : n < 65536) : beUInt (beBytes16 n) = n := by
  simp only [beUInt, beBytes16, List.foldl_cons, List.foldl_nil]
  omega

theorem beUInt_beBytes32 {n : Nat} (h : n < 4294967296) : beUInt (beBytes32 n) = n := by
  simp only [beUInt, beBytes32, List.foldl_cons, List.foldl_nil]
  omega

theorem beBytes32_length (n : Nat) : (beBytes32 n).length = 4 := rfl

theorem comQueRecv.popOldMsgHeader_encoded {a b c d e g : Nat} (tail : List Nat)
    (ha : a < 65536) (hb : b < 65536) (hc : c < 65536) (hd : d < 65536)
    (he : e < 4294967296) (hg : g < 4294967296) :
    comQueRecv.popOldMsgHeader
        (beBytes16 a ++ beBytes16 b ++ beBytes16 c ++ beBytes16 d ++ beBytes32 e ++
          beBytes32 g ++ tail) =
      some (⟨a, b, c, d, e, g⟩, tail) := by
  have h16 := @beUInt_beBytes16
  have h32 := @beUInt_beBytes32
  simp only [beBytes16, beBytes32] at h16 h32 ⊢
  unfold comQueRecv.popOldMsgHeader
  simp [h16 ha, h16 hb, h16 hc, h16 hd, h32 he, h32 hg]

theorem comQueRecv.popUInt32_encoded {n : Nat} (tail : List Nat) (h : n < 4294967296) :
    comQueRecv.popUInt32 (beBytes32 n ++ tail) = (n, tail) := by
  have h32 := @beUInt_beBytes32
  simp only [beBytes32] at h32 ⊢
  unfold comQueRecv.popUInt32
  simp [h32 h]

theorem wireFrame.encodeHeader_length (f : wireFrame) :
    f.encodeHeader.length = if f.extended then 24 else 16 := by
  unfold wireFrame.encodeHeader
  split_ifs <;> simp [beBytes16, beBytes32]

theorem recvState.fetchMsgHeader_encodeHeader {s : recvState} {f : wireFrame}
    (tail : List Nat) (hm : s.msgHeaderAvailable = false)
    (ho : s.oldMsgHeaderAvailable = false) (hf : f.wellFormed)
    (hq : s.recvQue = f.encodeHeader ++ tail) :
    s.fetchMsgHeader =
      ({ s with curMsg := f.header, recvQue := tail, oldMsgHeaderAvailable := true,
                msgHeaderAvailable := true }, true) := by
  obtain ⟨h1, h2, h3, h4, h5⟩ := hf
  unfold recvState.fetchMsgHeader
  simp only [hm, Bool.false_eq_true, not_false_eq_true, if_true]
  cases hx : f.extended
  · simp only [hx, Bool.false_eq_true, if_false] at h5
    have hp : comQueRecv.popOldMsgHeader s.recvQue =
        some (⟨f.cmmd, f.payload.length, f.dataType, f.count, f.cid, f.available⟩, tail) := by
      rw [hq]
      unfold wireFrame.encodeHeader
      simp only [hx, Bool.false_eq_true, if_false]
      exact comQueRecv.popOldMsgHeader_encoded tail h1 (by omega) h2 h5.2 h3 h4
    rw [recvState.fetchOldMsgHeader_of_some ho hp]
    simp only [not_true_eq_false, if_false]
    unfold recvState.fetchAnnex
    have hne : ¬ (f.payload.length = 0xffff) := by omega
    simp only [hne, if_false]
    rfl
  · simp only [hx, if_true] at h5
    have hp : comQueRecv.popOldMsgHeader s.recvQue =
        some (⟨f.cmmd, 0xffff, f.dataType, 0, f.cid, f.available⟩,
          beBytes32 f.payload.length ++ beBytes32 f.count ++ tail) := by
      rw [hq]
      unfold wireFrame.encodeHeader
      simp only [hx, if_true]
      have := comQueRecv.popOldMsgHeader_encoded (a := f.cmmd) (b := 0xffff)
        (c := f.dataType) (d := 0) (e := f.cid) (g := f.available)
        (beBytes32 f.payload.length ++ beBytes32 f.count ++ tail) h1 (by omega) h2
        (by omega) h3 h4
      simpa only [List.append_assoc] using this
    rw [recvState.fetchOldMsgHeader_of_some ho hp]
    simp only [not_true_eq_false, if_false]
    unfold recvState.fetchAnnex
    simp only [if_true, comQueRecv.occupiedBytes, List.length_append, beBytes32_length]
    rw [if_neg (by omega)]
    simp only [List.append_assoc, comQueRecv.popUInt32_encoded _ h5.1,
      comQueRecv.popUInt32_encoded _ h5.2]
    rfl

/-! ### One complete frame, and an incomplete one -/

/-- A complete frame whose payload fits the body cache is dispatched once, with its
header values and payload, and the parser is left between messages at the byte after
the frame. -/
theorem recvState.processIncomingBody_frame {env : cacEnv} {s : recvState} {f : wireFrame}
    (rest : List Nat) (hidle : s.idle) (hf : f.wellFormed)
    (hfit : f.payload.length ≤ s.curDataMax)
    (hex : env.executeResponse f.header f.payload = true)
    (hq : s.recvQue = f.encode ++ rest) :
    s.processIncomingBody env =
      ({ s with curMsg := f.header, recvQue := rest,
                dispatched := s.dispatched ++ [(f.header, f.payload)] }, none) := by
  obtain ⟨hm, ho, hcdb, hp⟩ := hidle
  have hq1 : s.recvQue = f.encodeHeader ++ (f.payload ++ rest) := by
    rw [hq, wireFrame.encode, List.append_assoc]
  have hfetch := recvState.fetchMsgHeader_encodeHeader (f.payload ++ rest) hm ho hf hq1
  rw [recvState.processIncomingBody_of_fetch_ok hfetch,
    recvState.ensureBodyCache_of_le env (by exact hfit),
    recvState.processBody_copy_full (by exact hfit)
      (by simp only [hcdb, wireFrame.header, List.length_append]; omega)]
  simp only [hcdb, hp, wireFrame.header, Nat.sub_zero, List.nil_append,
    List.take_left', List.drop_left']
  have hex1 : env.executeResponse
      ⟨f.cmmd, f.payload.length, f.dataType, f.count, f.cid, f.available⟩ f.payload = true :=
    hex
  rw [if_pos hex1]
  cases s
  simp_all

/-- A complete frame whose payload exceeds the large buffer size, and with it the
cache in use, is removed from the queue without a dispatch. -/
theorem recvState.processIncomingBody_oversize {env : cacEnv} {s : recvState} {f : wireFrame}
    (rest : List Nat) (hidle : s.idle) (hf : f.wellFormed)
    (hmax : s.curDataMax ≤ env.largeBufferSizeTCP)
    (hbig : env.largeBufferSizeTCP < f.payload.length)
    (hq : s.recvQue = f.encode ++ rest) :
    s.processIncomingBody env = ({ s with curMsg := f.header, recvQue := rest }, none) := by
  obtain ⟨hm, ho, hcdb, hp⟩ := hidle
  have hq1 : s.recvQue = f.encodeHeader ++ (f.payload ++ rest) := by
    rw [hq, wireFrame.encode, List.append_assoc]
  have hfetch := recvState.fetchMsgHeader_encodeHeader (f.payload ++ rest) hm ho hf hq1
  rw [recvState.processIncomingBody_of_fetch_ok hfetch,
    recvState.ensureBodyCache_of_not env
      (by simp only [wireFrame.header]; omega),
    recvState.processBody_discard_done
      (by simp only [wireFrame.header]; omega)
      (by simp only [hcdb, wireFrame.header, List.length_append]; omega)]
  simp only [hcdb, wireFrame.header, Nat.sub_zero, List.drop_left']
  cases s
  simp_all

/-- The bytes of an incomplete frame cause no dispatch: the iteration returns `true`
for lack of bytes. -/
theorem recvState.processIncomingBody_incomplete (env : cacEnv) {s : recvState}
    {f : wireFrame} (k : Nat) (hidle : s.idle) (hf : f.wellFormed)
    (hk : k < f.encode.length) (hq : s.recvQue = f.encode.take k) :
    ∃ s1, s.processIncomingBody env = (s1, some true) ∧ s1.dispatched = s.dispatched := by
  obtain ⟨hm, ho, hcdb, hp⟩ := hidle
  have hlen := f.encodeHeader_length
  by_cases hk1 : k < f.encodeHeader.length
  · -- the header itself is incomplete
    have hq1 : s.recvQue = f.encodeHeader.take k := by
      rw [hq, wireFrame.encode, List.take_append_of_le_length (by omega)]
    have hql : s.recvQue.length = k := by
      rw [hq1, List.length_take]
      omega
    by_cases hk2 : k < 16
    · have hold := recvState.fetchOldMsgHeader_of_none ho
        (comQueRecv.popOldMsgHeader_eq_none.2 (by omega))
      have hfetch : s.fetchMsgHeader = (s, false) := by
        unfold recvState.fetchMsgHeader
        simp [hm, hold]
      exact ⟨s, recvState.processIncomingBody_of_fetch_stall hfetch, rfl⟩
    · -- extended header with the fixed part complete and the extension incomplete
      have hx : f.extended = true := by
        cases hx : f.extended
        · rw [hx] at hlen
          simp only [Bool.false_eq_true, if_false] at hlen
          omega
        · rfl
      obtain ⟨h1, h2, h3, h4, h5⟩ := hf
      have hsplit : s.recvQue =
          beBytes16 f.cmmd ++ beBytes16 0xffff ++ beBytes16 f.dataType ++ beBytes16 0 ++
            beBytes32 f.cid ++ beBytes32 f.available ++
            (beBytes32 f.payload.length ++ beBytes32 f.count).take (k - 16) := by
        rw [hq1]
        unfold wireFrame.encodeHeader
        simp only [hx, if_true]
        rw [List.append_assoc _ (beBytes32 f.payload.length) (beBytes32 f.count),
          List.take_append_eq_append_take, List.take_of_length_le
            (by simp [beBytes16, beBytes32]; omega)]
        simp [beBytes16, beBytes32]
      have hpop := comQueRecv.popOldMsgHeader_encoded (a := f.cmmd) (b := 0xffff)
        (c := f.dataType) (d := 0) (e := f.cid) (g := f.available)
        ((beBytes32 f.payload.length ++ beBytes32 f.count).take (k - 16)) h1 (by omega) h2
        (by omega) h3 h4
      rw [← hsplit] at hpop
      have hold := recvState.fetchOldMsgHeader_of_some ho hpop
      have hshort : ((beBytes32 f.payload.length ++ beBytes32 f.count).take (k - 16)).length
          < 8 := by
        rw [hx] at hlen
        simp only [if_true] at hlen
        rw [List.length_take]
        simp only [List.length_append, beBytes32_length]
        omega
      have hfetch : s.fetchMsgHeader =
          ({ s with curMsg := ⟨f.cmmd, 0xffff, f.dataType, 0, f.cid, f.available⟩,
                    recvQue := (beBytes32 f.payload.length ++ beBytes32 f.count).take (k - 16),
                    oldMsgHeaderAvailable := true }, false) := by
        unfold recvState.fetchMsgHeader
        simp only [hm, Bool.false_eq_true, not_false_eq_true, if_true, hold,
          not_true_eq_false, if_false]
        unfold recvState.fetchAnnex
        simp only [if_true, comQueRecv.occupiedBytes, hshort]
      exact ⟨_, recvState.processIncomingBody_of_fetch_stall hfetch, rfl⟩
  · -- the header is complete and the payload is not
    have hq1 : s.recvQue = f.encodeHeader ++ f.payload.take (k - f.encodeHeader.length) := by
      rw [hq, wireFrame.encode, List.take_append_eq_append_take,
        List.take_of_length_le (by omega)]
    have hkl : k - f.encodeHeader.length < f.payload.length := by
      rw [wireFrame.encode, List.length_append] at hk
      omega
    have hfetch := recvState.fetchMsgHeader_encodeHeader _ hm ho hf hq1
    rw [recvState.processIncomingBody_of_fetch_ok hfetch]
    have hfields := recvState.ensureBodyCache_fields env
      { s with curMsg := f.header, recvQue := f.payload.take (k - f.encodeHeader.length),
               oldMsgHeaderAvailable := true, msgHeaderAvailable := true }
    generalize recvState.ensureBodyCache env
      { s with curMsg := f.header, recvQue := f.payload.take (k - f.encodeHeader.length),
               oldMsgHeaderAvailable := true, msgHeaderAvailable := true } = v at hfields
    obtain ⟨e1, e2, e3, _, _, e6⟩ := hfields
    have hn : v.recvQue.length < v.curMsg.m_postsize - v.curDataBytes := by
      rw [e1, e2, e3]
      simp only [wireFrame.header, hcdb, List.length_take]
      omega
    by_cases hfit : v.curMsg.m_postsize ≤ v.curDataMax
    · rw [recvState.processBody_copy_stall hfit hn]
      exact ⟨_, rfl, e6⟩
    · rw [recvState.processBody_discard_stall hfit hn]
      exact ⟨_, rfl, e6⟩

/-! ### A rejected message, and arrival in pieces -/

theorem recvState.processBody_reject_push {env : cacEnv} {v w : recvState} (b : List Nat)
    (e : v.processBody env = (w, some false)) :
    (v.pushLastComBufReceived b).processBody env =
      (w.pushLastComBufReceived b, some false) := by
  by_cases hn : v.curMsg.m_postsize - v.curDataBytes ≤ v.recvQue.length
  · have hn2 : (v.pushLastComBufReceived b).curMsg.m_postsize -
        (v.pushLastComBufReceived b).curDataBytes ≤
          (v.pushLastComBufReceived b).recvQue.length := by
      simp only [recvState.pushLastComBufReceived, List.length_append]
      omega
    by_cases hfit : v.curMsg.m_postsize ≤ v.curDataMax
    · rw [recvState.processBody_copy_full hfit hn] at e
      rw [recvState.processBody_copy_full (by exact hfit) hn2]
      simp only [recvState.pushLastComBufReceived, List.take_append_of_le_length hn,
        List.drop_append_of_le_length hn]
      split_ifs at e ⊢ with hex
      · simp at e
      · simp only [Prod.mk.injEq, and_true] at e
        simp [← e]
    · rw [recvState.processBody_discard_done hfit hn] at e
      simp at e
  · have hn1 : v.recvQue.length < v.curMsg.m_postsize - v.curDataBytes := by omega
    by_cases hfit : v.curMsg.m_postsize ≤ v.curDataMax
    · rw [recvState.processBody_copy_stall hfit hn1] at e
      simp at e
    · rw [recvState.processBody_discard_stall hfit hn1] at e
      simp at e

theorem recvState.processIncomingBody_reject_push {env : cacEnv} {s s1 : recvState}
    (b : List Nat) (e : s.processIncomingBody env = (s1, some false)) :
    (s.pushLastComBufReceived b).processIncomingBody env =
      (s1.pushLastComBufReceived b, some false) := by
  cases hf : s.fetchMsgHeader with
  | mk u ok =>
    cases ok
    · rw [recvState.processIncomingBody_of_fetch_stall hf] at e
      simp at e
    · rw [recvState.processIncomingBody_of_fetch_ok hf] at e
      rw [recvState.processIncomingBody_of_fetch_ok (recvState.fetchMsgHeader_push b hf),
        recvState.ensureBodyCache_push]
      exact recvState.processBody_reject_push b e

/-- A call that returns `false` does so whatever bytes follow in the queue. -/
theorem recvState.processIncoming_reject_push (env : cacEnv) (b : List Nat) :
    ∀ (n : Nat) (t s1 : recvState), t.pending < n →
      t.processIncoming env = some (s1, false) →
      (t.pushLastComBufReceived b).processIncoming env =
        some (s1.pushLastComBufReceived b, false) := by
  intro n
  induction n with
  | zero => intro t s1 h; omega
  | succ n ih =>
      intro t s1 hlt h
      cases hb : t.processIncomingBody env with
      | mk t1 o =>
        cases o with
        | some r =>
            rw [recvState.processIncoming_of_return hb] at h
            simp only [Option.some.injEq, Prod.mk.injEq] at h
            obtain ⟨h1, h2⟩ := h
            subst h1 h2
            exact recvState.processIncoming_of_return
              (recvState.processIncomingBody_reject_push b hb)
        | none =>
            rw [recvState.processIncoming_of_again hb] at h
            have hlt1 := recvState.processIncomingBody_again_pending hb
            rw [recvState.processIncoming_of_again
              (recvState.processIncomingBody_again_push b hb)]
            exact ih t1 s1 (by omega) h

/-- Arrival in pieces, each followed by a `processIncoming` call, gives what one call
on the concatenated bytes gives, whenever that one call returns `true`. -/
theorem recvState.receiveAll_eq_processIncoming {env : cacEnv} (chunks : List (List Nat)) :
    ∀ (t s1 sf : recvState), t.processIncoming env = some (s1, true) →
      (t.pushLastComBufReceived chunks.flatten).processIncoming env = some (sf, true) →
      recvState.receiveAll env s1 chunks = some (sf, true) := by
  induction chunks with
  | nil =>
      intro t s1 sf h hall
      rw [List.flatten_nil, recvState.push_nil, h] at hall
      rw [recvState.receiveAll, hall]
  | cons c cs ih =>
      intro t s1 sf h hall
      rw [List.flatten_cons, ← recvState.push_push] at hall
      have hres := recvState.processIncoming_resume env c _ t s1 (Nat.lt_succ_self _) h
      obtain ⟨⟨s2, r⟩, hs2⟩ := recvState.processIncoming_total env (t.pushLastComBufReceived c)
      cases r
      · rw [recvState.processIncoming_reject_push env cs.flatten _ _ s2
          (Nat.lt_succ_self _) hs2] at hall
        simp at hall
      · rw [recvState.receiveAll, hres, hs2]
        exact ih (t.pushLastComBufReceived c) s2 sf hs2 hall

/-! ### A stream of frames in one call -/

/-- Frames the parser handles without changing the body cache: the payload fits the
cache in use, or exceeds the large buffer size and with it the cache in use. -/
theorem recvState.processIncoming_frames {env : cacEnv} (frames : List wireFrame) :
    ∀ (s : recvState) (rest : List Nat), s.idle →
      (∀ f ∈ frames, f.wellFormed ∧
        ((f.payload.length ≤ s.curDataMax ∧ env.executeResponse f.header f.payload = true) ∨
         (s.curDataMax ≤ env.largeBufferSizeTCP ∧
            env.largeBufferSizeTCP < f.payload.length))) →
      s.recvQue = wireFrame.encodeAll frames ++ rest →
      ∃ s1 : recvState, s1.idle ∧ s1.recvQue = rest ∧ s1.curDataMax = s.curDataMax ∧
        s1.dispatched = s.dispatched ++
          (frames.filter (fun f => f.payload.length ≤ s.curDataMax)).map
            (fun f => (f.header, f.payload)) ∧
        s.processIncoming env = s1.processIncoming env := by
  induction frames with
  | nil =>
      intro s rest hidle _ hq
      refine ⟨s, hidle, ?_, rfl, by simp, rfl⟩
      simpa [wireFrame.encodeAll] using hq
  | cons f fs ih =>
      intro s rest hidle hall hq
      have hq1 : s.recvQue = f.encode ++ (wireFrame.encodeAll fs ++ rest) := by
        rw [hq]
        simp [wireFrame.encodeAll]
      obtain ⟨hwf, hkind⟩ := hall f (List.mem_cons_self f fs)
      have hrest : ∀ g ∈ fs, g.wellFormed ∧
          ((g.payload.length ≤ s.curDataMax ∧ env.executeResponse g.header g.payload = true) ∨
           (s.curDataMax ≤ env.largeBufferSizeTCP ∧
              env.largeBufferSizeTCP < g.payload.length)) :=
        fun g hg => hall g (List.mem_cons_of_mem f hg)
      rcases hkind with ⟨hfit, hex⟩ | ⟨hmax, hbig⟩
      · have hstep := recvState.processIncomingBody_frame _ hidle hwf hfit hex hq1
        obtain ⟨s1, h1, h2, h3, h4, h5⟩ := ih
          { s with curMsg := f.header, recvQue := wireFrame.encodeAll fs ++ rest,
                   dispatched := s.dispatched ++ [(f.header, f.payload)] }
          rest hidle hrest rfl
        refine ⟨s1, h1, h2, h3, ?_, ?_⟩
        · rw [h4]
          simp [List.filter_cons, hfit]
        · rw [recvState.processIncoming_of_again hstep, h5]
      · have hstep := recvState.processIncomingBody_oversize _ hidle hwf hmax hbig hq1
        obtain ⟨s1, h1, h2, h3, h4, h5⟩ := ih
          { s with curMsg := f.header, recvQue := wireFrame.encodeAll fs ++ rest }
          rest hidle hrest rfl
        refine ⟨s1, h1, h2, h3, ?_, ?_⟩
        · rw [h4]
          have hnot : ¬ f.payload.length ≤ s.curDataMax := by omega
          simp [List.filter_cons, hnot]
        · rw [recvState.processIncoming_of_again hstep, h5]

theorem recvState.processIncoming_idle_nil (env : cacEnv) {s : recvState} (hidle : s.idle)
    (hq : s.recvQue = []) : s.processIncoming env = some (s, true) := by
  obtain ⟨hm, ho, _, _⟩ := hidle
  have hold := recvState.fetchOldMsgHeader_of_none ho
    (comQueRecv.popOldMsgHeader_eq_none.2 (by rw [hq]; simp))
  have hfetch : s.fetchMsgHeader = (s, false) := by
    unfold recvState.fetchMsgHeader
    simp [hm, hold]
  exact recvState.processIncoming_of_return
    (recvState.processIncomingBody_of_fetch_stall hfetch)

/-! ### Range of the body byte count -/

theorem recvState.bodyInRange_init (env : cacEnv) : (recvState.init env).bodyInRange := by
  simp [recvState.bodyInRange, recvState.init]

theorem recvState.bodyInRange_push {s : recvState} (h : s.bodyInRange) (b : List Nat) :
    (s.pushLastComBufReceived b).bodyInRange := h

theorem recvState.bodyInRange_fetchMsgHeader {s : recvState} (h : s.bodyInRange) :
    s.fetchMsgHeader.1.bodyInRange := by
  cases hm : s.msgHeaderAvailable
  · have h0 : s.curDataBytes = 0 := by simpa [recvState.bodyInRange, hm] using h
    cases hf : s.fetchMsgHeader with
    | mk u ok =>
      cases ok
      · -- no complete header: the flag and the count are as before
        have hu : u.msgHeaderAvailable = false ∧ u.curDataBytes = 0 := by
          unfold recvState.fetchMsgHeader at hf
          simp only [hm, Bool.false_eq_true, not_false_eq_true, if_true] at hf
          cases ho : s.fetchOldMsgHeader with
          | mk s1 ok1 =>
            cases ok1
            · rw [ho] at hf
              simp only [Bool.false_eq_true, not_false_eq_true, if_true, Prod.mk.injEq,
                and_true] at hf
              rw [← hf, (recvState.fetchOldMsgHeader_stall ho).1]
              exact ⟨hm, h0⟩
            · rw [ho] at hf
              simp only [not_true_eq_false, if_false] at hf
              have h1 := recvState.fetchOldMsgHeader_ok ho
              rw [(recvState.fetchAnnex_stall hf).1]
              exact ⟨by rw [h1.2.1, hm], by rw [h1.2.2.2.1, h0]⟩
        simp [recvState.bodyInRange, hu.1, hu.2]
      · have hu := recvState.fetchMsgHeader_ok hf
        simp [recvState.bodyInRange, hu.1, hu.2.2.1, h0]
  · have : s.fetchMsgHeader = (s, true) := by
      unfold recvState.fetchMsgHeader
      simp [hm]
    rw [this]
    exact h

theorem recvState.bodyInRange_processBody {env : cacEnv} {v : recvState}
    (h : v.bodyInRange) (hm : v.msgHeaderAvailable = true) :
    (v.processBody env).1.bodyInRange := by
  have hle : v.curDataBytes ≤ v.curMsg.m_postsize := by
    simpa [recvState.bodyInRange, hm] using h
  by_cases hn : v.curMsg.m_postsize - v.curDataBytes ≤ v.recvQue.length
  · by_cases hfit : v.curMsg.m_postsize ≤ v.curDataMax
    · rw [recvState.processBody_copy_full hfit hn]
      split_ifs
      · simp [recvState.bodyInRange]
      · simp only [recvState.bodyInRange, hm, if_true]
        omega
    · rw [recvState.processBody_discard_done hfit hn]
      simp [recvState.bodyInRange]
  · have hn1 : v.recvQue.length < v.curMsg.m_postsize - v.curDataBytes := by omega
    by_cases hfit : v.curMsg.m_postsize ≤ v.curDataMax
    · rw [recvState.processBody_copy_stall hfit hn1]
      simp only [recvState.bodyInRange, hm, if_true]
      omega
    · rw [recvState.processBody_discard_stall hfit hn1]
      simp only [recvState.bodyInRange, hm, if_true]
      omega

/-- Every iteration of the loop keeps the body byte count in range. -/
theorem recvState.bodyInRange_processIncomingBody {env : cacEnv} {s : recvState}
    (h : s.bodyInRange) : (s.processIncomingBody env).1.bodyInRange := by
  have hf1 := recvState.bodyInRange_fetchMsgHeader h
  cases hf : s.fetchMsgHeader with
  | mk u ok =>
    rw [hf] at hf1
    cases ok
    · rw [recvState.processIncomingBody_of_fetch_stall hf]
      exact hf1
    · rw [recvState.processIncomingBody_of_fetch_ok hf]
      have hu := recvState.fetchMsgHeader_ok hf
      have he := recvState.ensureBodyCache_fields env u
      apply recvState.bodyInRange_processBody
      · unfold recvState.bodyInRange at hf1 ⊢
        rw [he.2.1, he.2.2.1, he.2.2.2.1]
        exact hf1
      · rw [he.2.2.2.1, hu.1]

/-- A `processIncoming` call keeps the body byte count in range. -/
theorem recvState.bodyInRange_processIncoming (env : cacEnv) :
    ∀ (n : Nat) (s : recvState) (r : recvState × Bool), s.pending < n → s.bodyInRange →
      s.processIncoming env = some r → r.1.bodyInRange := by
  intro n
  induction n with
  | zero => intro s r h; omega
  | succ n ih =>
      intro s r hlt h hr
      have hb1 := @recvState.bodyInRange_processIncomingBody env s h
      cases hb : s.processIncomingBody env with
      | mk t1 o =>
        rw [hb] at hb1
        cases o with
        | some b =>
            rw [recvState.processIncoming_of_return hb] at hr
            simp only [Option.some.injEq] at hr
            rw [← hr]
            exact hb1
        | none =>
            rw [recvState.processIncoming_of_again hb] at hr
            have hlt1 := recvState.processIncomingBody_again_pending hb
            exact ih t1 r (by omega) hb1 hr

/-! ## Claims on the inbound parser -/

theorem recvState.idle_push {s : recvState} (h : s.idle) (b : List Nat) :
    (s.pushLastComBufReceived b).idle := h

theorem recvState.processIncoming_idle_short (env : cacEnv) {s : recvState}
    (hidle : s.idle) (hq : s.recvQue.length < 16) :
    s.processIncoming env = some (s, true) := by
  obtain ⟨hm, ho, _, _⟩ := hidle
  have hold := recvState.fetchOldMsgHeader_of_none ho
    (comQueRecv.popOldMsgHeader_eq_none.2 hq)
  have hfetch : s.fetchMsgHeader = (s, false) := by
    unfold recvState.fetchMsgHeader
    simp [hm, hold]
  exact recvState.processIncoming_of_return
    (recvState.processIncomingBody_of_fetch_stall hfetch)

/-- One call on a stream of complete frames that fit the cache and are accepted,
followed by the first `k` bytes of a further frame: every complete frame is
dispatched, in order, and nothing else. -/
theorem recvState.processIncoming_stream (env : cacEnv) {s : recvState}
    {frames : List wireFrame} {g : wireFrame} {k : Nat}
    (hidle : s.idle)
    (hframes : ∀ f ∈ frames, f.wellFormed ∧ f.payload.length ≤ s.curDataMax ∧
      env.executeResponse f.header f.payload = true)
    (hg : g.wellFormed) (hk : k < g.encode.length)
    (hq : s.recvQue = wireFrame.encodeAll frames ++ g.encode.take k) :
    ∃ s1, s.processIncoming env = some (s1, true) ∧
      s1.dispatched = s.dispatched ++ frames.map (fun f => (f.header, f.payload)) := by
  have hall : ∀ f ∈ frames, f.wellFormed ∧
      ((f.payload.length ≤ s.curDataMax ∧ env.executeResponse f.header f.payload = true) ∨
       (s.curDataMax ≤ env.largeBufferSizeTCP ∧
          env.largeBufferSizeTCP < f.payload.length)) :=
    fun f hf => ⟨(hframes f hf).1, Or.inl (hframes f hf).2⟩
  obtain ⟨s1, h1, h2, _, h4, h5⟩ :=
    recvState.processIncoming_frames frames s (g.encode.take k) hidle hall hq
  obtain ⟨s2, h6, h7⟩ := recvState.processIncomingBody_incomplete env k h1 hg hk h2
  have hfilter : frames.filter (fun f => f.payload.length ≤ s.curDataMax) = frames :=
    List.filter_eq_self.2 (fun f hf => by simpa using (hframes f hf).2.1)
  refine ⟨s2, ?_, ?_⟩
  · rw [h5]
    exact recvState.processIncoming_of_return h6
  · rw [h7, h4, hfilter]

/-- C8: for a byte stream made of well-formed frames whose payloads fit the payload
cache and which the dispatcher accepts, followed by the first bytes of an incomplete
frame, and for every way of splitting the stream into arrivals each followed by a
`processIncoming` call: every call returns `true`, the dispatcher is invoked exactly
once per complete frame, in stream order, with that frame's header values and payload
bytes; the final circuit is the one a single call on the whole stream gives, so it
does not depend on the split; the incomplete frame causes no dispatch. -/
theorem processIncoming_dispatches_each_frame_once (env : cacEnv) (s : recvState)
    (frames : List wireFrame) (g : wireFrame) (k : Nat) (chunks : List (List Nat))
    (hidle : s.idle) (hempty : s.recvQue = [])
    (hframes : ∀ f ∈ frames, f.wellFormed ∧ f.payload.length ≤ s.curDataMax ∧
      env.executeResponse f.header f.payload = true)
    (hg : g.wellFormed) (hk : k < g.encode.length)
    (hchunks : chunks.flatten = wireFrame.encodeAll frames ++ g.encode.take k) :
    ∃ s1, recvState.receiveAll env s chunks = some (s1, true) ∧
      s1.dispatched = s.dispatched ++ frames.map (fun f => (f.header, f.payload)) ∧
      (s.pushLastComBufReceived chunks.flatten).processIncoming env = some (s1, true) ∧
      ∀ chunks2 : List (List Nat), chunks2.flatten = chunks.flatten →
        recvState.receiveAll env s chunks2 = recvState.receiveAll env s chunks := by
  have hq : (s.pushLastComBufReceived chunks.flatten).recvQue =
      wireFrame.encodeAll frames ++ g.encode.take k := by
    simp [recvState.pushLastComBufReceived, hempty, hchunks]
  obtain ⟨s1, h1, h2⟩ := recvState.processIncoming_stream env
    (recvState.idle_push hidle chunks.flatten) hframes hg hk hq
  have h0 := recvState.processIncoming_idle_nil env hidle hempty
  have hr := recvState.receiveAll_eq_processIncoming chunks s s s1 h0 h1
  refine ⟨s1, hr, h2, h1, ?_⟩
  intro chunks2 h
  rw [hr]
  rw [← h] at h1
  exact recvState.receiveAll_eq_processIncoming chunks2 s s s1 h0 h1

/-- Witness for C8: a compact and an extended frame followed by the first twenty
bytes of a third, arriving in three pieces that cut through a header and a payload. -/
theorem processIncoming_dispatches_each_frame_once_witness :
    ∃ s1, recvState.receiveAll exampleEnv (recvState.init exampleEnv)
        [exampleFrame.encode.take 5,
         exampleFrame.encode.drop 5 ++ exampleFrameExtended.encode.take 25,
         exampleFrameExtended.encode.drop 25 ++ exampleFrame.encode.take 20]
        = some (s1, true) ∧
      s1.dispatched =
        [(exampleFrame.header, exampleFrame.payload),
         (exampleFrameExtended.header, exampleFrameExtended.payload)] := by
  obtain ⟨s1, h1, h2, _⟩ := processIncoming_dispatches_each_frame_once exampleEnv
    (recvState.init exampleEnv) [exampleFrame, exampleFrameExtended] exampleFrame 20
    [exampleFrame.encode.take 5,
     exampleFrame.encode.drop 5 ++ exampleFrameExtended.encode.take 25,
     exampleFrameExtended.encode.drop 25 ++ exampleFrame.encode.take 20]
    (by decide) rfl (by decide) (by decide) (by decide) (by decide)
  exact ⟨s1, h1, h2⟩

theorem recvState.fetchMsgHeader_annex {u : recvState} (hm : u.msgHeaderAvailable = false)
    (ho : u.oldMsgHeaderAvailable = true) (hsz : u.curMsg.m_postsize = 0xffff)
    (hlen : 8 ≤ u.recvQue.length) :
    u.fetchMsgHeader =
      ({ u with
          curMsg := { u.curMsg with
            m_postsize := beUInt (u.recvQue.take 4)
            m_count := beUInt ((u.recvQue.drop 4).take 4) }
          recvQue := u.recvQue.drop 8
          msgHeaderAvailable := true }, true) := by
  unfold recvState.fetchMsgHeader
  simp only [hm, Bool.false_eq_true, not_false_eq_true, if_true,
    recvState.fetchOldMsgHeader_of_old ho, not_true_eq_false, if_false]
  unfold recvState.fetchAnnex
  rw [if_pos hsz, if_neg (by simp only [comQueRecv.occupiedBytes]; omega)]
  simp [comQueRecv.popUInt32]

/-- C9: let `msg` be the 16 byte header just popped and `rest` the queue behind it.
When its payload size field is `0xffff` and `rest` holds at least 8 bytes, the header
fetch consumes exactly the first 8 bytes of `rest`, the first four becoming the payload
size and the last four the element count.  When fewer than 8 bytes are there,
`processIncoming` returns `true` having consumed none of them, the header kept in
hand, and once further bytes make up 8 the next fetch takes the extension from the
same position.  When the field is not `0xffff` the header is complete as popped and
`rest` is untouched. -/
theorem fetchMsgHeader_extension_bytes (env : cacEnv) (s : recvState)
    (msg : caHdrLargeArray) (rest : List Nat)
    (hm : s.msgHeaderAvailable = false) (ho : s.oldMsgHeaderAvailable = false)
    (hp : comQueRecv.popOldMsgHeader s.recvQue = some (msg, rest)) :
    (msg.m_postsize = 0xffff → 8 ≤ rest.length →
      s.fetchMsgHeader =
        ({ s with
            curMsg := { msg with m_postsize := beUInt (rest.take 4)
                                 m_count := beUInt ((rest.drop 4).take 4) }
            recvQue := rest.drop 8
            oldMsgHeaderAvailable := true
            msgHeaderAvailable := true }, true)) ∧
    (msg.m_postsize = 0xffff → rest.length < 8 →
      s.processIncoming env =
          some ({ s with curMsg := msg, recvQue := rest, oldMsgHeaderAvailable := true },
            true) ∧
      ∀ more : List Nat, 8 ≤ (rest ++ more).length →
        (({ s with curMsg := msg, recvQue := rest,
                   oldMsgHeaderAvailable := true } : recvState).pushLastComBufReceived
            more).fetchMsgHeader =
          ({ s with
              curMsg := { msg with m_postsize := beUInt ((rest ++ more).take 4)
                                   m_count := beUInt (((rest ++ more).drop 4).take 4) }
              recvQue := (rest ++ more).drop 8
              oldMsgHeaderAvailable := true
              msgHeaderAvailable := true }, true)) ∧
    (msg.m_postsize ≠ 0xffff →
      s.fetchMsgHeader =
        ({ s with curMsg := msg, recvQue := rest, oldMsgHeaderAvailable := true,
                  msgHeaderAvailable := true }, true)) := by
  have hold := recvState.fetchOldMsgHeader_of_some ho hp
  have hfetch : s.fetchMsgHeader =
      ({ s with curMsg := msg, recvQue := rest,
                oldMsgHeaderAvailable := true } : recvState).fetchAnnex := by
    unfold recvState.fetchMsgHeader
    simp only [hm, Bool.false_eq_true, not_false_eq_true, if_true, hold,
      not_true_eq_false, if_false]
  refine ⟨?_, ?_, ?_⟩
  · intro hsz hlen
    rw [hfetch]
    unfold recvState.fetchAnnex
    rw [if_pos hsz, if_neg (by simp only [comQueRecv.occupiedBytes]; omega)]
    simp [comQueRecv.popUInt32]
  · intro hsz hlen
    constructor
    · apply recvState.processIncoming_of_return
      apply recvState.processIncomingBody_of_fetch_stall
      rw [hfetch]
      unfold recvState.fetchAnnex
      rw [if_pos hsz, if_pos (by simp only [comQueRecv.occupiedBytes]; omega)]
    · intro more hmore
      exact @recvState.fetchMsgHeader_annex
        (recvState.pushLastComBufReceived
          { s with curMsg := msg, recvQue := rest, oldMsgHeaderAvailable := true } more)
        hm rfl hsz hmore
  · intro hsz
    rw [hfetch]
    unfold recvState.fetchAnnex
    rw [if_neg hsz]

/-- Witness for C9: the extended example frame in the queue of a new circuit; its
extension bytes give payload size 3 and element count 70000. -/
theorem fetchMsgHeader_extension_bytes_witness :
    ({ recvState.init exampleEnv with
        recvQue := exampleFrameExtended.encode } : recvState).fetchMsgHeader =
      ({ recvState.init exampleEnv with
          curMsg := ⟨1, 3, 0, 70000, 5, 6⟩
          recvQue := [9, 9, 9]
          oldMsgHeaderAvailable := true
          msgHeaderAvailable := true }, true) :=
  (fetchMsgHeader_extension_bytes exampleEnv
    { recvState.init exampleEnv with recvQue := exampleFrameExtended.encode }
    ⟨1, 0xffff, 0, 0, 5, 6⟩ [0, 0, 0, 3, 0, 1, 17, 112, 9, 9, 9]
    rfl rfl (by decide)).1 rfl (by decide)

/-- C10: a frame whose declared payload size exceeds the large buffer size is removed
from the queue, header and exactly the declared number of payload bytes, without a
dispatch, in however many arrivals its bytes come; every `processIncoming` call
returns `true`; the frames that follow are parsed from their first header byte and
dispatched, and the bytes behind them are left in the queue. -/
theorem processIncoming_discards_oversize_payload (env : cacEnv) (s : recvState)
    (big : wireFrame) (following : List wireFrame) (tail : List Nat)
    (chunks : List (List Nat))
    (hidle : s.idle) (hempty : s.recvQue = [])
    (hmax : s.curDataMax ≤ env.largeBufferSizeTCP)
    (hbig : big.wellFormed) (hsize : env.largeBufferSizeTCP < big.payload.length)
    (hfollow : ∀ f ∈ following, f.wellFormed ∧ f.payload.length ≤ s.curDataMax ∧
      env.executeResponse f.header f.payload = true)
    (htail : tail.length < 16)
    (hchunks : chunks.flatten = big.encode ++ wireFrame.encodeAll following ++ tail) :
    (∀ rest : List Nat,
      ({ s with recvQue := big.encode ++ rest } : recvState).processIncomingBody env =
        ({ s with curMsg := big.header, recvQue := rest }, none)) ∧
    ∃ s1, recvState.receiveAll env s chunks = some (s1, true) ∧
      s1.recvQue = tail ∧ s1.idle ∧
      s1.dispatched = s.dispatched ++ following.map (fun f => (f.header, f.payload)) := by
  constructor
  · intro rest
    exact recvState.processIncomingBody_oversize (s := { s with recvQue := big.encode ++ rest })
      rest hidle hbig hmax hsize rfl
  · have hq : (s.pushLastComBufReceived chunks.flatten).recvQue =
        wireFrame.encodeAll (big :: following) ++ tail := by
      simp [recvState.pushLastComBufReceived, hempty, hchunks, wireFrame.encodeAll]
    have hall : ∀ f ∈ big :: following, f.wellFormed ∧
        ((f.payload.length ≤ (s.pushLastComBufReceived chunks.flatten).curDataMax ∧
            env.executeResponse f.header f.payload = true) ∨
         ((s.pushLastComBufReceived chunks.flatten).curDataMax ≤ env.largeBufferSizeTCP ∧
            env.largeBufferSizeTCP < f.payload.length)) := by
      intro f hf
      rcases List.mem_cons.1 hf with h | h
      · subst h
        exact ⟨hbig, Or.inr ⟨hmax, hsize⟩⟩
      · exact ⟨(hfollow f h).1, Or.inl (hfollow f h).2⟩
    obtain ⟨s1, h1, h2, _, h4, h5⟩ := recvState.processIncoming_frames (big :: following)
      (s.pushLastComBufReceived chunks.flatten) tail
      (recvState.idle_push hidle chunks.flatten) hall hq
    have h6 := recvState.processIncoming_idle_short env h1 (by rw [h2]; exact htail)
    rw [← h5] at h6
    have h0 := recvState.processIncoming_idle_nil env hidle hempty
    refine ⟨s1, recvState.receiveAll_eq_processIncoming chunks s s s1 h0 h6, h2, h1, ?_⟩
    rw [h4]
    have hnot : ¬ big.payload.length ≤ s.curDataMax := by omega
    have hfilter : following.filter (fun f => f.payload.length ≤ s.curDataMax) = following :=
      List.filter_eq_self.2 (fun f hf => by simpa using (hfollow f hf).2.1)
    show s.dispatched ++ _ = _
    simp only [recvState.pushLastComBufReceived]
    rw [List.filter_cons, if_neg (by simpa using hnot), hfilter]

/-- Witness for C10: a frame declaring 70 payload bytes against a large buffer of 64,
arriving in two pieces, followed by a frame of eight payload bytes and three stray
bytes. -/
theorem processIncoming_discards_oversize_payload_witness :
    ∃ s1, recvState.receiveAll exampleEnv (recvState.init exampleEnv)
        [exampleFrameOversize.encode.take 30,
         exampleFrameOversize.encode.drop 30 ++ exampleFrame.encode ++ [1, 2, 3]]
        = some (s1, true) ∧
      s1.recvQue = [1, 2, 3] ∧
      s1.dispatched = [(exampleFrame.header, exampleFrame.payload)] := by
  obtain ⟨s1, h1, h2, _, h4⟩ := (processIncoming_discards_oversize_payload exampleEnv
    (recvState.init exampleEnv) exampleFrameOversize [exampleFrame] [1, 2, 3]
    [exampleFrameOversize.encode.take 30,
     exampleFrameOversize.encode.drop 30 ++ exampleFrame.encode ++ [1, 2, 3]]
    (by decide) rfl (by decide) (by decide) (by decide) (by decide) (by decide)
    (by decide)).2
  exact ⟨s1, h1, h2, h4⟩

/-! ## Lemmas on the send queue -/

theorem comQueSend.commit_insertRequestHeader (q : comQueSend) (request : caCommand)
    (payloadSize dataType nElem cid requestDependent : Nat) (v49Ok : Bool) :
    (q.insertRequestHeader request payloadSize dataType nElem cid requestDependent
        v49Ok).commit =
      { requests := q.requests ++
          [⟨request, payloadSize, dataType, nElem, cid, requestDependent, v49Ok, []⟩]
        staged := none } := rfl

theorem comQueSend.pushBytes_insertRequestHeader (q : comQueSend) (request : caCommand)
    (payloadSize dataType nElem cid requestDependent : Nat) (v49Ok : Bool)
    (bytes : List Nat) :
    (q.insertRequestHeader request payloadSize dataType nElem cid requestDependent
        v49Ok).pushBytes bytes =
      { requests := q.requests
        staged := some
          ⟨request, payloadSize, dataType, nElem, cid, requestDependent, v49Ok, bytes⟩ } := by
  simp [comQueSend.insertRequestHeader, comQueSend.pushBytes]

theorem comQueSend.pushBytes_staged (rs : List caRequest) (r : caRequest)
    (bytes : List Nat) :
    ({ requests := rs, staged := some r } : comQueSend).pushBytes bytes =
      { requests := rs, staged := some { r with payload := r.payload ++ bytes } } := rfl

theorem comQueSend.commit_staged (rs : List caRequest) (r : caRequest) :
    ({ requests := rs, staged := some r } : comQueSend).commit =
      { requests := rs ++ [r], staged := none } := rfl

theorem circuit.flushRequest_sendQue (env : stagingEnv) (c : circuit) :
    (c.flushRequest env).sendQue = c.sendQue ∧
    (c.flushRequest env).minorProtocolVersion = c.minorProtocolVersion ∧
    (c.flushRequest env).busyStateDetected = c.busyStateDetected ∧
    (c.flushRequest env).flowControlActive = c.flowControlActive ∧
    (c.flushRequest env).echoRequestPending = c.echoRequestPending ∧
    (c.flushRequest env).priority = c.priority := by
  unfold circuit.flushRequest
  split_ifs <;> simp

/-- Early flush request made before a message is staged: it leaves the queue and the
flags alone. -/
theorem circuit.earlyFlush_fields (env : stagingEnv) (c : circuit) (n : Nat) :
    (if env.flushEarlyThreshold c.sendQue n = true then c.flushRequest env else c).sendQue
        = c.sendQue ∧
    (if env.flushEarlyThreshold c.sendQue n = true then c.flushRequest env
        else c).minorProtocolVersion = c.minorProtocolVersion ∧
    (if env.flushEarlyThreshold c.sendQue n = true then c.flushRequest env
        else c).busyStateDetected = c.busyStateDetected ∧
    (if env.flushEarlyThreshold c.sendQue n = true then c.flushRequest env
        else c).flowControlActive = c.flowControlActive ∧
    (if env.flushEarlyThreshold c.sendQue n = true then c.flushRequest env
        else c).echoRequestPending = c.echoRequestPending ∧
    (if env.flushEarlyThreshold c.sendQue n = true then c.flushRequest env
        else c).priority = c.priority := by
  have h := circuit.flushRequest_sendQue env c
  split_ifs
  · exact h
  · simp

/-! ## Claims on the receive engine accounting -/

theorem tcpRecvThread.accountFrame_full (c : circuit) (cap : Nat) :
    (tcpRecvThread.accountFrame c cap cap).contigRecvMsgCount =
        (if c.contigRecvMsgCount ≥ 16 then c.contigRecvMsgCount
          else c.contigRecvMsgCount + 1) ∧
    (tcpRecvThread.accountFrame c cap cap).busyStateDetected =
        (if c.contigRecvMsgCount ≥ 16 then true else c.busyStateDetected) := by
  unfold tcpRecvThread.accountFrame contiguousMsgCountWhichTriggersFlowControl
  simp only [if_true]
  split_ifs <;> simp

theorem tcpRecvThread.accountFrame_iterate (cap : Nat) (c : circuit)
    (h0 : c.contigRecvMsgCount = 0) (hb : c.busyStateDetected = false) :
    ∀ k : Nat,
      ((fun x => tcpRecvThread.accountFrame x cap cap)^[k] c).contigRecvMsgCount = min k 16 ∧
      (((fun x => tcpRecvThread.accountFrame x cap cap)^[k] c).busyStateDetected = true ↔
        17 ≤ k) := by
  intro k
  induction k with
  | zero => simp [h0, hb]
  | succ k ih =>
      rw [Function.iterate_succ_apply']
      obtain ⟨h1, h2⟩ := tcpRecvThread.accountFrame_full
        ((fun x => tcpRecvThread.accountFrame x cap cap)^[k] c) cap
      rw [h1, h2, ih.1]
      by_cases hk : 16 ≤ k
      · have : min k 16 = 16 := by omega
        simp [this]
        omega
      · have : min k 16 = k := by omega
        rw [this, if_neg (by omega), if_neg (by omega)]
        refine ⟨by omega, ?_⟩
        rw [ih.2]
        omega

theorem tcpRecvThread.processFrame_counters {env : cacEnv}
    {info : epicsSocketSystemCallInterruptMechanismQueryInfo} {l sh : Int} {cap : Nat}
    {c c1 : circuit} {bytes : List Nat} {ok : Bool}
    (h : tcpRecvThread.processFrame env info l sh cap c bytes = some (c1, ok)) :
    c1.contigRecvMsgCount =
        (tcpRecvThread.accountFrame c bytes.length cap).contigRecvMsgCount ∧
    c1.busyStateDetected =
        (tcpRecvThread.accountFrame c bytes.length cap).busyStateDetected := by
  unfold tcpRecvThread.processFrame at h
  simp only at h
  split at h
  · simp at h
  · rename_i p protocolOK hp
    split_ifs at h <;> simp only [Option.some.injEq, Prod.mk.injEq] at h <;>
      rw [← h.1] <;> exact ⟨rfl, rfl⟩

/-- C13: starting from a contiguous-frame counter of 0 with the busy state not
detected, after `k` buffers in a row that were each filled to capacity the counter is
`min k 16`, so it never exceeds 16, and the busy state is detected if and only if
`k >= 17`; a buffer that is not filled to capacity resets the counter to 0 and clears
the busy state; and the counter and flag the receive engine holds after processing a
buffer are the ones this accounting gives. -/
theorem busy_detected_after_seventeen_full_frames
    (env : cacEnv) (info : epicsSocketSystemCallInterruptMechanismQueryInfo) (l sh : Int)
    (cap k : Nat) (c : circuit)
    (h0 : c.contigRecvMsgCount = 0) (hb : c.busyStateDetected = false) :
    ((fun x => tcpRecvThread.accountFrame x cap cap)^[k] c).contigRecvMsgCount = min k 16 ∧
    (((fun x => tcpRecvThread.accountFrame x cap cap)^[k] c).busyStateDetected = true ↔
      k ≥ 17) ∧
    (∀ (d : circuit) (n : Nat), n ≠ cap →
      (tcpRecvThread.accountFrame d n cap).contigRecvMsgCount = 0 ∧
      (tcpRecvThread.accountFrame d n cap).busyStateDetected = false) ∧
    (∀ (d d1 : circuit) (bytes : List Nat) (ok : Bool),
      tcpRecvThread.processFrame env info l sh cap d bytes = some (d1, ok) →
      d1.contigRecvMsgCount =
          (tcpRecvThread.accountFrame d bytes.length cap).contigRecvMsgCount ∧
      d1.busyStateDetected =
          (tcpRecvThread.accountFrame d bytes.length cap).busyStateDetected) := by
  obtain ⟨h1, h2⟩ := tcpRecvThread.accountFrame_iterate cap c h0 hb k
  refine ⟨h1, h2, ?_, ?_⟩
  · intro d n hn
    unfold tcpRecvThread.accountFrame
    simp [hn]
  · intro d d1 bytes ok h
    exact tcpRecvThread.processFrame_counters h

/-- Witness for C13: seventeen full buffers of four bytes on a new circuit. -/
theorem busy_detected_after_seventeen_full_frames_witness :
    ((fun x => tcpRecvThread.accountFrame x 4 4)^[17] exampleCircuit).busyStateDetected
        = true ∧
    ((fun x => tcpRecvThread.accountFrame x 4 4)^[16] exampleCircuit).busyStateDetected
        = false := by
  have h17 := busy_detected_after_seventeen_full_frames exampleEnv
    esscimqi_socketCloseRequired 0 0 4 17 exampleCircuit rfl rfl
  have h16 := busy_detected_after_seventeen_full_frames exampleEnv
    esscimqi_socketCloseRequired 0 0 4 16 exampleCircuit rfl rfl
  refine ⟨h17.2.1.2 (by decide), ?_⟩
  cases hb : ((fun x => tcpRecvThread.accountFrame x 4 4)^[16] exampleCircuit).busyStateDetected
  · rfl
  · exact absurd (h16.2.1.1 hb) (by decide)

/-! ## Claims on the send engine housekeeping -/

theorem circuit.enableFlowControlRequest_fields (env : stagingEnv) (c : circuit) :
    (c.enableFlowControlRequest env).sendQue =
        { requests := c.sendQue.requests ++
            [⟨CA_PROTO_EVENTS_OFF, 0, 0, 0, 0, 0, CA_V49 c.minorProtocolVersion, []⟩]
          staged := none } ∧
    (c.enableFlowControlRequest env).minorProtocolVersion = c.minorProtocolVersion ∧
    (c.enableFlowControlRequest env).busyStateDetected = c.busyStateDetected ∧
    (c.enableFlowControlRequest env).flowControlActive = c.flowControlActive ∧
    (c.enableFlowControlRequest env).echoRequestPending = c.echoRequestPending ∧
    (c.enableFlowControlRequest env).priority = c.priority := by
  obtain ⟨h1, h2, h3, h4, h5, h6⟩ := circuit.earlyFlush_fields env c 16
  unfold circuit.enableFlowControlRequest
  simp [comQueSend.commit_insertRequestHeader, h1, h2, h3, h4, h5, h6]

theorem circuit.disableFlowControlRequest_fields (env : stagingEnv) (c : circuit) :
    (c.disableFlowControlRequest env).sendQue =
        { requests := c.sendQue.requests ++
            [⟨CA_PROTO_EVENTS_ON, 0, 0, 0, 0, 0, CA_V49 c.minorProtocolVersion, []⟩]
          staged := none } ∧
    (c.disableFlowControlRequest env).minorProtocolVersion = c.minorProtocolVersion ∧
    (c.disableFlowControlRequest env).busyStateDetected = c.busyStateDetected ∧
    (c.disableFlowControlRequest env).flowControlActive = c.flowControlActive ∧
    (c.disableFlowControlRequest env).echoRequestPending = c.echoRequestPending ∧
    (c.disableFlowControlRequest env).priority = c.priority := by
  obtain ⟨h1, h2, h3, h4, h5, h6⟩ := circuit.earlyFlush_fields env c 16
  unfold circuit.disableFlowControlRequest
  simp [comQueSend.commit_insertRequestHeader, h1, h2, h3, h4, h5, h6]

theorem circuit.echoRequest_fields (env : stagingEnv) (c : circuit) :
    (c.echoRequest env).sendQue =
        { requests := c.sendQue.requests ++
            [⟨CA_PROTO_ECHO, 0, 0, 0, 0, 0, CA_V49 c.minorProtocolVersion, []⟩]
          staged := none } ∧
    (c.echoRequest env).busyStateDetected = c.busyStateDetected ∧
    (c.echoRequest env).flowControlActive = c.flowControlActive ∧
    (c.echoRequest env).echoRequestPending = c.echoRequestPending := by
  obtain ⟨h1, h2, h3, h4, h5, h6⟩ := circuit.earlyFlush_fields env c 16
  unfold circuit.echoRequest
  simp [comQueSend.commit_insertRequestHeader, h1, h2, h3, h4, h5, h6]

theorem circuit.versionMessage_fields (env : stagingEnv) (c : circuit) (priority : Nat)
    (hp : priority ≤ 0xffff) :
    (c.versionMessage env priority).2 = none ∧
    (c.versionMessage env priority).1.sendQue =
        { requests := c.sendQue.requests ++
            [⟨CA_PROTO_VERSION, 0, priority, env.CA_MINOR_PROTOCOL_REVISION, 0, 0,
              CA_V49 c.minorProtocolVersion, []⟩]
          staged := none } ∧
    (c.versionMessage env priority).1.busyStateDetected = c.busyStateDetected ∧
    (c.versionMessage env priority).1.flowControlActive = c.flowControlActive ∧
    (c.versionMessage env priority).1.echoRequestPending = c.echoRequestPending := by
  obtain ⟨h1, h2, h3, h4, h5, h6⟩ := circuit.earlyFlush_fields env c 16
  unfold circuit.versionMessage
  rw [if_neg (by simpa using hp)]
  simp [comQueSend.commit_insertRequestHeader, h1, h2, h3, h4, h5, h6]

/-- C12: one housekeeping pass of the send engine.  When the state is not `connected`
the loop is left and nothing is staged.  When it is `connected` the pass stages, in
this order, the flow control message (`EVENTS_OFF` when the busy state is detected and
flow control is not active, `EVENTS_ON` when it is not detected and flow control is
active, none when the two agree) and the probe (present exactly when an echo was
pending: `ECHO` for a peer of minor version at least 3, `VERSION` otherwise); afterwards
`flowControlActive` equals `busyStateDetected` and `echoRequestPending` is false. -/
theorem housekeeping_pass_stages (env : stagingEnv) (c : circuit) :
    (c.conn.state ≠ iiucs_connected →
      tcpSendThread.housekeeping env c = (c, false, none)) ∧
    (c.conn.state = iiucs_connected → c.priority ≤ 0xffff →
      (tcpSendThread.housekeeping env c).2 = (true, none) ∧
      (tcpSendThread.housekeeping env c).1.sendQue.requests =
        c.sendQue.requests ++
          (if c.busyStateDetected = c.flowControlActive then []
           else if c.busyStateDetected then
             [⟨CA_PROTO_EVENTS_OFF, 0, 0, 0, 0, 0, CA_V49 c.minorProtocolVersion, []⟩]
           else
             [⟨CA_PROTO_EVENTS_ON, 0, 0, 0, 0, 0, CA_V49 c.minorProtocolVersion, []⟩]) ++
          (if c.echoRequestPending then
             [if c.minorProtocolVersion ≥ 3 then
                ⟨CA_PROTO_ECHO, 0, 0, 0, 0, 0, CA_V49 c.minorProtocolVersion, []⟩
              else
                ⟨CA_PROTO_VERSION, 0, c.priority, env.CA_MINOR_PROTOCOL_REVISION, 0, 0,
                  CA_V49 c.minorProtocolVersion, []⟩]
           else []) ∧
      (tcpSendThread.housekeeping env c).1.flowControlActive = c.busyStateDetected ∧
      (tcpSendThread.housekeeping env c).1.echoRequestPending = false) := by
  constructor
  · intro h
    unfold tcpSendThread.housekeeping
    rw [if_pos h]
  · intro h hp
    unfold tcpSendThread.housekeeping
    rw [if_neg (by simp [h])]
    cases hb : c.busyStateDetected <;> cases hf : c.flowControlActive <;>
      cases he : c.echoRequestPending <;>
      by_cases hv : c.minorProtocolVersion ≥ 3 <;>
      simp [hv, CA_V43, hp, circuit.enableFlowControlRequest_fields,
        circuit.disableFlowControlRequest_fields, circuit.echoRequest_fields,
        circuit.versionMessage_fields]

/-- Witness for C12: a connected v4.9 circuit on which the busy state was detected and
an echo is pending stages `EVENTS_OFF` and then `ECHO`. -/
theorem housekeeping_pass_stages_witness :
    (tcpSendThread.housekeeping exampleStagingEnv
        { exampleCircuit with
            conn := { tcpiiu.init with state := iiucs_connected }
            busyStateDetected := true
            echoRequestPending := true }).1.sendQue.requests =
      [⟨CA_PROTO_EVENTS_OFF, 0, 0, 0, 0, 0, true, []⟩,
       ⟨CA_PROTO_ECHO, 0, 0, 0, 0, 0, true, []⟩] :=
  ((housekeeping_pass_stages exampleStagingEnv
      { exampleCircuit with
          conn := { tcpiiu.init with state := iiucs_connected }
          busyStateDetected := true
          echoRequestPending := true }).2 rfl (by decide)).2.1

/-! ## Claims on request staging -/

/-- C14: request staging is atomic on failure.  When `writeRequest`,
`writeNotifyRequest`, `readNotifyRequest` or `createChannelRequest` fails, the circuit
is exactly what it was before the call; when `subscriptionRequest` fails, the send
queue and every other field are what they were, the only thing the call may have done
being to print its diagnostic about the event mask. -/
theorem staging_failure_changes_nothing (env : stagingEnv) (c : circuit) (chan : nciu)
    (subscr : netSubscription) (ioId type nElem : Nat) (pValue : List Nat)
    (e : stagingFailure) :
    ((c.writeRequest chan type nElem pValue).2 = some e →
      (c.writeRequest chan type nElem pValue).1 = c) ∧
    ((c.writeNotifyRequest chan ioId type nElem pValue).2 = some e →
      (c.writeNotifyRequest chan ioId type nElem pValue).1 = c) ∧
    ((c.readNotifyRequest env chan ioId type nElem).2 = some e →
      (c.readNotifyRequest env chan ioId type nElem).1 = c) ∧
    ((c.createChannelRequest env chan).2 = some e →
      (c.createChannelRequest env chan).1 = c) ∧
    ((c.subscriptionRequest env chan subscr).2 = some e →
      (c.subscriptionRequest env chan subscr).1.sendQue = c.sendQue ∧
      (c.subscriptionRequest env chan subscr).1 =
        { c with conn := (c.subscriptionRequest env chan subscr).1.conn } ∧
      ((c.subscriptionRequest env chan subscr).1.conn = c.conn ∨
       (c.subscriptionRequest env chan subscr).1.conn = c.conn.emit SockEvent.printf)) := by
  refine ⟨?_, ?_, ?_, ?_, ?_⟩
  · unfold circuit.writeRequest
    split_ifs <;> simp
  · unfold circuit.writeNotifyRequest
    split_ifs <;> simp
  · unfold circuit.readNotifyRequest
    dsimp only
    split_ifs <;> simp
  · unfold circuit.createChannelRequest
    simp only
    split_ifs <;> simp
  · unfold circuit.subscriptionRequest
    simp only
    split_ifs <;> simp

/-- Witness for C14: a write on a channel that is not connected fails and leaves the
circuit as it was. -/
theorem staging_failure_changes_nothing_witness :
    (exampleCircuit.writeRequest { exampleChannel with connected := false } 0 1
        [1, 2, 3, 4, 5, 6, 7, 8]).2 = some notConnected ∧
    (exampleCircuit.writeRequest { exampleChannel with connected := false } 0 1
        [1, 2, 3, 4, 5, 6, 7, 8]).1 = exampleCircuit :=
  ⟨by decide,
    (staging_failure_changes_nothing exampleStagingEnv exampleCircuit
      { exampleChannel with connected := false } exampleSubscription 0 0 1
      [1, 2, 3, 4, 5, 6, 7, 8] notConnected).1 (by decide)⟩

theorem subUInt32_of_le {a b : Nat} (hb : b ≤ a) (ha : a < 4294967296) :
    subUInt32 a b = a - b := by
  unfold subUInt32
  have : b % 4294967296 = b := Nat.mod_eq_of_lt (by omega)
  rw [this]
  omega

/-- C15: `readNotifyRequest` applies its checks in the order channel not connected,
data type not valid, element count above the native count, element count above
`(maxBytes - dbr_size[type]) / dbr_value_size[type]`, with `maxBytes` the large buffer
size for a peer of minor version at least 9 and `MAX_TCP` otherwise, and fails with the
first that applies; when none applies it stages exactly one `READ_NOTIFY` header with
payload size 0, no payload, and the fields type, element count, sid and io identifier. -/
theorem readNotifyRequest_checks_in_order (env : stagingEnv) (c : circuit) (chan : nciu)
    (ioId dataType nElem maxBytes : Nat)
    (hmax : maxBytes =
      if c.minorProtocolVersion ≥ 9 then env.largeBufferSizeTCP else env.MAX_TCP)
    (hsize : env.dbr_size dataType ≤ maxBytes) (hlt : maxBytes < 4294967296) :
    (chan.connected = false →
      c.readNotifyRequest env chan ioId dataType nElem = (c, some notConnected)) ∧
    (chan.connected = true → env.dbr_type_is_valid dataType = false →
      c.readNotifyRequest env chan ioId dataType nElem = (c, some badType)) ∧
    (chan.connected = true → env.dbr_type_is_valid dataType = true →
      nElem > chan.nativeElementCount →
      c.readNotifyRequest env chan ioId dataType nElem = (c, some outOfBounds)) ∧
    (chan.connected = true → env.dbr_type_is_valid dataType = true →
      nElem ≤ chan.nativeElementCount →
      nElem > (maxBytes - env.dbr_size dataType) / env.dbr_value_size dataType →
      c.readNotifyRequest env chan ioId dataType nElem = (c, some msgBodyCacheTooSmall)) ∧
    (chan.connected = true → env.dbr_type_is_valid dataType = true →
      nElem ≤ chan.nativeElementCount →
      nElem ≤ (maxBytes - env.dbr_size dataType) / env.dbr_value_size dataType →
      dataType < 65536 →
      c.readNotifyRequest env chan ioId dataType nElem =
        ({ c with sendQue :=
            { requests := c.sendQue.requests ++
                [⟨CA_PROTO_READ_NOTIFY, 0, dataType, nElem, chan.sid, ioId,
                  CA_V49 c.minorProtocolVersion, []⟩]
              staged := none } }, none)) := by
  have hmb : (if CA_V49 c.minorProtocolVersion = true then env.largeBufferSizeTCP
      else env.MAX_TCP) = maxBytes := by
    rw [hmax]
    simp [CA_V49]
  have hsub := subUInt32_of_le hsize hlt
  refine ⟨?_, ?_, ?_, ?_, ?_⟩
  · intro h1
    unfold circuit.readNotifyRequest
    simp [h1]
  · intro h1 h2
    unfold circuit.readNotifyRequest
    simp [h1, h2]
  · intro h1 h2 h3
    unfold circuit.readNotifyRequest
    simp [h1, h2, h3]
  · intro h1 h2 h3 h4
    unfold circuit.readNotifyRequest
    simp only [hmb, hsub]
    simp [h1, h2, Nat.not_lt.2 h3, h4]
  · intro h1 h2 h3 h4 h5
    unfold circuit.readNotifyRequest
    simp only [hmb, hsub]
    simp [h1, h2, Nat.not_lt.2 h3, Nat.not_lt.2 h4, Nat.mod_eq_of_lt h5,
      comQueSend.commit_insertRequestHeader]

/-- Witness for C15: a read of 4 elements of type 0 on the example channel. -/
theorem readNotifyRequest_checks_in_order_witness :
    exampleCircuit.readNotifyRequest exampleStagingEnv exampleChannel 5 0 4 =
      ({ exampleCircuit with sendQue :=
          { requests := [⟨CA_PROTO_READ_NOTIFY, 0, 0, 4, 7, 5, true, []⟩]
            staged := none } }, none) :=
  (readNotifyRequest_checks_in_order exampleStagingEnv exampleCircuit exampleChannel
    5 0 4 1000000 (by decide) (by decide) (by decide)).2.2.2.2 rfl rfl (by decide)
    (by decide) (by decide)


theorem comQueSend.commit_insertRequestWithPayLoad (q : comQueSend) (request : caCommand)
    (dataType nElem cid requestDependent : Nat) (pValue : List Nat) (v49Ok : Bool) :
    (q.insertRequestWithPayLoad request dataType nElem cid requestDependent pValue
        v49Ok).commit =
      { requests := q.requests ++
          [⟨request, CA_MESSAGE_ALIGN pValue.length, dataType, nElem, cid,
            requestDependent, v49Ok,
            pValue ++ List.replicate (CA_MESSAGE_ALIGN pValue.length - pValue.length) 0⟩]
        staged := none } := by
  simp [comQueSend.insertRequestWithPayLoad, comQueSend.insertRequestHeader,
    comQueSend.pushBytes, comQueSend.commit, CA_MESSAGE_ALIGN]

theorem CA_MESSAGE_ALIGN_bounds (n : Nat) :
    CA_MESSAGE_ALIGN n % 8 = 0 ∧ n ≤ CA_MESSAGE_ALIGN n ∧ CA_MESSAGE_ALIGN n < n + 8 := by
  unfold CA_MESSAGE_ALIGN
  omega

theorem cacNillBytes_take {k : Nat} (hk : k ≤ 8) :
    cacNillBytes.take k = List.replicate k 0 := by
  unfold cacNillBytes
  rw [List.take_replicate, Nat.min_eq_left hk]

/-- C16: `writeNotifyRequest` fails with `notConnected` whenever the channel is not
connected, whatever the protocol version, fails with `unsupportedByService` when the
channel is connected and the minor version of the peer is below 1, and otherwise stages
exactly one `WRITE_NOTIFY` message carrying type, element count, sid, io identifier and
the value bytes; `writeRequest` fails with `notConnected` if and only if the channel is
not connected, and otherwise stages one `WRITE` message carrying type, element count,
sid and cid. -/
theorem write_requests_stage_or_fail (c : circuit) (chan : nciu)
    (ioId type nElem : Nat) (pValue : List Nat) :
    (chan.connected = false →
      c.writeNotifyRequest chan ioId type nElem pValue = (c, some notConnected)) ∧
    (chan.connected = true → c.minorProtocolVersion < 1 →
      c.writeNotifyRequest chan ioId type nElem pValue = (c, some unsupportedByService)) ∧
    (chan.connected = true → c.minorProtocolVersion ≥ 1 →
      c.writeNotifyRequest chan ioId type nElem pValue =
        ({ c with sendQue :=
            { requests := c.sendQue.requests ++
                [⟨CA_PROTO_WRITE_NOTIFY, CA_MESSAGE_ALIGN pValue.length, type, nElem,
                  chan.sid, ioId, CA_V49 c.minorProtocolVersion,
                  pValue ++
                    List.replicate (CA_MESSAGE_ALIGN pValue.length - pValue.length) 0⟩]
              staged := none } }, none)) ∧
    ((c.writeRequest chan type nElem pValue).2 = some notConnected ↔
      chan.connected = false) ∧
    (chan.connected = false → c.writeRequest chan type nElem pValue = (c, some notConnected)) ∧
    (chan.connected = true →
      c.writeRequest chan type nElem pValue =
        ({ c with sendQue :=
            { requests := c.sendQue.requests ++
                [⟨CA_PROTO_WRITE, CA_MESSAGE_ALIGN pValue.length, type, nElem,
                  chan.sid, chan.cid, CA_V49 c.minorProtocolVersion,
                  pValue ++
                    List.replicate (CA_MESSAGE_ALIGN pValue.length - pValue.length) 0⟩]
              staged := none } }, none)) := by
  refine ⟨?_, ?_, ?_, ?_, ?_, ?_⟩
  · intro h
    simp [circuit.writeNotifyRequest, h]
  · intro h hv
    have hv0 : c.minorProtocolVersion = 0 := by omega
    simp [circuit.writeNotifyRequest, h, circuit.ca_v41_ok, CA_V41, hv0]
  · intro h hv
    simp [circuit.writeNotifyRequest, h, circuit.ca_v41_ok, CA_V41, hv,
      comQueSend.commit_insertRequestWithPayLoad]
  · cases h : chan.connected <;> simp [circuit.writeRequest, h]
  · intro h
    simp [circuit.writeRequest, h]
  · intro h
    simp [circuit.writeRequest, h, comQueSend.commit_insertRequestWithPayLoad]

/-- C17: `subscriptionRequest` on a channel that is not connected stages nothing and
reports no error; on a connected channel whose element count is within the ceiling it
stages exactly one `EVENT_ADD` message with header fields type, element count, sid and
subscription identifier and declared payload size 16, whose payload is exactly 16
bytes: three zero float32 values, the low 16 bits of the event mask, and a zero 16 bit
pad; when the element count is above the ceiling it fails with
`msgBodyCacheTooSmall`. -/
theorem subscriptionRequest_stages_event_add (env : stagingEnv) (c : circuit)
    (chan : nciu) (subscr : netSubscription) (maxBytes : Nat)
    (hmax : maxBytes =
      if c.minorProtocolVersion ≥ 9 then env.largeBufferSizeTCP else env.MAX_TCP)
    (hsize : env.dbr_size subscr.type ≤ maxBytes) (hlt : maxBytes < 4294967296) :
    (chan.connected = false → c.subscriptionRequest env chan subscr = (c, none)) ∧
    (chan.connected = true →
      subscr.count > (maxBytes - env.dbr_size subscr.type) / env.dbr_value_size subscr.type →
      (c.subscriptionRequest env chan subscr).2 = some msgBodyCacheTooSmall ∧
      (c.subscriptionRequest env chan subscr).1.sendQue = c.sendQue) ∧
    (chan.connected = true →
      subscr.count ≤ (maxBytes - env.dbr_size subscr.type) / env.dbr_value_size subscr.type →
      subscr.type < 65536 →
      (c.subscriptionRequest env chan subscr).2 = none ∧
      (c.subscriptionRequest env chan subscr).1.sendQue =
        { requests := c.sendQue.requests ++
            [⟨CA_PROTO_EVENT_ADD, 16, subscr.type, subscr.count, chan.sid, subscr.id,
              CA_V49 c.minorProtocolVersion,
              [0, 0, 0, 0] ++ [0, 0, 0, 0] ++ [0, 0, 0, 0] ++
                beBytes16 (subscr.mask % 65536) ++ beBytes16 0⟩]
          staged := none } ∧
      ([0, 0, 0, 0] ++ [0, 0, 0, 0] ++ [0, 0, 0, 0] ++
          beBytes16 (subscr.mask % 65536) ++ beBytes16 0).length = 16) := by
  have hmb : (if CA_V49 c.minorProtocolVersion = true then env.largeBufferSizeTCP
      else env.MAX_TCP) = maxBytes := by
    rw [hmax]
    simp [CA_V49]
  have hsub := subUInt32_of_le hsize hlt
  have hf : beBytes32 0 = [0, 0, 0, 0] := by decide
  refine ⟨?_, ?_, ?_⟩
  · intro h
    simp [circuit.subscriptionRequest, h]
  · intro h hc
    unfold circuit.subscriptionRequest
    by_cases hm : subscr.mask > 0xffff
    · simp only [hm, if_true, hmb, hsub]
      simp [h, hc]
    · simp only [hm, if_false, hmb, hsub]
      simp [h, hc]
  · intro h hc ht
    unfold circuit.subscriptionRequest
    by_cases hm : subscr.mask > 0xffff
    · simp only [hm, if_true, hmb, hsub]
      simp [h, Nat.not_lt.2 hc, Nat.mod_eq_of_lt ht, comQueSend.pushFloat32,
        comQueSend.pushUInt16, comQueSend.pushBytes_insertRequestHeader,
        comQueSend.pushBytes_staged, comQueSend.commit_staged, hf, beBytes16]
    · have hm2 : subscr.mask % 65536 = subscr.mask := Nat.mod_eq_of_lt (by omega)
      simp only [hm, if_false, hmb, hsub]
      simp [h, Nat.not_lt.2 hc, Nat.mod_eq_of_lt ht, comQueSend.pushFloat32,
        comQueSend.pushUInt16, comQueSend.pushBytes_insertRequestHeader,
        comQueSend.pushBytes_staged, comQueSend.commit_staged, hf, beBytes16, hm2]

/-- Witness for C17: the example subscription of 70000 elements with mask 1 on a v4.9
circuit. -/
theorem subscriptionRequest_stages_event_add_witness :
    (exampleCircuit.subscriptionRequest exampleStagingEnv exampleChannel
        exampleSubscription).1.sendQue =
      { requests :=
          [⟨CA_PROTO_EVENT_ADD, 16, 0, 70000, 7, 21, true,
            [0, 0, 0, 0, 0, 0, 0, 0, 0, 0, 0, 0, 0, 1, 0, 0]⟩]
        staged := none } :=
  ((subscriptionRequest_stages_event_add exampleStagingEnv exampleCircuit exampleChannel
    exampleSubscription 1000000 (by decide) (by decide) (by decide)).2.2 rfl (by decide)
    (by decide)).2.1

/-- C18: `subscriptionCancelRequest` stages exactly one `EVENT_CANCEL` header with
payload size 0, but its element count is the count of the subscription reduced to 16
bits, not the count `subscriptionRequest` staged: for the subscription of 70000
elements on a v4.9 circuit the request carries 70000 and the cancel carries 4464. -/
theorem subscriptionCancelRequest_truncates_count :
    (∀ (c : circuit) (chan : nciu) (subscr : netSubscription),
      (c.subscriptionCancelRequest chan subscr).sendQue =
        { requests := c.sendQue.requests ++
            [⟨CA_PROTO_EVENT_CANCEL, 0, subscr.type % 65536, subscr.count % 65536,
              chan.sid, subscr.id, CA_V49 c.minorProtocolVersion, []⟩]
          staged := none }) ∧
    (exampleCircuit.subscriptionRequest exampleStagingEnv exampleChannel
        exampleSubscription).1.sendQue.requests =
      [⟨CA_PROTO_EVENT_ADD, 16, 0, 70000, 7, 21, true,
        [0, 0, 0, 0, 0, 0, 0, 0, 0, 0, 0, 0, 0, 1, 0, 0]⟩] ∧
    (exampleCircuit.subscriptionCancelRequest exampleChannel
        exampleSubscription).sendQue.requests =
      [⟨CA_PROTO_EVENT_CANCEL, 0, 0, 4464, 7, 21, true, []⟩] := by
  refine ⟨?_, ?_, ?_⟩
  · intro c chan subscr
    rfl
  · decide
  · decide

/-- C19: `createChannelRequest` stages one `CREATE_CHAN` header whose parameter1 is the
cid of the channel when the peer is v4.4 or newer and its sid otherwise, whose
parameter2 is the minor protocol revision of the client, and whose payload size is the
name length rounded up to a multiple of 8 (size 0 and no name below v4.4); the payload
is the name bytes followed by zero bytes up to that size.  It fails with
`unsupportedByService` exactly when the rounded-up length is at least 0xffff. -/
theorem createChannelRequest_stages_create_chan (env : stagingEnv) (c : circuit)
    (chan : nciu) :
    ((c.createChannelRequest env chan).2 = some unsupportedByService ↔
      CA_MESSAGE_ALIGN (if c.minorProtocolVersion ≥ 4 then chan.name.length else 0)
        ≥ 0xffff) ∧
    ((c.createChannelRequest env chan).2 = none ∨
      (c.createChannelRequest env chan).2 = some unsupportedByService) ∧
    (c.minorProtocolVersion ≥ 4 → CA_MESSAGE_ALIGN chan.name.length < 0xffff →
      c.createChannelRequest env chan =
        ({ c with sendQue :=
            { requests := c.sendQue.requests ++
                [⟨CA_PROTO_CREATE_CHAN, CA_MESSAGE_ALIGN chan.name.length, 0, 0, chan.cid,
                  env.CA_MINOR_PROTOCOL_REVISION, CA_V49 c.minorProtocolVersion,
                  chan.name ++
                    List.replicate (CA_MESSAGE_ALIGN chan.name.length - chan.name.length)
                      0⟩]
              staged := none } }, none)) ∧
    (c.minorProtocolVersion < 4 →
      c.createChannelRequest env chan =
        ({ c with sendQue :=
            { requests := c.sendQue.requests ++
                [⟨CA_PROTO_CREATE_CHAN, 0, 0, 0, chan.sid,
                  env.CA_MINOR_PROTOCOL_REVISION, CA_V49 c.minorProtocolVersion, []⟩]
              staged := none } }, none)) ∧
    (CA_MESSAGE_ALIGN chan.name.length % 8 = 0 ∧
      chan.name.length ≤ CA_MESSAGE_ALIGN chan.name.length ∧
      CA_MESSAGE_ALIGN chan.name.length < chan.name.length + 8 ∧
      (chan.name ++
        List.replicate (CA_MESSAGE_ALIGN chan.name.length - chan.name.length) 0).length =
        CA_MESSAGE_ALIGN chan.name.length) := by
  have hb := CA_MESSAGE_ALIGN_bounds chan.name.length
  have h0 : CA_MESSAGE_ALIGN 0 = 0 := by decide
  have hold : c.minorProtocolVersion < 4 →
      c.createChannelRequest env chan =
        ({ c with sendQue :=
            { requests := c.sendQue.requests ++
                [⟨CA_PROTO_CREATE_CHAN, 0, 0, 0, chan.sid,
                  env.CA_MINOR_PROTOCOL_REVISION, CA_V49 c.minorProtocolVersion, []⟩]
              staged := none } }, none) := by
    intro hv
    have hv4 : ¬ 4 ≤ c.minorProtocolVersion := by omega
    unfold circuit.createChannelRequest
    simp [circuit.ca_v44_ok, CA_V44, hv4, h0, comQueSend.commit_insertRequestHeader]
  have hfail : c.minorProtocolVersion ≥ 4 → CA_MESSAGE_ALIGN chan.name.length ≥ 0xffff →
      c.createChannelRequest env chan = (c, some unsupportedByService) := by
    intro hv hlen
    unfold circuit.createChannelRequest
    simp only [circuit.ca_v44_ok, CA_V44, hv, decide_True, if_true]
    simp [hlen]
  have hnew : c.minorProtocolVersion ≥ 4 → CA_MESSAGE_ALIGN chan.name.length < 0xffff →
      c.createChannelRequest env chan =
        ({ c with sendQue :=
            { requests := c.sendQue.requests ++
                [⟨CA_PROTO_CREATE_CHAN, CA_MESSAGE_ALIGN chan.name.length, 0, 0, chan.cid,
                  env.CA_MINOR_PROTOCOL_REVISION, CA_V49 c.minorProtocolVersion,
                  chan.name ++
                    List.replicate (CA_MESSAGE_ALIGN chan.name.length - chan.name.length)
                      0⟩]
              staged := none } }, none) := by
    intro hv hlen
    have hk : CA_MESSAGE_ALIGN chan.name.length - chan.name.length ≤ 8 := by omega
    have hnl : ¬ CA_MESSAGE_ALIGN chan.name.length ≥ 0xffff := by omega
    unfold circuit.createChannelRequest
    simp only [circuit.ca_v44_ok, CA_V44, hv, decide_True, if_true]
    rw [if_neg hnl]
    by_cases hz : chan.name.length = 0
    · have hnil : chan.name = [] := List.length_eq_zero.1 hz
      simp [hnil, h0, comQueSend.commit_insertRequestHeader]
    · by_cases hp : CA_MESSAGE_ALIGN chan.name.length > chan.name.length
      · simp [hz, hp, comQueSend.pushString, cacNillBytes_take hk,
          comQueSend.pushBytes_insertRequestHeader, comQueSend.pushBytes_staged,
          comQueSend.commit_staged]
      · have he : CA_MESSAGE_ALIGN chan.name.length - chan.name.length = 0 := by omega
        simp [hz, hp, he, comQueSend.pushString,
          comQueSend.pushBytes_insertRequestHeader, comQueSend.commit_staged]
  refine ⟨?_, ?_, hnew, hold, hb.1, hb.2.1, hb.2.2, ?_⟩
  · by_cases hv : c.minorProtocolVersion ≥ 4
    · by_cases hlen : CA_MESSAGE_ALIGN chan.name.length ≥ 0xffff
      · simp [hfail hv hlen, hv, hlen]
      · have hlt : CA_MESSAGE_ALIGN chan.name.length < 0xffff := by omega
        rw [hnew hv hlt]
        simp [hv]
        omega
    · rw [hold (by omega)]
      simp [hv, h0]
  · by_cases hv : c.minorProtocolVersion ≥ 4
    · by_cases hlen : CA_MESSAGE_ALIGN chan.name.length ≥ 0xffff
      · right
        rw [hfail hv hlen]
      · left
        rw [hnew hv (by omega)]
    · left
      rw [hold (by omega)]
  · simp
    omega

theorem List.takeWhile_ne_zero_terminated (pName rest : List Nat)
    (hz : ∀ b ∈ pName, b ≠ 0) :
    (pName ++ 0 :: rest).takeWhile (fun b => decide (b ≠ 0)) = pName := by
  induction pName with
  | nil => simp
  | cons a t ih =>
      have ha : a ≠ 0 := hz a (List.mem_cons_self a t)
      have ht : ∀ b ∈ t, b ≠ 0 := fun b hb => hz b (List.mem_cons_of_mem a hb)
      have h := ih ht
      simp only [List.cons_append, List.takeWhile_cons, ha, ne_eq, not_false_eq_true,
        decide_True, if_true]
      rw [h]

theorem circuit.nameRequest_queue (env : stagingEnv) (c : circuit) (pName : List Nat)
    (cmd : caCommand) :
    ((((if env.flushEarlyThreshold c.sendQue (CA_MESSAGE_ALIGN (pName.length + 1) + 16) = true
          then c.flushRequest env else c).sendQue.insertRequestHeader cmd
          (CA_MESSAGE_ALIGN (pName.length + 1)) 0 0 0 0
          (CA_V49 (if env.flushEarlyThreshold c.sendQue
              (CA_MESSAGE_ALIGN (pName.length + 1) + 16) = true
            then c.flushRequest env else c).minorProtocolVersion)).pushString
        (pName ++ [0]) (pName.length + 1)).pushString cacNillBytes
        (CA_MESSAGE_ALIGN (pName.length + 1) - (pName.length + 1))).commit =
      { requests := c.sendQue.requests ++
          [⟨cmd, CA_MESSAGE_ALIGN (pName.length + 1), 0, 0, 0, 0,
            CA_V49 c.minorProtocolVersion,
            pName ++ 0 :: List.replicate
              (CA_MESSAGE_ALIGN (pName.length + 1) - (pName.length + 1)) 0⟩]
        staged := none } := by
  have hb := CA_MESSAGE_ALIGN_bounds (pName.length + 1)
  have hk : CA_MESSAGE_ALIGN (pName.length + 1) - (pName.length + 1) ≤ 8 := by omega
  have hf := circuit.earlyFlush_fields env c (CA_MESSAGE_ALIGN (pName.length + 1) + 16)
  rw [hf.1, hf.2.1]
  have ht : (pName ++ [0]).take (pName.length + 1) = pName ++ [0] :=
    List.take_of_length_le (by simp)
  simp [comQueSend.pushString, ht, cacNillBytes_take hk,
    comQueSend.pushBytes_insertRequestHeader, comQueSend.pushBytes_staged,
    comQueSend.commit_staged]

/-- C20: `hostNameSetRequest` and `userNameSetRequest` stage nothing when the minor
version of the peer is below 1; otherwise each stages exactly one message (`HOST_NAME`,
`CLIENT_NAME`) whose payload is the name, its terminating zero byte, then zero bytes up
to the next multiple of 8, the declared payload size being that padded length (a
multiple of 8, at least the name length plus 1 and at most the name length plus 8), so
that the payload read up to its first zero byte is the name. -/
theorem name_requests_stage_padded_name (env : stagingEnv) (c : circuit)
    (pName : List Nat) (hz : ∀ b ∈ pName, b ≠ 0)
    (hlen : CA_MESSAGE_ALIGN (pName.length + 1) < 0xffff) :
    (c.minorProtocolVersion < 1 →
      c.hostNameSetRequest env pName = (c, none) ∧
      c.userNameSetRequest env pName = (c, none)) ∧
    (c.minorProtocolVersion ≥ 1 →
      (c.hostNameSetRequest env pName).2 = none ∧
      (c.hostNameSetRequest env pName).1.sendQue =
        { requests := c.sendQue.requests ++
            [⟨CA_PROTO_HOST_NAME, CA_MESSAGE_ALIGN (pName.length + 1), 0, 0, 0, 0,
              CA_V49 c.minorProtocolVersion,
              pName ++ 0 :: List.replicate
                (CA_MESSAGE_ALIGN (pName.length + 1) - (pName.length + 1)) 0⟩]
          staged := none } ∧
      (c.userNameSetRequest env pName).2 = none ∧
      (c.userNameSetRequest env pName).1.sendQue =
        { requests := c.sendQue.requests ++
            [⟨CA_PROTO_CLIENT_NAME, CA_MESSAGE_ALIGN (pName.length + 1), 0, 0, 0, 0,
              CA_V49 c.minorProtocolVersion,
              pName ++ 0 :: List.replicate
                (CA_MESSAGE_ALIGN (pName.length + 1) - (pName.length + 1)) 0⟩]
          staged := none }) ∧
    (CA_MESSAGE_ALIGN (pName.length + 1) % 8 = 0 ∧
      pName.length + 1 ≤ CA_MESSAGE_ALIGN (pName.length + 1) ∧
      CA_MESSAGE_ALIGN (pName.length + 1) ≤ pName.length + 8 ∧
      (pName ++ 0 :: List.replicate
        (CA_MESSAGE_ALIGN (pName.length + 1) - (pName.length + 1)) 0).length =
        CA_MESSAGE_ALIGN (pName.length + 1) ∧
      (pName ++ 0 :: List.replicate
        (CA_MESSAGE_ALIGN (pName.length + 1) - (pName.length + 1)) 0).takeWhile
          (fun b => decide (b ≠ 0)) = pName) := by
  have hb := CA_MESSAGE_ALIGN_bounds (pName.length + 1)
  refine ⟨?_, ?_, ?_, hb.2.1, by omega, ?_, List.takeWhile_ne_zero_terminated pName _ hz⟩
  · intro hv
    have hv0 : c.minorProtocolVersion = 0 := by omega
    simp [circuit.hostNameSetRequest, circuit.userNameSetRequest, CA_V41, hv0]
  · intro hv
    have hq1 := circuit.nameRequest_queue env c pName CA_PROTO_HOST_NAME
    have hq2 := circuit.nameRequest_queue env c pName CA_PROTO_CLIENT_NAME
    unfold circuit.hostNameSetRequest circuit.userNameSetRequest
    simp only [CA_V41, hv, decide_True, not_true_eq_false, if_false, hlen]
    exact ⟨trivial, hq1, trivial, hq2⟩
  · exact hb.1
  · simp
    omega

/-- Witness for C20: the host name `"ioc"` on a v4.9 circuit is staged as 8 bytes. -/
theorem name_requests_stage_padded_name_witness :
    (exampleCircuit.hostNameSetRequest exampleStagingEnv [105, 111, 99]).1.sendQue =
      { requests := [⟨CA_PROTO_HOST_NAME, 8, 0, 0, 0, 0, true,
          [105, 111, 99, 0, 0, 0, 0, 0]⟩]
        staged := none } :=
  ((name_requests_stage_padded_name exampleStagingEnv exampleCircuit [105, 111, 99]
    (by decide) (by decide)).2.1 (by decide)).2.1

/-! ## Rejected messages and the receive engine -/

theorem recvState.fetchOldMsgHeader_dispatched (s : recvState) :
    s.fetchOldMsgHeader.1.dispatched = s.dispatched := by
  unfold recvState.fetchOldMsgHeader
  cases hp : comQueRecv.popOldMsgHeader s.recvQue <;> split_ifs <;> simp

theorem recvState.fetchAnnex_dispatched (s : recvState) :
    s.fetchAnnex.1.dispatched = s.dispatched := by
  unfold recvState.fetchAnnex
  dsimp only
  split_ifs <;> simp

theorem recvState.fetchMsgHeader_dispatched (s : recvState) :
    s.fetchMsgHeader.1.dispatched = s.dispatched := by
  unfold recvState.fetchMsgHeader
  dsimp only
  split_ifs
  · rfl
  · rw [recvState.fetchAnnex_dispatched, recvState.fetchOldMsgHeader_dispatched]
  · exact recvState.fetchOldMsgHeader_dispatched s

/-- What one call of `processBody` adds to the record of dispatcher calls: nothing
when it returns `true`, one rejected message when it returns `false`, and at most one
accepted message when the loop goes round again. -/
theorem recvState.processBody_dispatched {env : cacEnv} {v w : recvState} {o : Option Bool}
    (e : v.processBody env = (w, o)) :
    (o = some true → w.dispatched = v.dispatched) ∧
    (o = some false → ∃ d, w.dispatched = v.dispatched ++ [d] ∧
      env.executeResponse d.1 d.2 = false) ∧
    (o = none → w.dispatched = v.dispatched ∨
      ∃ d, w.dispatched = v.dispatched ++ [d] ∧ env.executeResponse d.1 d.2 = true) := by
  unfold recvState.processBody at e
  dsimp only at e
  split_ifs at e with h1 h2 h3 h4 h5 h6 h7 <;>
    simp only [Prod.mk.injEq] at e <;>
    obtain ⟨e1, e2⟩ := e <;> subst e1 <;> subst e2 <;>
    simp_all [recvState.reset]

theorem recvState.processIncomingBody_dispatched {env : cacEnv} {s s1 : recvState}
    {o : Option Bool} (e : s.processIncomingBody env = (s1, o)) :
    (o = some true → s1.dispatched = s.dispatched) ∧
    (o = some false → ∃ d, s1.dispatched = s.dispatched ++ [d] ∧
      env.executeResponse d.1 d.2 = false) ∧
    (o = none → s1.dispatched = s.dispatched ∨
      ∃ d, s1.dispatched = s.dispatched ++ [d] ∧ env.executeResponse d.1 d.2 = true) := by
  have hd := recvState.fetchMsgHeader_dispatched s
  cases hf : s.fetchMsgHeader with
  | mk u ok =>
    rw [hf] at hd
    cases ok
    · rw [recvState.processIncomingBody_of_fetch_stall hf] at e
      simp only [Prod.mk.injEq] at e
      obtain ⟨e1, e2⟩ := e
      subst e1 e2
      simpa using hd
    · rw [recvState.processIncomingBody_of_fetch_ok hf] at e
      have h := recvState.processBody_dispatched e
      rw [(recvState.ensureBodyCache_fields env u).2.2.2.2.2] at h
      simp only at hd
      rw [hd] at h
      exact h

/-- What one call of `processIncoming` adds to the record of dispatcher calls: accepted
messages only when it returns `true`; accepted messages and then one rejected message
when it returns `false`. -/
theorem recvState.processIncoming_dispatched (env : cacEnv) :
    ∀ (n : Nat) (s s1 : recvState) (b : Bool), s.pending < n →
      s.processIncoming env = some (s1, b) →
      ∃ new, s1.dispatched = s.dispatched ++ new ∧
        (b = true → ∀ d ∈ new, env.executeResponse d.1 d.2 = true) ∧
        (b = false → ∃ pre d, new = pre ++ [d] ∧
          (∀ x ∈ pre, env.executeResponse x.1 x.2 = true) ∧
          env.executeResponse d.1 d.2 = false) := by
  intro n
  induction n with
  | zero => intro s s1 b h; omega
  | succ n ih =>
      intro s s1 b hlt h
      cases hb : s.processIncomingBody env with
      | mk t o =>
        have hd := recvState.processIncomingBody_dispatched hb
        cases o with
        | some r =>
            rw [recvState.processIncoming_of_return hb] at h
            simp only [Option.some.injEq, Prod.mk.injEq] at h
            obtain ⟨h1, h2⟩ := h
            subst h1 h2
            cases r
            · obtain ⟨d, hd1, hd2⟩ := hd.2.1 rfl
              exact ⟨[d], hd1, by simp, fun _ => ⟨[], d, by simp, by simp, hd2⟩⟩
            · exact ⟨[], by simpa using hd.1 rfl, by simp, by simp⟩
        | none =>
            rw [recvState.processIncoming_of_again hb] at h
            have hlt1 := recvState.processIncomingBody_again_pending hb
            obtain ⟨new, hn1, hn2, hn3⟩ := ih t s1 b (by omega) h
            rcases hd.2.2 rfl with h0 | ⟨d, hd1, hd2⟩
            · rw [h0] at hn1
              exact ⟨new, hn1, hn2, hn3⟩
            · rw [hd1, List.append_assoc] at hn1
              refine ⟨[d] ++ new, hn1, ?_, ?_⟩
              · intro hbt x hx
                rcases List.mem_append.1 hx with hx1 | hx1
                · rw [List.mem_singleton.1 hx1]
                  exact hd2
                · exact hn2 hbt x hx1
              · intro hbf
                obtain ⟨pre, r, hr1, hr2, hr3⟩ := hn3 hbf
                refine ⟨[d] ++ pre, r, by rw [hr1, List.append_assoc], ?_, hr3⟩
                intro x hx
                rcases List.mem_append.1 hx with hx1 | hx1
                · rw [List.mem_singleton.1 hx1]
                  exact hd2
                · exact hr2 x hx1

theorem tcpRecvThread.accountFrame_parser (c : circuit) (nBytesIn capacityBytes : Nat) :
    (tcpRecvThread.accountFrame c nBytesIn capacityBytes).parser = c.parser ∧
    (tcpRecvThread.accountFrame c nBytesIn capacityBytes).conn = c.conn := by
  unfold tcpRecvThread.accountFrame
  split_ifs <;> simp

/-- C11: `processIncoming` always returns, and it returns `false` if and only if the
dispatcher returned `false` for a message dispatched by that call; that message is then
the last one dispatched, whatever bytes follow it in the receive queue, and the receive
engine initiates abort shutdown and handles no further buffer.  In every other case,
running out of bytes in a header or in a payload included, it returns `true`. -/
theorem processIncoming_false_iff_dispatcher_rejects (env : cacEnv) :
    (∀ s : recvState, ∃ s1 b new,
      s.processIncoming env = some (s1, b) ∧
      s1.dispatched = s.dispatched ++ new ∧
      (b = false ↔ ∃ d ∈ new, env.executeResponse d.1 d.2 = false) ∧
      (b = false →
        (∃ pre d, new = pre ++ [d] ∧
          (∀ x ∈ pre, env.executeResponse x.1 x.2 = true) ∧
          env.executeResponse d.1 d.2 = false) ∧
        ∀ later : List Nat,
          (s.pushLastComBufReceived later).processIncoming env =
            some (s1.pushLastComBufReceived later, false))) ∧
    (∀ (info : epicsSocketSystemCallInterruptMechanismQueryInfo)
        (lingerStatus shutdownStatus : Int) (capacityBytes contiguousFrameCount : Nat)
        (c : circuit) (a : recvArrival) (rest : List recvArrival) (p : recvState),
      a.bytes ≠ [] →
      (c.parser.pushLastComBufReceived a.bytes).processIncoming env = some (p, false) →
      tcpRecvThread.frames env info lingerStatus shutdownStatus capacityBytes c
          contiguousFrameCount (a :: rest) =
        some { tcpRecvThread.accountFrame c a.bytes.length capacityBytes with
                parser := p
                conn := cac.initiateAbortShutdown c.conn info lingerStatus shutdownStatus } ∧
      ((cac.initiateAbortShutdown c.conn info lingerStatus shutdownStatus).state =
          iiucs_abort_shutdown ∨
        (cac.initiateAbortShutdown c.conn info lingerStatus shutdownStatus).state =
          iiucs_disconnected)) := by
  constructor
  · intro s
    obtain ⟨⟨s1, b⟩, h⟩ := recvState.processIncoming_total env s
    obtain ⟨new, hn1, hn2, hn3⟩ :=
      recvState.processIncoming_dispatched env _ s s1 b (Nat.lt_succ_self _) h
    refine ⟨s1, b, new, h, hn1, ⟨?_, ?_⟩, ?_⟩
    · intro hb
      obtain ⟨pre, d, hp1, _, hp3⟩ := hn3 hb
      exact ⟨d, by simp [hp1], hp3⟩
    · rintro ⟨d, hd1, hd2⟩
      cases b
      · rfl
      · have := hn2 rfl d hd1
        rw [this] at hd2
        cases hd2
    · intro hb
      subst hb
      exact ⟨hn3 rfl, fun later =>
        recvState.processIncoming_reject_push env later _ s s1 (Nat.lt_succ_self _) h⟩
  · intro info lingerStatus shutdownStatus capacityBytes contiguousFrameCount c a rest p
      hne h
    have hlen : a.bytes.length ≠ 0 := fun h0 => hne (List.length_eq_zero.1 h0)
    have hacc := tcpRecvThread.accountFrame_parser c a.bytes.length capacityBytes
    constructor
    · rw [tcpRecvThread.frames, if_neg hlen]
      unfold tcpRecvThread.processFrame
      simp only [hacc.1, h, hacc.2]
      simp
    · unfold cac.initiateAbortShutdown
      rw [tcpiiu.initiateAbortShutdown_state]
      split_ifs with hs
      · cases hs with
        | inl h1 => exact Or.inl h1
        | inr h1 => exact Or.inr h1
      · exact Or.inl rfl

/-- Witness for C11: the dispatcher of `exampleStrictEnv` rejects the second of three
frames that arrive in one buffer; the call returns `false` and the receive engine
starts abort shutdown without reading the buffer that follows. -/
theorem processIncoming_false_iff_dispatcher_rejects_witness :
    ∃ p, (exampleCircuit.parser.pushLastComBufReceived
          (exampleFrame.encode ++ exampleFrameExtended.encode ++
            exampleFrame.encode)).processIncoming exampleStrictEnv = some (p, false) ∧
      tcpRecvThread.frames exampleStrictEnv esscimqi_socketCloseRequired 0 0 64
          exampleCircuit 0
          [⟨exampleFrame.encode ++ exampleFrameExtended.encode ++ exampleFrame.encode,
            true⟩, ⟨exampleFrame.encode, false⟩] =
        some { tcpRecvThread.accountFrame exampleCircuit
                (exampleFrame.encode ++ exampleFrameExtended.encode ++
                  exampleFrame.encode).length 64 with
                parser := p
                conn := cac.initiateAbortShutdown exampleCircuit.conn
                  esscimqi_socketCloseRequired 0 0 } := by
  obtain ⟨⟨p, b⟩, hp⟩ := recvState.processIncoming_total exampleStrictEnv
    (exampleCircuit.parser.pushLastComBufReceived
      (exampleFrame.encode ++ exampleFrameExtended.encode ++ exampleFrame.encode))
  have hb : ((exampleCircuit.parser.pushLastComBufReceived
      (exampleFrame.encode ++ exampleFrameExtended.encode ++
        exampleFrame.encode)).processIncoming exampleStrictEnv).map Prod.snd =
      some false := by decide
  rw [hp] at hb
  simp only [Option.map_some', Option.some.injEq] at hb
  subst hb
  exact ⟨p, hp, ((processIncoming_false_iff_dispatcher_rejects exampleStrictEnv).2
    esscimqi_socketCloseRequired 0 0 64 0 exampleCircuit
    ⟨exampleFrame.encode ++ exampleFrameExtended.encode ++ exampleFrame.encode, true⟩
    [⟨exampleFrame.encode, false⟩] p (by decide) hp).1⟩

/-! ## Claims on the early flush and on the yield of the receive engine -/

/-- Counterexample for C21: with four requests queued the early flush threshold of
`exampleStagingEnv` is crossed by a write of eight bytes, yet `writeRequest` stages its
message without signalling the flush event, which `echoRequest` does signal. -/
theorem writeRequest_skips_early_flush :
    exampleStagingEnv.flushEarlyThreshold exampleBusyCircuit.sendQue (16 + 8) = true ∧
    exampleStagingEnv.occupiedBytes exampleBusyCircuit.sendQue > 0 ∧
    (exampleBusyCircuit.writeRequest exampleChannel 0 1 [1, 2, 3, 4, 5, 6, 7, 8]).2 = none ∧
    (exampleBusyCircuit.writeRequest exampleChannel 0 1
      [1, 2, 3, 4, 5, 6, 7, 8]).1.conn.trace = [] ∧
    (exampleBusyCircuit.echoRequest exampleStagingEnv).conn.trace =
      [SockEvent.sendThreadFlushEventSignal] := by
  decide

/-- C21 as amended: `hostNameSetRequest`, `userNameSetRequest`,
`enableFlowControlRequest`, `disableFlowControlRequest`, `versionMessage` and
`echoRequest` first evaluate `flushEarlyThreshold` on 16 bytes plus their payload size
and, when it is true, call `flushRequest`, which signals the send-thread flush event if
the send queue holds bytes; `writeRequest`, `writeNotifyRequest`, `readNotifyRequest`,
`subscriptionRequest`, `subscriptionCancelRequest`, `createChannelRequest` and
`clearChannelRequest` stage their message without evaluating the threshold and without
signalling the flush event. -/
theorem early_flush_only_in_circuit_requests (env : stagingEnv) (c : circuit) (chan : nciu)
    (subscr : netSubscription) (ioId type nElem sid cid priority : Nat)
    (pValue pName : List Nat) :
    ((c.flushRequest env).conn =
      if env.occupiedBytes c.sendQue > 0 then
        c.conn.emit SockEvent.sendThreadFlushEventSignal
      else c.conn) ∧
    ((c.echoRequest env).conn =
      if env.flushEarlyThreshold c.sendQue 16 then (c.flushRequest env).conn else c.conn) ∧
    ((c.enableFlowControlRequest env).conn =
      if env.flushEarlyThreshold c.sendQue 16 then (c.flushRequest env).conn else c.conn) ∧
    ((c.disableFlowControlRequest env).conn =
      if env.flushEarlyThreshold c.sendQue 16 then (c.flushRequest env).conn else c.conn) ∧
    (priority ≤ 0xffff →
      (c.versionMessage env priority).1.conn =
        if env.flushEarlyThreshold c.sendQue 16 then (c.flushRequest env).conn
        else c.conn) ∧
    (c.minorProtocolVersion ≥ 1 → CA_MESSAGE_ALIGN (pName.length + 1) < 0xffff →
      (c.hostNameSetRequest env pName).1.conn =
        (if env.flushEarlyThreshold c.sendQue (CA_MESSAGE_ALIGN (pName.length + 1) + 16)
          then (c.flushRequest env).conn else c.conn) ∧
      (c.userNameSetRequest env pName).1.conn =
        (if env.flushEarlyThreshold c.sendQue (CA_MESSAGE_ALIGN (pName.length + 1) + 16)
          then (c.flushRequest env).conn else c.conn)) ∧
    (c.writeRequest chan type nElem pValue).1.conn = c.conn ∧
    (c.writeNotifyRequest chan ioId type nElem pValue).1.conn = c.conn ∧
    (c.readNotifyRequest env chan ioId type nElem).1.conn = c.conn ∧
    (c.createChannelRequest env chan).1.conn = c.conn ∧
    (c.clearChannelRequest sid cid).conn = c.conn ∧
    (c.subscriptionCancelRequest chan subscr).conn = c.conn ∧
    ((c.subscriptionRequest env chan subscr).1.conn = c.conn ∨
      (c.subscriptionRequest env chan subscr).1.conn = c.conn.emit SockEvent.printf) := by
  refine ⟨?_, ?_, ?_, ?_, ?_, ?_, ?_, ?_, ?_, ?_, ?_, ?_, ?_⟩
  · unfold circuit.flushRequest
    split_ifs <;> rfl
  · unfold circuit.echoRequest
    dsimp only
    split_ifs <;> rfl
  · unfold circuit.enableFlowControlRequest
    dsimp only
    split_ifs <;> rfl
  · unfold circuit.disableFlowControlRequest
    dsimp only
    split_ifs <;> rfl
  · intro hp
    unfold circuit.versionMessage
    rw [if_neg (by simpa using hp)]
    dsimp only
    split_ifs <;> rfl
  · intro hv hlen
    unfold circuit.hostNameSetRequest circuit.userNameSetRequest
    simp only [CA_V41, hv, decide_True, not_true_eq_false, if_false, hlen]
    constructor <;> split_ifs <;> rfl
  · unfold circuit.writeRequest
    split_ifs <;> rfl
  · unfold circuit.writeNotifyRequest
    split_ifs <;> rfl
  · unfold circuit.readNotifyRequest
    dsimp only
    split_ifs <;> rfl
  · unfold circuit.createChannelRequest
    dsimp only
    split_ifs <;> rfl
  · rfl
  · rfl
  · unfold circuit.subscriptionRequest
    dsimp only
    split_ifs <;> simp

/-- C27: with bytes pending in the OS after every buffer, the receive engine handles
six buffers under one acquisition of the callback mutex, not five: of seven full
buffers that each hold one message, six are pushed and dispatched before the loop is
left, and of six buffers all six. -/
theorem receive_engine_yields_after_six_frames :
    (tcpRecvThread.frames exampleEnv esscimqi_socketCloseRequired 0 0 24 exampleCircuit 0
        (List.replicate 7 ⟨exampleFrame.encode, true⟩)).map
      (fun c => (c.parser.dispatched.length, c.contigRecvMsgCount)) = some (6, 6) ∧
    (tcpRecvThread.frames exampleEnv esscimqi_socketCloseRequired 0 0 24 exampleCircuit 0
        (List.replicate 6 ⟨exampleFrame.encode, true⟩)).map
      (fun c => (c.parser.dispatched.length, c.contigRecvMsgCount)) = some (6, 6) ∧
    (tcpRecvThread.frames exampleEnv esscimqi_socketCloseRequired 0 0 24 exampleCircuit 0
        (List.replicate 5 ⟨exampleFrame.encode, true⟩)).map
      (fun c => (c.parser.dispatched.length, c.contigRecvMsgCount)) = some (5, 5) := by
  decide

/-! ## Claims on socket writes and reads -/

theorem tcpiiu.applyAsyncs_nil (s : tcpiiu) : s.applyAsyncs [] = s := rfl

/-- Attempts interrupted by a signal are retried: each adds one `send` call to the
trace and nothing else. -/
theorem tcpiiu.sendLoop_retries (retries : List SyscallAttempt) :
    ∀ (s : tcpiiu) (script : List SyscallAttempt),
      (s.state = iiucs_connected ∨ s.state = iiucs_clean_shutdown) →
      (∀ r ∈ retries, r.status < 0 ∧ r.localError = SOCK_EINTR ∧ r.during = []) →
      s.sendLoop (retries ++ script) =
        ({ s with trace := s.trace ++
            List.replicate retries.length (SockEvent.send s.state) } : tcpiiu).sendLoop
          script := by
  induction retries with
  | nil =>
      intro s script _ _
      simp
  | cons r rs ih =>
      intro s script hs hr
      obtain ⟨h1, h2, h3⟩ := hr r (List.mem_cons_self r rs)
      have hrs : ∀ x ∈ rs, x.status < 0 ∧ x.localError = SOCK_EINTR ∧ x.during = [] :=
        fun x hx => hr x (List.mem_cons_of_mem r hx)
      have hn1 : ¬ r.status > 0 := by omega
      have hn2 : ¬ r.status = 0 := by omega
      rw [List.cons_append, tcpiiu.sendLoop, if_pos hs]
      simp only [h3, tcpiiu.applyAsyncs_nil, hn1, hn2, h2, if_true, if_false]
      rw [ih (s.emit (SockEvent.send s.state)) script hs hrs]
      simp [tcpiiu.emit, List.replicate_succ]

/-- C25: in state `connected` or `clean_shutdown`, after any number of `send` calls
interrupted by a signal, which are retried without notifying, `sendBytes` returns `n`
when `send` returns `n > 0`; on a zero return, and on an error other than `EINTR`, it
notifies the disconnect once and returns 0; it prints a message exactly when `send`
failed with an error that is none of `EINTR`, `EPIPE`, `ECONNRESET`, `ETIMEDOUT`,
`ECONNABORTED`, `SHUTDOWN`.  On every path the send watchdog is started before the first
`send` and cancelled last. -/
theorem sendBytes_outcomes (s : tcpiiu) (retries : List SyscallAttempt) (a : SyscallAttempt)
    (rest : List SyscallAttempt)
    (hs : s.state = iiucs_connected ∨ s.state = iiucs_clean_shutdown)
    (hr : ∀ r ∈ retries, r.status < 0 ∧ r.localError = SOCK_EINTR ∧ r.during = [])
    (hd : a.during = []) :
    (a.status > 0 →
      s.sendBytes (retries ++ a :: rest) =
        ({ s with trace := (s.trace ++ [SockEvent.sendDogStart] ++
            List.replicate (retries.length + 1) (SockEvent.send s.state) ++
            [SockEvent.sendDogCancel]) }, some a.status.toNat)) ∧
    (a.status = 0 →
      s.sendBytes (retries ++ a :: rest) =
        ((cac.disconnectNotify { s with trace := (s.trace ++ [SockEvent.sendDogStart] ++
            List.replicate (retries.length + 1) (SockEvent.send s.state)) }).emit
          SockEvent.sendDogCancel, some 0)) ∧
    (a.status < 0 → a.localError ≠ SOCK_EINTR →
      s.sendBytes (retries ++ a :: rest) =
        ((cac.disconnectNotify { s with trace := (s.trace ++ [SockEvent.sendDogStart] ++
            List.replicate (retries.length + 1) (SockEvent.send s.state) ++
            (if a.localError = SOCK_EPIPE ∨ a.localError = SOCK_ECONNRESET ∨
                a.localError = SOCK_ETIMEDOUT ∨ a.localError = SOCK_ECONNABORTED ∨
                a.localError = SOCK_SHUTDOWN then []
              else [SockEvent.printf])) }).emit
          SockEvent.sendDogCancel, some 0)) := by
  have hs1 : (s.emit SockEvent.sendDogStart).state = iiucs_connected ∨
      (s.emit SockEvent.sendDogStart).state = iiucs_clean_shutdown := hs
  have hloop := tcpiiu.sendLoop_retries retries (s.emit SockEvent.sendDogStart)
    (a :: rest) hs1 hr
  have hst : (s.emit SockEvent.sendDogStart).state = s.state := rfl
  refine ⟨?_, ?_, ?_⟩
  · intro ha
    unfold tcpiiu.sendBytes
    rw [hloop, tcpiiu.sendLoop, if_pos (by simpa [tcpiiu.emit] using hs)]
    simp [hd, tcpiiu.applyAsyncs_nil, ha, tcpiiu.emit, hst, List.replicate_succ']
  · intro ha
    have hn1 : ¬ a.status > 0 := by omega
    unfold tcpiiu.sendBytes
    rw [hloop, tcpiiu.sendLoop, if_pos (by simpa [tcpiiu.emit] using hs)]
    simp [hd, tcpiiu.applyAsyncs_nil, ha, tcpiiu.emit, hst, List.replicate_succ',
      cac.disconnectNotify, tcpiiu.disconnectNotify]
  · intro ha he
    have hn1 : ¬ a.status > 0 := by omega
    have hn2 : ¬ a.status = 0 := by omega
    unfold tcpiiu.sendBytes
    rw [hloop, tcpiiu.sendLoop, if_pos (by simpa [tcpiiu.emit] using hs)]
    simp only [hd, tcpiiu.applyAsyncs_nil, hn1, hn2, he, if_false]
    by_cases hq : a.localError = SOCK_EPIPE ∨ a.localError = SOCK_ECONNRESET ∨
        a.localError = SOCK_ETIMEDOUT ∨ a.localError = SOCK_ECONNABORTED ∨
        a.localError = SOCK_SHUTDOWN
    · have hq2 : ¬ (a.localError ≠ SOCK_EPIPE ∧ a.localError ≠ SOCK_ECONNRESET ∧
          a.localError ≠ SOCK_ETIMEDOUT ∧ a.localError ≠ SOCK_ECONNABORTED ∧
          a.localError ≠ SOCK_SHUTDOWN) := by tauto
      rw [if_neg hq2, if_pos hq]
      simp [tcpiiu.emit, hst, List.replicate_succ', cac.disconnectNotify,
        tcpiiu.disconnectNotify]
    · have hq2 : a.localError ≠ SOCK_EPIPE ∧ a.localError ≠ SOCK_ECONNRESET ∧
          a.localError ≠ SOCK_ETIMEDOUT ∧ a.localError ≠ SOCK_ECONNABORTED ∧
          a.localError ≠ SOCK_SHUTDOWN := by tauto
      rw [if_pos hq2, if_neg hq]
      simp [tcpiiu.emit, hst, List.replicate_succ', cac.disconnectNotify,
        tcpiiu.disconnectNotify]

/-- Witness for C25: a connected circuit, one interrupted `send`, then a `send` that
fails with an error outside the list; the message is printed and the disconnect
notified. -/
theorem sendBytes_outcomes_witness :
    ({ tcpiiu.init with state := iiucs_connected } : tcpiiu).sendBytes
        ([⟨[], -1, SOCK_EINTR⟩] ++ ⟨[], -1, SockErrno.other 5⟩ :: []) =
      ({ state := iiucs_disconnected
         discardingPendingData := false
         socketHasBeenClosed := false
         channelList := []
         trace := [SockEvent.sendDogStart, SockEvent.send iiucs_connected,
           SockEvent.send iiucs_connected, SockEvent.printf,
           SockEvent.sendThreadFlushEventSignal, SockEvent.sendDogCancel] }, some 0) :=
  (sendBytes_outcomes { tcpiiu.init with state := iiucs_connected } [⟨[], -1, SOCK_EINTR⟩]
    ⟨[], -1, SockErrno.other 5⟩ [] (Or.inl rfl) (by decide) rfl).2.2 (by decide) (by decide)

/-- Counterexample for C26: on a connected circuit a `recv` that fails with `EPIPE`, or
with `ETIMEDOUT`, makes `recvBytes` print its message about an unexpected problem; it
returns 0 after starting an abort shutdown. -/
theorem recvBytes_logs_epipe_and_etimedout :
    (tcpiiu.recvBytes esscimqi_socketCloseRequired 0 0
        { tcpiiu.init with state := iiucs_connected } [⟨[], -1, SOCK_EPIPE⟩]) =
      ({ state := iiucs_abort_shutdown
         discardingPendingData := true
         socketHasBeenClosed := true
         channelList := []
         trace := [SockEvent.printf, SockEvent.setLinger, SockEvent.epicsSocketDestroy,
           SockEvent.sendThreadFlushEventSignal] }, some 0) ∧
    (tcpiiu.recvBytes esscimqi_socketCloseRequired 0 0
        { tcpiiu.init with state := iiucs_connected } [⟨[], -1, SOCK_ETIMEDOUT⟩]) =
      ({ state := iiucs_abort_shutdown
         discardingPendingData := true
         socketHasBeenClosed := true
         channelList := []
         trace := [SockEvent.printf, SockEvent.setLinger, SockEvent.epicsSocketDestroy,
           SockEvent.sendThreadFlushEventSignal] }, some 0) := by
  decide

/-- C26 as amended: on the receive side a zero-byte read and the errors `SHUTDOWN`,
`ECONNABORTED` and `ECONNRESET` are treated as peer loss, for which `recvBytes` notifies
the disconnect, prints nothing and returns 0; `EINTR` is retried; a failed read that
finds the circuit no longer `connected` or `clean_shutdown` returns 0 silently; every
other error, `EPIPE` and `ETIMEDOUT` included, is printed as unexpected, starts an abort
shutdown and returns 0. -/
theorem recvBytes_outcomes (info : epicsSocketSystemCallInterruptMechanismQueryInfo)
    (lingerStatus shutdownStatus : Int) (s : tcpiiu) (a : SyscallAttempt)
    (rest : List SyscallAttempt)
    (hs : s.state = iiucs_connected ∨ s.state = iiucs_clean_shutdown) :
    (a.status > 0 →
      tcpiiu.recvBytes info lingerStatus shutdownStatus s (a :: rest) =
        (s.applyAsyncs a.during, some a.status.toNat)) ∧
    (a.status = 0 →
      tcpiiu.recvBytes info lingerStatus shutdownStatus s (a :: rest) =
        (cac.disconnectNotify (s.applyAsyncs a.during), some 0)) ∧
    (a.status < 0 →
      ¬ ((s.applyAsyncs a.during).state = iiucs_connected ∨
          (s.applyAsyncs a.during).state = iiucs_clean_shutdown) →
      tcpiiu.recvBytes info lingerStatus shutdownStatus s (a :: rest) =
        (s.applyAsyncs a.during, some 0)) ∧
    (a.status < 0 →
      ((s.applyAsyncs a.during).state = iiucs_connected ∨
        (s.applyAsyncs a.during).state = iiucs_clean_shutdown) →
      (a.localError = SOCK_SHUTDOWN ∨ a.localError = SOCK_ECONNABORTED ∨
        a.localError = SOCK_ECONNRESET) →
      tcpiiu.recvBytes info lingerStatus shutdownStatus s (a :: rest) =
        (cac.disconnectNotify (s.applyAsyncs a.during), some 0) ∧
      (cac.disconnectNotify (s.applyAsyncs a.during)).trace =
        (s.applyAsyncs a.during).trace ++ [SockEvent.sendThreadFlushEventSignal]) ∧
    (a.status < 0 →
      ((s.applyAsyncs a.during).state = iiucs_connected ∨
        (s.applyAsyncs a.during).state = iiucs_clean_shutdown) →
      a.localError = SOCK_EINTR →
      tcpiiu.recvBytes info lingerStatus shutdownStatus s (a :: rest) =
        tcpiiu.recvBytes info lingerStatus shutdownStatus (s.applyAsyncs a.during) rest) ∧
    (a.status < 0 →
      ((s.applyAsyncs a.during).state = iiucs_connected ∨
        (s.applyAsyncs a.during).state = iiucs_clean_shutdown) →
      a.localError ≠ SOCK_SHUTDOWN → a.localError ≠ SOCK_EINTR →
      a.localError ≠ SOCK_ECONNABORTED → a.localError ≠ SOCK_ECONNRESET →
      tcpiiu.recvBytes info lingerStatus shutdownStatus s (a :: rest) =
        (cac.initiateAbortShutdown ((s.applyAsyncs a.during).emit SockEvent.printf) info
          lingerStatus shutdownStatus, some 0)) := by
  refine ⟨?_, ?_, ?_, ?_, ?_, ?_⟩
  · intro ha
    unfold tcpiiu.recvBytes
    rw [tcpiiu.recvLoop, if_pos hs]
    simp [ha]
  · intro ha
    unfold tcpiiu.recvBytes
    rw [tcpiiu.recvLoop, if_pos hs]
    simp [ha]
  · intro ha hn
    have hn1 : ¬ a.status > 0 := by omega
    have hn2 : ¬ a.status = 0 := by omega
    have hn3 : (s.applyAsyncs a.during).state ≠ iiucs_connected ∧
        (s.applyAsyncs a.during).state ≠ iiucs_clean_shutdown := by
      constructor
      · exact fun h => hn (Or.inl h)
      · exact fun h => hn (Or.inr h)
    unfold tcpiiu.recvBytes
    rw [tcpiiu.recvLoop, if_pos hs]
    simp only [hn1, hn2, if_false]
    rw [if_pos hn3]
  · intro ha hok he
    have hn1 : ¬ a.status > 0 := by omega
    have hn2 : ¬ a.status = 0 := by omega
    have hn3 : ¬ ((s.applyAsyncs a.during).state ≠ iiucs_connected ∧
        (s.applyAsyncs a.during).state ≠ iiucs_clean_shutdown) := by
      rintro ⟨h1, h2⟩
      exact hok.elim h1 h2
    refine ⟨?_, ?_⟩
    · unfold tcpiiu.recvBytes
      rw [tcpiiu.recvLoop, if_pos hs]
      simp only [hn1, hn2, if_false]
      rw [if_neg hn3]
      rcases he with he | he | he <;> simp [he]
    · simp [cac.disconnectNotify, tcpiiu.disconnectNotify, tcpiiu.emit]
  · intro ha hok he
    have hn1 : ¬ a.status > 0 := by omega
    have hn2 : ¬ a.status = 0 := by omega
    have hn3 : ¬ ((s.applyAsyncs a.during).state ≠ iiucs_connected ∧
        (s.applyAsyncs a.during).state ≠ iiucs_clean_shutdown) := by
      rintro ⟨h1, h2⟩
      exact hok.elim h1 h2
    unfold tcpiiu.recvBytes
    rw [tcpiiu.recvLoop, if_pos hs]
    simp only [hn1, hn2, if_false]
    rw [if_neg hn3]
    simp [he]
  · intro ha hok h1 h2 h3 h4
    have hn1 : ¬ a.status > 0 := by omega
    have hn2 : ¬ a.status = 0 := by omega
    have hn3 : ¬ ((s.applyAsyncs a.during).state ≠ iiucs_connected ∧
        (s.applyAsyncs a.during).state ≠ iiucs_clean_shutdown) := by
      rintro ⟨k1, k2⟩
      exact hok.elim k1 k2
    unfold tcpiiu.recvBytes
    rw [tcpiiu.recvLoop, if_pos hs]
    simp only [hn1, hn2, if_false]
    rw [if_neg hn3]
    simp [h1, h2, h3, h4]

/-- Witness for C26: a connection reset met by a connected circuit is a peer loss. -/
theorem recvBytes_outcomes_witness :
    tcpiiu.recvBytes esscimqi_socketCloseRequired 0 0
        { tcpiiu.init with state := iiucs_connected } [⟨[], -1, SOCK_ECONNRESET⟩] =
      (cac.disconnectNotify { tcpiiu.init with state := iiucs_connected }, some 0) :=
  ((recvBytes_outcomes esscimqi_socketCloseRequired 0 0
    { tcpiiu.init with state := iiucs_connected } ⟨[], -1, SOCK_ECONNRESET⟩ []
    (Or.inl rfl)).2.2.2.1 (by decide) (Or.inl rfl) (Or.inr (Or.inr rfl))).1

/-! ## Claims on the VXI slow-handshake read and on asynchronous IO completion -/

/-- C29: when the buffer fills before the device signals `END`, the slow-handshake read
returns `VXI_SUCCESS` with the data bytes stored and terminated by a zero byte inside
the buffer, but `*pread_count` is left at whatever value it held: with room for 3 bytes
and a device that sends `A`, `B` without `END`, two bytes are stored and `*pread_count`
is still the caller's `p`; with `END` on the second byte it is set to 2; with room for
1 byte nothing is read and it is not set either. -/
theorem epvxiRead_full_buffer_leaves_pread_count :
    (∀ p : Nat,
      epvxiRead exampleVxiEnv true 0 3 [85, 85, 85, 85] p
          [⟨0, 0, 65⟩, ⟨0, 0, 66⟩, ⟨0, 0, 67⟩] =
        some { status := 0, buf := [65, 66, 0, 85], pread_count := p }) ∧
    (∀ p : Nat,
      epvxiRead exampleVxiEnv true 0 3 [85, 85, 85, 85] p
          [⟨0, 0, 65⟩, ⟨0, 0, 0x100 + 66⟩] =
        some { status := 0, buf := [65, 66, 0, 85], pread_count := 2 }) ∧
    (∀ p : Nat,
      epvxiRead exampleVxiEnv true 0 1 [85, 85] p [] =
        some { status := 0, buf := [0, 85], pread_count := p }) := by
  refine ⟨fun p => ?_, fun p => ?_, fun p => ?_⟩ <;>
    simp [epvxiRead, epvxiReadSlowHandshake, epvxiReadSlowHandshake.loop, exampleVxiEnv,
      (by decide : Nat.land 65 256 = 0), (by decide : Nat.land 66 256 = 0)]

theorem casAsyncIOI.postIOCompletionI_blocked {io : casAsyncIOI} (client : casCoreClient)
    (h : io.posted = true ∨ io.serverDelete = true ∨ io.duplicate = true) :
    (io.postIOCompletionI client).2.2 = S_cas_redundantPost ∧
    ((io.postIOCompletionI client).1.posted = true ∨
      (io.postIOCompletionI client).1.serverDelete = true ∨
      (io.postIOCompletionI client).1.duplicate = true) ∧
    (io.postIOCompletionI client).2.1.eventQueue.Sublist client.eventQueue := by
  unfold casAsyncIOI.postIOCompletionI casAsyncIOI.serverDestroy casAsyncIOI.destructor
  rcases io with ⟨self, q, posted, ioc, sd, dup, del⟩
  cases sd <;> cases dup <;> cases posted <;> cases q <;>
    simp [List.erase_sublist] at h ⊢

theorem casAsyncIOI.postIOCompletionI_fresh {io : casAsyncIOI} (client : casCoreClient)
    (h1 : io.serverDelete = false) (h2 : io.duplicate = false) (h3 : io.posted = false) :
    io.postIOCompletionI client =
      ({ io with posted := true, inTheEventQueue := true },
       { client with eventQueue := client.eventQueue ++ [io.self] }, S_cas_success) := by
  unfold casAsyncIOI.postIOCompletionI
  simp [h1, h2, h3]

theorem casAsyncIOI.cbFunc_blocked {io : casAsyncIOI} (client : casCoreClient)
    (status : caStatus)
    (h : io.posted = true ∨ io.serverDelete = true ∨ io.duplicate = true) :
    (io.cbFunc client status).1.posted = true ∨
      (io.cbFunc client status).1.serverDelete = true ∨
      (io.cbFunc client status).1.duplicate = true := by
  unfold casAsyncIOI.cbFunc casAsyncIOI.serverDestroy casAsyncIOI.destructor
  dsimp only
  split_ifs <;> simp_all

theorem casAsyncIOI.calls_blocked (calls : List casAsyncIOCall) :
    ∀ (io : casAsyncIOI) (client : casCoreClient) (posts : List caStatus),
      (io.posted = true ∨ io.serverDelete = true ∨ io.duplicate = true) →
      (casAsyncIOI.calls calls io client posts).2.2.count S_cas_success =
        posts.count S_cas_success := by
  induction calls with
  | nil => intro io client posts _; rfl
  | cons call rest ih =>
      intro io client posts h
      cases call with
      | postIOCompletionI =>
          obtain ⟨h1, h2, _⟩ := casAsyncIOI.postIOCompletionI_blocked client h
          rw [casAsyncIOI.calls]
          rw [ih _ _ _ h2, h1]
          simp
      | cbFunc status =>
          rw [casAsyncIOI.calls]
          exact ih _ _ _ (casAsyncIOI.cbFunc_blocked client status h)
      | serverDestroy =>
          rw [casAsyncIOI.calls]
          exact ih _ _ _ (Or.inr (Or.inl rfl))

theorem casAsyncIOI.calls_success_le (calls : List casAsyncIOCall) :
    ∀ (io : casAsyncIOI) (client : casCoreClient) (posts : List caStatus),
      (casAsyncIOI.calls calls io client posts).2.2.count S_cas_success ≤
        posts.count S_cas_success + 1 := by
  induction calls with
  | nil => intro io client posts; simp [casAsyncIOI.calls]
  | cons call rest ih =>
      intro io client posts
      cases call with
      | postIOCompletionI =>
          rw [casAsyncIOI.calls]
          by_cases hb : io.posted = true ∨ io.serverDelete = true ∨ io.duplicate = true
          · obtain ⟨h1, h2, _⟩ := casAsyncIOI.postIOCompletionI_blocked client hb
            rw [casAsyncIOI.calls_blocked rest _ _ _ h2, h1]
            simp
          · have h1 : io.serverDelete = false := by
              cases h : io.serverDelete
              · rfl
              · exact absurd (Or.inr (Or.inl h)) hb
            have h2 : io.duplicate = false := by
              cases h : io.duplicate
              · rfl
              · exact absurd (Or.inr (Or.inr h)) hb
            have h3 : io.posted = false := by
              cases h : io.posted
              · rfl
              · exact absurd (Or.inl h) hb
            rw [casAsyncIOI.postIOCompletionI_fresh client h1 h2 h3]
            rw [casAsyncIOI.calls_blocked rest _ _ _ (Or.inl rfl)]
            simp
      | cbFunc status =>
          rw [casAsyncIOI.calls]
          exact ih _ _ _
      | serverDestroy =>
          rw [casAsyncIOI.calls]
          exact ih _ _ _

/-- C30: `postIOCompletionI` returns `S_cas_success`, marks the object posted and puts
it at the end of the event queue of the client exactly when the object is not a
duplicate, has not been deleted by the server and has not been posted before; every
other call returns `S_cas_redundantPost` and adds nothing to the event queue; so over
any sequence of calls on one object, `cbFunc` and `serverDestroy` among them, at most
one `postIOCompletionI` returns `S_cas_success`. -/
theorem postIOCompletionI_accepted_at_most_once (io : casAsyncIOI) (client : casCoreClient)
    (calls : List casAsyncIOCall) :
    (io.serverDelete = false → io.duplicate = false → io.posted = false →
      io.postIOCompletionI client =
        ({ io with posted := true, inTheEventQueue := true },
         { client with eventQueue := client.eventQueue ++ [io.self] }, S_cas_success)) ∧
    ((io.posted = true ∨ io.serverDelete = true ∨ io.duplicate = true) →
      (io.postIOCompletionI client).2.2 = S_cas_redundantPost ∧
      (io.postIOCompletionI client).2.1.eventQueue.Sublist client.eventQueue) ∧
    ((io.postIOCompletionI client).2.2 = S_cas_success ↔
      (io.serverDelete = false ∧ io.duplicate = false ∧ io.posted = false)) ∧
    (casAsyncIOI.calls calls io client []).2.2.count S_cas_success ≤ 1 := by
  refine ⟨casAsyncIOI.postIOCompletionI_fresh client, ?_, ?_, ?_⟩
  · intro h
    obtain ⟨h1, _, h3⟩ := casAsyncIOI.postIOCompletionI_blocked client h
    exact ⟨h1, h3⟩
  · constructor
    · intro hs
      by_cases hb : io.posted = true ∨ io.serverDelete = true ∨ io.duplicate = true
      · rw [(casAsyncIOI.postIOCompletionI_blocked client hb).1] at hs
        cases hs
      · refine ⟨?_, ?_, ?_⟩
        · cases h : io.serverDelete
          · rfl
          · exact absurd (Or.inr (Or.inl h)) hb
        · cases h : io.duplicate
          · rfl
          · exact absurd (Or.inr (Or.inr h)) hb
        · cases h : io.posted
          · rfl
          · exact absurd (Or.inl h) hb
    · rintro ⟨h1, h2, h3⟩
      rw [casAsyncIOI.postIOCompletionI_fresh client h1 h2 h3]
  · simpa using casAsyncIOI.calls_success_le calls io client []

/-! ## Lemmas on the drain of the send queue -/

/-- The unacknowledged byte count goes up by the bytes of the buffer written last; no
other field changes. -/
theorem circuit.addUnacked_fields (c : circuit) (n : Nat) :
    (if n ≠ 0 then
        { c with unacknowledgedSendBytes := (c.unacknowledgedSendBytes + n) % 4294967296 }
      else c) =
      { c with unacknowledgedSendBytes :=
          if n ≠ 0 then (c.unacknowledgedSendBytes + n) % 4294967296
          else c.unacknowledgedSendBytes } := by
  split_ifs <;> rfl

/-- One iteration of the loop of `flush` on a non-empty queue, by the result of the
write. -/
theorem circuit.flushLoop_cons (pBuf : comBuf) (rest : List comBuf) (c : circuit)
    (n : Nat) (ok : Bool) (log : List SendEngineEvent)
    (scripts : List (List (List SyscallAttempt))) :
    circuit.flushLoop (pBuf :: rest) c n ok log scripts =
      match (pBuf.flushToWire c.conn (scripts.headD [])).2 with
      | none =>
          ({ c with
              unacknowledgedSendBytes :=
                if n ≠ 0 then (c.unacknowledgedSendBytes + n) % 4294967296
                else c.unacknowledgedSendBytes
              conn := (pBuf.flushToWire c.conn (scripts.headD [])).1 }, log, none)
      | some false =>
          ({ c with
              unacknowledgedSendBytes :=
                if n ≠ 0 then (c.unacknowledgedSendBytes + n) % 4294967296
                else c.unacknowledgedSendBytes
              conn := (pBuf.flushToWire c.conn (scripts.headD [])).1
              sendQue := { c.sendQue with requests := [] } },
            log ++ [SendEngineEvent.flushToWire pBuf.bytes false], some false)
      | some true =>
          circuit.flushLoop rest
            { c with
              unacknowledgedSendBytes :=
                if n ≠ 0 then (c.unacknowledgedSendBytes + n) % 4294967296
                else c.unacknowledgedSendBytes
              conn := (pBuf.flushToWire c.conn (scripts.headD [])).1 }
            pBuf.occupiedBytes true
            (log ++ [SendEngineEvent.flushToWire pBuf.bytes true] ++
              (if (if n ≠ 0 then (c.unacknowledgedSendBytes + n) % 4294967296
                    else c.unacknowledgedSendBytes) > c.socketLibrarySendBufferSize then
                [SendEngineEvent.sendBacklogProgressNotify]
              else []))
            scripts.tail := by
  rw [circuit.flushLoop, circuit.addUnacked_fields]
  dsimp only
  cases h : (pBuf.flushToWire c.conn (scripts.headD [])).2 with
  | none => rfl
  | some b =>
      cases b
      · rfl
      · dsimp only
        split_ifs <;> simp

theorem circuit.flushLoop_nil (c : circuit) (n : Nat) (ok : Bool)
    (log : List SendEngineEvent) (scripts : List (List (List SyscallAttempt))) :
    circuit.flushLoop [] c n ok log scripts =
      ({ c with
          unacknowledgedSendBytes :=
            if n ≠ 0 then (c.unacknowledgedSendBytes + n) % 4294967296
            else c.unacknowledgedSendBytes
          sendQue := { c.sendQue with requests := [] } }, log, some ok) := by
  rw [circuit.flushLoop, circuit.addUnacked_fields]

/-- What the loop of `flush` leaves when it returns: an empty queue, the flags it does
not touch, and a log extended by writes and progress notifications only, the writes
being those of the queued buffers in order up to the first that failed. -/
theorem circuit.flushLoop_returns (bufs : List comBuf) :
    ∀ (c : circuit) (n : Nat) (ok : Bool) (log : List SendEngineEvent)
      (scripts : List (List (List SyscallAttempt))) (c1 : circuit)
      (log1 : List SendEngineEvent) (r : Bool),
      circuit.flushLoop bufs c n ok log scripts = (c1, log1, some r) →
      c1.sendQue.requests = [] ∧
      c1.blockingForFlush = c.blockingForFlush ∧
      c1.socketLibrarySendBufferSize = c.socketLibrarySendBufferSize ∧
      (∃ more, log1 = log ++ more ∧
        (∀ e ∈ more, e = SendEngineEvent.sendBacklogProgressNotify ∨
          ∃ b s, e = SendEngineEvent.flushToWire b s) ∧
        ((bufs = [] ∧ r = ok ∧ more = []) ∨
          (bufs ≠ [] ∧ r = true ∧
            more.filterMap SendEngineEvent.written = bufs.map fun b => (b.bytes, true)) ∨
          (r = false ∧ ∃ pre b post, bufs = pre ++ b :: post ∧
            more.filterMap SendEngineEvent.written =
              (pre.map fun x => (x.bytes, true)) ++ [(b.bytes, false)]))) := by
  induction bufs with
  | nil =>
      intro c n ok log scripts c1 log1 r h
      rw [circuit.flushLoop_nil] at h
      simp only [Prod.mk.injEq, Option.some.injEq] at h
      obtain ⟨h1, h2, h3⟩ := h
      subst h1 h2 h3
      exact ⟨rfl, rfl, rfl, [], by simp, by simp, Or.inl ⟨rfl, rfl, rfl⟩⟩
  | cons pBuf rest ih =>
      intro c n ok log scripts c1 log1 r h
      rw [circuit.flushLoop_cons] at h
      cases hw : (pBuf.flushToWire c.conn (scripts.headD [])).2 with
      | none =>
          rw [hw] at h
          simp at h
      | some b =>
          rw [hw] at h
          cases b
          · simp only [Prod.mk.injEq, Option.some.injEq] at h
            obtain ⟨h1, h2, h3⟩ := h
            subst h1 h2 h3
            refine ⟨rfl, rfl, rfl, [SendEngineEvent.flushToWire pBuf.bytes false], rfl, ?_,
              Or.inr (Or.inr ⟨rfl, [], pBuf, rest, rfl, ?_⟩)⟩
            · intro e he
              rw [List.mem_singleton] at he
              exact Or.inr ⟨_, _, he⟩
            · simp [SendEngineEvent.written]
          · simp only at h
            obtain ⟨nl, hnl⟩ : ∃ nl : List SendEngineEvent, nl =
                (if (if n ≠ 0 then (c.unacknowledgedSendBytes + n) % 4294967296
                    else c.unacknowledgedSendBytes) > c.socketLibrarySendBufferSize then
                  [SendEngineEvent.sendBacklogProgressNotify]
                else []) := ⟨_, rfl⟩
            rw [← hnl] at h
            have hnl1 : nl.filterMap SendEngineEvent.written = [] := by
              rw [hnl]
              split_ifs <;> rfl
            have hnl2 : ∀ e ∈ nl, e = SendEngineEvent.sendBacklogProgressNotify := by
              rw [hnl]
              intro e he
              split_ifs at he <;> first | exact List.mem_singleton.1 he | simp at he
            obtain ⟨h1, h2, h3, more, hm1, hm2, hm3⟩ := ih _ _ _ _ _ _ _ _ h
            refine ⟨h1, h2, h3, ?_⟩
            refine ⟨[SendEngineEvent.flushToWire pBuf.bytes true] ++ nl ++ more, ?_, ?_, ?_⟩
            · rw [hm1]
              simp [List.append_assoc]
            · intro e he
              rcases List.mem_append.1 he with he1 | he1
              · rcases List.mem_append.1 he1 with he2 | he2
                · rw [List.mem_singleton] at he2
                  exact Or.inr ⟨_, _, he2⟩
                · exact Or.inl (hnl2 e he2)
              · exact hm2 e he1
            · have hhead : (([SendEngineEvent.flushToWire pBuf.bytes true] ++ nl ++
                  more).filterMap SendEngineEvent.written) =
                  (pBuf.bytes, true) :: more.filterMap SendEngineEvent.written := by
                rw [List.filterMap_append, List.filterMap_append, hnl1]
                simp [SendEngineEvent.written]
              rw [hhead]
              rcases hm3 with ⟨hr1, hr2, hr3⟩ | ⟨_, hr2, hr3⟩ | ⟨hr2, pre, b, post, hp1, hp2⟩
              · subst hr1
                refine Or.inr (Or.inl ⟨by simp, hr2, ?_⟩)
                rw [hr3]
                simp
              · refine Or.inr (Or.inl ⟨by simp, hr2, ?_⟩)
                rw [hr3]
                simp
              · refine Or.inr (Or.inr ⟨hr2, pBuf :: pre, b, post, by rw [hp1]; rfl, ?_⟩)
                rw [hp2]
                simp

theorem comBuf.totalBytes_cons (b : comBuf) (rest : List comBuf) :
    comBuf.totalBytes (b :: rest) = b.occupiedBytes + comBuf.totalBytes rest := by
  simp [comBuf.totalBytes]

theorem circuit.unacked_no_wrap {u n : Nat} (h : u + n < 4294967296) :
    (if n ≠ 0 then (u + n) % 4294967296 else u) = u + n := by
  split_ifs with hn
  · exact Nat.mod_eq_of_lt h
  · have : n = 0 := by simpa using hn
    omega

/-- The log of a drain in which every write succeeds, the byte count not wrapping
around: the progress notification after a buffer is decided by the bytes counted before
that buffer. -/
theorem circuit.flushLoop_success_log (bufs : List comBuf) :
    ∀ (c : circuit) (n : Nat) (ok : Bool) (log : List SendEngineEvent)
      (scripts : List (List (List SyscallAttempt))) (c1 : circuit)
      (log1 : List SendEngineEvent),
      circuit.flushLoop bufs c n ok log scripts = (c1, log1, some true) →
      c.unacknowledgedSendBytes + n + comBuf.totalBytes bufs < 4294967296 →
      log1 = log ++ expectedFlushLog c.socketLibrarySendBufferSize
        (c.unacknowledgedSendBytes + n) bufs ∧
      c1.unacknowledgedSendBytes =
        c.unacknowledgedSendBytes + n + comBuf.totalBytes bufs := by
  induction bufs with
  | nil =>
      intro c n ok log scripts c1 log1 h hov
      rw [circuit.flushLoop_nil] at h
      simp only [Prod.mk.injEq, Option.some.injEq] at h
      obtain ⟨h1, h2, _⟩ := h
      subst h1 h2
      have hu := circuit.unacked_no_wrap (u := c.unacknowledgedSendBytes) (n := n)
        (by simp [comBuf.totalBytes] at hov; omega)
      simp [expectedFlushLog, comBuf.totalBytes, hu]
  | cons pBuf rest ih =>
      intro c n ok log scripts c1 log1 h hov
      rw [comBuf.totalBytes_cons] at hov
      have hu := circuit.unacked_no_wrap (u := c.unacknowledgedSendBytes) (n := n)
        (by omega)
      rw [circuit.flushLoop_cons] at h
      cases hw : (pBuf.flushToWire c.conn (scripts.headD [])).2 with
      | none =>
          rw [hw] at h
          simp at h
      | some b =>
          rw [hw] at h
          cases b
          · simp at h
          · simp only [hu] at h
            obtain ⟨h1, h2⟩ := ih _ _ _ _ _ _ _ h (by simpa using (by omega :
              c.unacknowledgedSendBytes + n + pBuf.occupiedBytes + comBuf.totalBytes rest
                < 4294967296))
            refine ⟨?_, ?_⟩
            · rw [h1]
              simp [expectedFlushLog, List.append_assoc]
            · rw [h2, comBuf.totalBytes_cons]
              simp only
              omega

/-- A write in which one `send` accepts the whole buffer succeeds and leaves the state
of the connection as it was. -/
theorem comBuf.flushToWire_fullWrite (b : comBuf) (s : tcpiiu) (e : SockErrno)
    (hs : s.state = iiucs_connected ∨ s.state = iiucs_clean_shutdown) :
    (b.flushToWire s [[⟨[], (b.occupiedBytes : Int), e⟩]]).2 = some true ∧
    (b.flushToWire s [[⟨[], (b.occupiedBytes : Int), e⟩]]).1.state = s.state := by
  unfold comBuf.flushToWire
  rw [comBuf.flushToWireLoop]
  by_cases h0 : b.occupiedBytes = 0
  · simp [h0]
  · rw [if_neg h0]
    have hpos : ((b.occupiedBytes : Int) > 0) := by omega
    have hs1 : (s.emit SockEvent.sendDogStart).state = iiucs_connected ∨
        (s.emit SockEvent.sendDogStart).state = iiucs_clean_shutdown := hs
    have hsend : s.sendBytes [⟨[], (b.occupiedBytes : Int), e⟩] =
        (((s.emit SockEvent.sendDogStart).emit (SockEvent.send s.state)).emit
          SockEvent.sendDogCancel, some b.occupiedBytes) := by
      unfold tcpiiu.sendBytes
      rw [tcpiiu.sendLoop, if_pos hs1]
      simp [hpos, tcpiiu.applyAsyncs, tcpiiu.emit]
    rw [hsend]
    simp [h0, comBuf.flushToWireLoop, tcpiiu.emit]

/-- With scripts in which every buffer is accepted by one `send`, the loop of `flush`
returns `true`. -/
theorem circuit.flushLoop_fullWrites (bufs : List comBuf) :
    ∀ (c : circuit) (n : Nat) (log : List SendEngineEvent),
      (c.conn.state = iiucs_connected ∨ c.conn.state = iiucs_clean_shutdown) →
      (circuit.flushLoop bufs c n true log (comBuf.fullWrites bufs)).2.2 = some true := by
  induction bufs with
  | nil =>
      intro c n log _
      rw [circuit.flushLoop_nil]
  | cons pBuf rest ih =>
      intro c n log hs
      have hw := comBuf.flushToWire_fullWrite pBuf c.conn SOCK_EINTR hs
      rw [circuit.flushLoop_cons]
      have hhead : (comBuf.fullWrites (pBuf :: rest)).headD [] =
          [[⟨[], (pBuf.occupiedBytes : Int), SOCK_EINTR⟩]] := rfl
      have htail : (comBuf.fullWrites (pBuf :: rest)).tail = comBuf.fullWrites rest := rfl
      rw [hhead, htail, hw.1]
      simp only
      apply ih
      show (pBuf.flushToWire c.conn _).1.state = _ ∨ (pBuf.flushToWire c.conn _).1.state = _
      rw [hw.2]
      exact hs

/-- The result of `flush` on a queue that holds bytes, from the result of its loop. -/
theorem circuit.flush_of_loop (env : sendEnv) (c : circuit)
    (scripts : List (List (List SyscallAttempt))) (h0 : env.occupiedBytes c.sendQue ≠ 0)
    {c1 : circuit} {log : List SendEngineEvent} {r : Bool}
    (h : c.flush env scripts = (c1, log, some r)) :
    ∃ c0 log0, circuit.flushLoop (env.comBufs c.sendQue) c 0 true [] scripts =
        (c0, log0, some r) ∧
      c1 = { c0 with earlyFlush := false } ∧
      log = log0 ++ (if c0.blockingForFlush ≠ 0 then [SendEngineEvent.flushBlockEventSignal]
        else []) := by
  unfold circuit.flush at h
  rw [if_neg h0] at h
  dsimp only at h
  rcases hl : circuit.flushLoop (env.comBufs c.sendQue) c 0 true [] scripts with
    ⟨c0, log0, o⟩
  rw [hl] at h
  cases o with
  | none => simp at h
  | some r0 =>
      simp only [Prod.mk.injEq, Option.some.injEq] at h
      obtain ⟨h1, h2, h3⟩ := h
      subst h3
      refine ⟨c0, log0, rfl, h1.symm, ?_⟩
      rw [← h2]
      split_ifs <;> simp

/-! ## Claims on the drain of the send queue -/

/-- With scripts in which one `send` accepts each buffer, `flush` returns `true`. -/
theorem flush_drain_total (env : sendEnv) (c : circuit)
    (hs : c.conn.state = iiucs_connected ∨ c.conn.state = iiucs_clean_shutdown) :
    (c.flush env (comBuf.fullWrites (env.comBufs c.sendQue))).2.2 = some true := by
  unfold circuit.flush
  split_ifs with h0
  · rfl
  · dsimp only
    have hl := circuit.flushLoop_fullWrites (env.comBufs c.sendQue) c 0 [] hs
    rcases hx : circuit.flushLoop (env.comBufs c.sendQue) c 0 true []
      (comBuf.fullWrites (env.comBufs c.sendQue)) with ⟨c0, log0, o⟩
    rw [hx] at hl
    simp only at hl
    subst hl
    rfl

/-- C23: `flush` writes the queued buffers in queue order.  When it returns `true`
every queued buffer has been written; it returns `false` exactly when the write of a
buffer failed, and then the buffers before it have been written and none of the
buffers queued behind it; in both cases the send queue is empty afterwards.  A queue
without bytes makes it return `true` at once; and it does return `true` when one `send`
accepts each buffer. -/
theorem flush_writes_in_queue_order (env : sendEnv) (c : circuit)
    (scripts : List (List (List SyscallAttempt))) :
    (env.occupiedBytes c.sendQue = 0 → c.flush env scripts = (c, [], some true)) ∧
    (∀ (c1 : circuit) (log : List SendEngineEvent) (r : Bool),
      env.occupiedBytes c.sendQue ≠ 0 → c.flush env scripts = (c1, log, some r) →
      c1.sendQue.requests = [] ∧
      (r = true →
        log.filterMap SendEngineEvent.written =
          (env.comBufs c.sendQue).map fun b => (b.bytes, true)) ∧
      (r = false →
        ∃ pre b post, env.comBufs c.sendQue = pre ++ b :: post ∧
          log.filterMap SendEngineEvent.written =
            (pre.map fun x => (x.bytes, true)) ++ [(b.bytes, false)]) ∧
      (r = false ↔ ∃ b, (b, false) ∈ log.filterMap SendEngineEvent.written)) ∧
    ((c.conn.state = iiucs_connected ∨ c.conn.state = iiucs_clean_shutdown) →
      (c.flush env (comBuf.fullWrites (env.comBufs c.sendQue))).2.2 = some true) := by
  refine ⟨?_, ?_, ?_⟩
  · intro h0
    unfold circuit.flush
    rw [if_pos h0]
  · intro c1 log r h0 h
    obtain ⟨c0, log0, hl, hc1, hlog⟩ := circuit.flush_of_loop env c scripts h0 h
    obtain ⟨hq, _, _, more, hm1, _, hm3⟩ := circuit.flushLoop_returns _ _ _ _ _ _ _ _ _ hl
    have hw : log.filterMap SendEngineEvent.written =
        more.filterMap SendEngineEvent.written := by
      rw [hlog, hm1]
      split_ifs <;> simp [SendEngineEvent.written]
    have htrue : r = true →
        log.filterMap SendEngineEvent.written =
          (env.comBufs c.sendQue).map fun b => (b.bytes, true) := by
      intro hr
      rw [hw]
      rcases hm3 with ⟨e1, _, e3⟩ | ⟨_, _, e3⟩ | ⟨e1, _⟩
      · rw [e1, e3]
        rfl
      · exact e3
      · rw [hr] at e1
        cases e1
    have hfalse : r = false →
        ∃ pre b post, env.comBufs c.sendQue = pre ++ b :: post ∧
          log.filterMap SendEngineEvent.written =
            (pre.map fun x => (x.bytes, true)) ++ [(b.bytes, false)] := by
      intro hr
      rw [hw]
      rcases hm3 with ⟨_, e2, _⟩ | ⟨_, e2, _⟩ | ⟨_, e2⟩
      · rw [hr] at e2
        cases e2
      · rw [hr] at e2
        cases e2
      · exact e2
    refine ⟨?_, htrue, hfalse, ?_, ?_⟩
    · rw [hc1]
      exact hq
    · intro hr
      obtain ⟨pre, b, post, _, hp⟩ := hfalse hr
      exact ⟨b.bytes, by rw [hp]; simp⟩
    · rintro ⟨b, hb⟩
      cases r
      · rfl
      · rw [htrue rfl] at hb
        simp at hb
  · exact flush_drain_total env c

/-- Witness for C23: of three queued buffers the second meets a broken pipe; the first
two writes are made, the third buffer is not written, `flush` returns `false` and the
queue is empty. -/
theorem flush_writes_in_queue_order_witness :
    (exampleDrainCircuit.flush exampleSendEnv
        [[[⟨[], 16, SOCK_EINTR⟩]], [[⟨[], -1, SOCK_EPIPE⟩]]]).1.sendQue.requests = [] ∧
    ∃ pre b post, exampleSendEnv.comBufs exampleDrainCircuit.sendQue = pre ++ b :: post ∧
      (exampleDrainCircuit.flush exampleSendEnv
          [[[⟨[], 16, SOCK_EINTR⟩]], [[⟨[], -1, SOCK_EPIPE⟩]]]).2.1.filterMap
          SendEngineEvent.written =
        (pre.map fun x => (x.bytes, true)) ++ [(b.bytes, false)] := by
  have hr : (exampleDrainCircuit.flush exampleSendEnv
      [[[⟨[], 16, SOCK_EINTR⟩]], [[⟨[], -1, SOCK_EPIPE⟩]]]).2.2 = some false := by decide
  have h := (flush_writes_in_queue_order exampleSendEnv exampleDrainCircuit
    [[[⟨[], 16, SOCK_EINTR⟩]], [[⟨[], -1, SOCK_EPIPE⟩]]]).2.1 _ _ false (by decide)
    (by rw [← hr])
  exact ⟨h.1, h.2.2.1 rfl⟩

/-- C22: when the send engine has left its loop in state `clean_shutdown` and the
socket writes succeed, every buffer queued at that time is written to the socket, in
queue order, before the write half of the socket is shut down; and the writes do
succeed when one `send` accepts each buffer. -/
theorem finalFlush_drains_before_shutdown (env : sendEnv) (c : circuit)
    (shutdownStatus : Int) (hs : c.conn.state = iiucs_clean_shutdown)
    (hq : env.occupiedBytes c.sendQue = 0 → env.comBufs c.sendQue = []) :
    (∀ scripts : List (List (List SyscallAttempt)),
      (c.flush env scripts).2.2 = some true →
      ∃ c1 pre post,
        tcpSendThread.finalFlush env c scripts shutdownStatus =
          some (c1, pre ++ SendEngineEvent.shutdownWR :: post) ∧
        pre.filterMap SendEngineEvent.written =
          ((env.comBufs c.sendQue).map fun b => (b.bytes, true)) ∧
        SendEngineEvent.shutdownWR ∉ pre ∧
        post = (if shutdownStatus ≠ 0 then [SendEngineEvent.errlogPrintf] else [])) ∧
    (c.flush env (comBuf.fullWrites (env.comBufs c.sendQue))).2.2 = some true := by
  refine ⟨?_, (flush_drain_total env c (Or.inr hs))⟩
  intro scripts hw
  rcases hf : c.flush env scripts with ⟨c1, log, o⟩
  rw [hf] at hw
  simp only at hw
  subst hw
  have hfin : tcpSendThread.finalFlush env c scripts shutdownStatus =
      some (c1, log ++ SendEngineEvent.shutdownWR ::
        (if shutdownStatus ≠ 0 then [SendEngineEvent.errlogPrintf] else [])) := by
    unfold tcpSendThread.finalFlush
    rw [if_pos hs, hf]
    dsimp only
    split_ifs <;> simp
  refine ⟨c1, log, _, hfin, ?_, ?_, rfl⟩
  · by_cases h0 : env.occupiedBytes c.sendQue = 0
    · have he : c.flush env scripts = (c, [], some true) := by
        unfold circuit.flush
        rw [if_pos h0]
      rw [hf] at he
      simp only [Prod.mk.injEq] at he
      rw [he.2.1, hq h0]
      rfl
    · obtain ⟨c0, log0, hl, _, hlog⟩ := circuit.flush_of_loop env c scripts h0 hf
      obtain ⟨_, _, _, more, hm1, _, hm3⟩ := circuit.flushLoop_returns _ _ _ _ _ _ _ _ _ hl
      have hwr : log.filterMap SendEngineEvent.written =
          more.filterMap SendEngineEvent.written := by
        rw [hlog, hm1]
        split_ifs <;> simp [SendEngineEvent.written]
      rw [hwr]
      rcases hm3 with ⟨e1, _, e3⟩ | ⟨_, _, e3⟩ | ⟨e1, _⟩
      · rw [e1, e3]
        rfl
      · exact e3
      · cases e1
  · by_cases h0 : env.occupiedBytes c.sendQue = 0
    · have he : c.flush env scripts = (c, [], some true) := by
        unfold circuit.flush
        rw [if_pos h0]
      rw [hf] at he
      simp only [Prod.mk.injEq] at he
      rw [he.2.1]
      simp
    · obtain ⟨c0, log0, hl, _, hlog⟩ := circuit.flush_of_loop env c scripts h0 hf
      obtain ⟨_, _, _, more, hm1, hm2, _⟩ := circuit.flushLoop_returns _ _ _ _ _ _ _ _ _ hl
      rw [hlog, hm1]
      intro hmem
      rcases List.mem_append.1 hmem with h1 | h1
      · rw [List.nil_append] at h1
        rcases hm2 _ h1 with h2 | ⟨_, _, h2⟩ <;> cases h2
      · split_ifs at h1
        · rw [List.mem_singleton] at h1
          cases h1
        · simp at h1

/-- Witness for C22: the three write requests queued on `exampleDrainCircuit` are
written in order before the write half is shut down. -/
theorem finalFlush_drains_before_shutdown_witness :
    ∃ c1 pre post,
      tcpSendThread.finalFlush exampleSendEnv exampleDrainCircuit
          (comBuf.fullWrites (exampleSendEnv.comBufs exampleDrainCircuit.sendQue)) 0 =
        some (c1, pre ++ SendEngineEvent.shutdownWR :: post) ∧
      pre.filterMap SendEngineEvent.written =
        [([0, 0, 0, 1, 0, 0, 0, 0, 0, 0, 0, 0, 0, 0, 0, 0], true),
         ([0, 0, 0, 2, 0, 0, 0, 0, 0, 0, 0, 0, 0, 0, 0, 0], true),
         ([0, 0, 0, 3, 0, 0, 0, 0, 0, 0, 0, 0, 0, 0, 0, 0], true)] := by
  obtain ⟨c1, pre, post, h1, h2, _⟩ :=
    (finalFlush_drains_before_shutdown exampleSendEnv exampleDrainCircuit 0 rfl
      (by decide)).1
      (comBuf.fullWrites (exampleSendEnv.comBufs exampleDrainCircuit.sendQue))
      (finalFlush_drains_before_shutdown exampleSendEnv exampleDrainCircuit 0 rfl
        (by decide)).2
  exact ⟨c1, pre, post, h1, h2⟩

/-- Counterexample for C24: a `flush` that finds the send queue empty returns `true`
with `earlyFlush` still set and nothing signalled; and a `flush` that drains four
buffers while no writer is blocked does not signal the flush block event. -/
theorem flush_skips_signal_and_early_flush_reset :
    ({ exampleCircuit with earlyFlush := true, blockingForFlush := 1 } : circuit).flush
        exampleSendEnv [] =
      ({ exampleCircuit with earlyFlush := true, blockingForFlush := 1 }, [], some true) ∧
    ({ exampleBusyCircuit with conn := { tcpiiu.init with state := iiucs_connected } }
        : circuit).blockingForFlush = 0 ∧
    (({ exampleBusyCircuit with conn := { tcpiiu.init with state := iiucs_connected } }
        : circuit).flush exampleSendEnv
          (comBuf.fullWrites (exampleSendEnv.comBufs exampleBusyCircuit.sendQue))).2 =
      ([SendEngineEvent.flushToWire [0, 0, 0, 0, 0, 0, 0, 0, 0, 0, 0, 0, 0, 0, 0, 0] true,
        SendEngineEvent.flushToWire [0, 0, 0, 0, 0, 0, 0, 0, 0, 0, 0, 0, 0, 0, 0, 0] true,
        SendEngineEvent.flushToWire [0, 0, 0, 0, 0, 0, 0, 0, 0, 0, 0, 0, 0, 0, 0, 0] true,
        SendEngineEvent.flushToWire [0, 0, 0, 0, 0, 0, 0, 0, 0, 0, 0, 0, 0, 0, 0, 0] true],
       some true) := by
  decide

/-- C24 as amended: a `flush` that finds no bytes in the send queue returns `true` at
once, leaving `earlyFlush` as it was and signalling nothing; on every return from a
`flush` that found bytes queued, whether it succeeded or failed, `earlyFlush` is false,
and the flush block event has been signalled, once and as the last call, exactly when
a writer is blocked (`blockingForFlush` is not zero). -/
theorem flush_clears_early_flush_when_draining (env : sendEnv) (c : circuit)
    (scripts : List (List (List SyscallAttempt))) :
    (env.occupiedBytes c.sendQue = 0 → c.flush env scripts = (c, [], some true)) ∧
    (∀ (c1 : circuit) (log : List SendEngineEvent) (r : Bool),
      env.occupiedBytes c.sendQue ≠ 0 → c.flush env scripts = (c1, log, some r) →
      c1.earlyFlush = false ∧
      c1.blockingForFlush = c.blockingForFlush ∧
      (c.blockingForFlush ≠ 0 →
        ∃ pre, log = pre ++ [SendEngineEvent.flushBlockEventSignal] ∧
          SendEngineEvent.flushBlockEventSignal ∉ pre) ∧
      (c.blockingForFlush = 0 → SendEngineEvent.flushBlockEventSignal ∉ log)) ∧
    ((c.conn.state = iiucs_connected ∨ c.conn.state = iiucs_clean_shutdown) →
      (c.flush env (comBuf.fullWrites (env.comBufs c.sendQue))).2.2 = some true) := by
  refine ⟨?_, ?_, flush_drain_total env c⟩
  · intro h0
    unfold circuit.flush
    rw [if_pos h0]
  · intro c1 log r h0 h
    obtain ⟨c0, log0, hl, hc1, hlog⟩ := circuit.flush_of_loop env c scripts h0 h
    obtain ⟨_, hb, _, more, hm1, hm2, _⟩ := circuit.flushLoop_returns _ _ _ _ _ _ _ _ _ hl
    have hnot : SendEngineEvent.flushBlockEventSignal ∉ log0 := by
      rw [hm1, List.nil_append]
      intro hmem
      rcases hm2 _ hmem with h2 | ⟨_, _, h2⟩ <;> cases h2
    refine ⟨by rw [hc1], by rw [hc1]; exact hb, ?_, ?_⟩
    · intro hne
      rw [hb, if_pos hne] at hlog
      exact ⟨log0, hlog, hnot⟩
    · intro he
      rw [hb, if_neg (by simp [he]), List.append_nil] at hlog
      rw [hlog]
      exact hnot

/-- Counterexample for C28: with a send buffer of 20 bytes in the socket library and
nothing unacknowledged, the first buffer of 16 bytes is written without a progress
notification, and so is the second, although the count including it is 32; only the
third write, made when 32 bytes are counted, is followed by the notification. -/
theorem flush_notify_lags_one_buffer :
    exampleDrainCircuit.socketLibrarySendBufferSize = 20 ∧
    exampleDrainCircuit.unacknowledgedSendBytes = 0 ∧
    (exampleDrainCircuit.flush exampleSendEnv
        (comBuf.fullWrites (exampleSendEnv.comBufs exampleDrainCircuit.sendQue))).2 =
      ([SendEngineEvent.flushToWire [0, 0, 0, 1, 0, 0, 0, 0, 0, 0, 0, 0, 0, 0, 0, 0] true,
        SendEngineEvent.flushToWire [0, 0, 0, 2, 0, 0, 0, 0, 0, 0, 0, 0, 0, 0, 0, 0] true,
        SendEngineEvent.flushToWire [0, 0, 0, 3, 0, 0, 0, 0, 0, 0, 0, 0, 0, 0, 0, 0] true,
        SendEngineEvent.sendBacklogProgressNotify,
        SendEngineEvent.flushBlockEventSignal], some true) := by
  decide

/-- C28 as amended: during a `flush` in which every write succeeds, with no receive in
between and the byte count not wrapping around, the progress notification of the
receive watchdog is called after a buffer is written if and only if the unacknowledged
send bytes counted up to, but not including, the buffer just written exceed the send
buffer size of the socket; the bytes of a buffer are added to the count when the next
buffer is popped or the queue is found empty. -/
theorem flush_notifies_on_bytes_before_buffer (env : sendEnv) (c c1 : circuit)
    (scripts : List (List (List SyscallAttempt))) (log : List SendEngineEvent)
    (h0 : env.occupiedBytes c.sendQue ≠ 0)
    (hov : c.unacknowledgedSendBytes + comBuf.totalBytes (env.comBufs c.sendQue)
      < 4294967296)
    (h : c.flush env scripts = (c1, log, some true)) :
    log = expectedFlushLog c.socketLibrarySendBufferSize c.unacknowledgedSendBytes
        (env.comBufs c.sendQue) ++
      (if c.blockingForFlush ≠ 0 then [SendEngineEvent.flushBlockEventSignal] else []) ∧
    c1.unacknowledgedSendBytes =
      c.unacknowledgedSendBytes + comBuf.totalBytes (env.comBufs c.sendQue) := by
  obtain ⟨c0, log0, hl, hc1, hlog⟩ := circuit.flush_of_loop env c scripts h0 h
  obtain ⟨_, hb, _, _⟩ := circuit.flushLoop_returns _ _ _ _ _ _ _ _ _ hl
  obtain ⟨h1, h2⟩ := circuit.flushLoop_success_log _ _ _ _ _ _ _ _ hl (by simpa using hov)
  refine ⟨?_, ?_⟩
  · rw [hlog, h1, hb]
    simp
  · rw [hc1]
    simpa using h2

/-- Witness for C28: the drain of `exampleDrainCircuit`. -/
theorem flush_notifies_on_bytes_before_buffer_witness :
    (exampleDrainCircuit.flush exampleSendEnv
        (comBuf.fullWrites (exampleSendEnv.comBufs exampleDrainCircuit.sendQue))).2.1 =
      expectedFlushLog 20 0 (exampleSendEnv.comBufs exampleDrainCircuit.sendQue) ++
        [SendEngineEvent.flushBlockEventSignal] :=
  (flush_notifies_on_bytes_before_buffer exampleSendEnv exampleDrainCircuit _
    (comBuf.fullWrites (exampleSendEnv.comBufs exampleDrainCircuit.sendQue)) _ (by decide)
    (by decide)
    (by rw [← (show (exampleDrainCircuit.flush exampleSendEnv
        (comBuf.fullWrites (exampleSendEnv.comBufs exampleDrainCircuit.sendQue))).2.2 =
          some true from by decide)])).1
